import Mathlib

/-!
# User management API: embedding and verified properties

A shallow embedding of the Go backend (`internal/domain/entity`,
`internal/service`, `internal/repository/mysql`, `internal/handler/http`).

Conventions of the embedding:

* Go `string` is `String` (valid UTF-8 text); Go `int`, `int64` are `Int`, with
  `wrapInt` applied where the source does arithmetic that can leave the 64-bit
  range; Go `uint` is `Nat`.
* Go `error` is its message text (`err.Error()`), which is what the handlers
  compare; a function returning `(T, error)` returns `Except String T`.
* `time.Now()` is an explicit argument named `now` / `today`.
* The storage handle (`*gorm.DB`) is an explicit state that every repository
  call receives and returns.
-/

namespace UserManagement

/-! ## Standard library: `time` -/

/-- Civil reading of a Go `time.Time` in UTC: calendar date and nanoseconds since midnight. -/
structure Time where
  year : Int
  month : Nat
  day : Nat
  nanos : Nat
  deriving DecidableEq, Repr

/-- Leap years of the proleptic Gregorian calendar (`time.isLeap`). -/
def isLeap (year : Int) : Bool :=
  year % 4 == 0 && (year % 100 != 0 || year % 400 == 0)

/-- Days of the year before the first of `month` in a non-leap year (`time.daysBefore`). -/
def daysBefore (month : Nat) : Nat :=
  match month with
  | 1 => 0
  | 2 => 31
  | 3 => 59
  | 4 => 90
  | 5 => 120
  | 6 => 151
  | 7 => 181
  | 8 => 212
  | 9 => 243
  | 10 => 273
  | 11 => 304
  | 12 => 334
  | _ => 0

/-- Number of days of `month` in `year` (`time.daysIn`). -/
def daysIn (month : Nat) (year : Int) : Nat :=
  match month with
  | 2 => if isLeap year then 29 else 28
  | 4 => 30
  | 6 => 30
  | 9 => 30
  | 11 => 30
  | _ => 31

namespace Time

/-- The zero value `time.Time{}`: January 1, year 1, 00:00:00 UTC. -/
def zero : Time := { year := 1, month := 1, day := 1, nanos := 0 }

/-- A reading that a `time.Time` can have. -/
def Valid (t : Time) : Prop :=
  1 ≤ t.month ∧ t.month ≤ 12 ∧ 1 ≤ t.day ∧ t.day ≤ daysIn t.month t.year ∧
    t.nanos < 86400000000000

instance (t : Time) : Decidable t.Valid := by
  unfold Valid; infer_instance

/-- Go `t.IsZero()`: the instant is the zero time. -/
def IsZero (t : Time) : Bool :=
  t.year == 1 && t.month == 1 && t.day == 1 && t.nanos == 0

/-- Go `t.Year()`. -/
def Year (t : Time) : Int := t.year

/-- Go `t.YearDay()`: 1..365, or 1..366 in a leap year. -/
def YearDay (t : Time) : Int :=
  (daysBefore t.month + t.day + (if 2 < t.month && isLeap t.year then 1 else 0) : Nat)

end Time

/-- Go `isDigit` of package `time`: an ASCII decimal digit. -/
def isDigit (c : Char) : Bool := decide (48 ≤ c.toNat) && decide (c.toNat ≤ 57)

/-- Value of an ASCII decimal digit. -/
def digitVal (c : Char) : Nat := c.toNat - 48

/-- The bytes of the UTF-8 encoding of the code point `n`. -/
def utf8Bytes (n : Nat) : List Nat :=
  if n < 128 then [n]
  else if n < 2048 then [192 + n / 64, 128 + n % 64]
  else if n < 65536 then [224 + n / 4096, 128 + n / 64 % 64, 128 + n % 64]
  else [240 + n / 262144, 128 + n / 4096 % 64, 128 + n / 64 % 64, 128 + n % 64]

/-- Go `lowerhex[i]` of package `time`: the hexadecimal digit of `i < 16`. -/
def lowerhex (i : Nat) : Char :=
  if i < 10 then Char.ofNat (48 + i) else Char.ofNat (87 + i)

/-- Go `quote` of package `time`: the text between double quotes (34), with a
backslash (92) before a double quote or a backslash, and with every byte of a
control character or of a character outside ASCII written as backslash, `x`
and two hexadecimal digits. -/
def quote (s : String) : String :=
  ⟨Char.ofNat 34 :: (s.data.map (fun c =>
      if 128 ≤ c.toNat ∨ c.toNat < 32 then
        ((utf8Bytes c.toNat).map (fun b =>
          [Char.ofNat 92, 'x', lowerhex (b / 16), lowerhex (b % 16)])).flatten
      else if c.toNat = 34 ∨ c.toNat = 92 then [Char.ofNat 92, c]
      else [c])).flatten ++ [Char.ofNat 34]⟩

/-- Text of the `*time.ParseError` that `time.Parse` (Go 1.20 and later)
returns for a value it rejects against the layout `2006-01-02`. The value is
read element by element and the error names the first step that fails: the
four digits of the year, the `-`, the two digits of the month, the range of
the month, the `-`, the two digits of the day, text after the day, the range
of the day within the month. A failed element is reported with the rest of the
value from the start of that element. -/
def parseErrorText (value : String) : String :=
  let cannot (rest : List Char) (element : String) : String :=
    "parsing time " ++ quote value ++ " as " ++ quote "2006-01-02" ++ ": cannot parse " ++
      quote ⟨rest⟩ ++ " as " ++ quote element
  match value.data with
  | y1 :: y2 :: y3 :: y4 :: afterYear =>
    if !(isDigit y1 && isDigit y2 && isDigit y3 && isDigit y4) then cannot value.data "2006"
    else
      match afterYear with
      | s1 :: atMonth =>
        if s1 != '-' then cannot afterYear "-"
        else
          match atMonth with
          | m1 :: m2 :: afterMonth =>
            if !(isDigit m1 && isDigit m2) then cannot atMonth "01"
            else if digitVal m1 * 10 + digitVal m2 = 0 ∨ 12 < digitVal m1 * 10 + digitVal m2 then
              "parsing time " ++ quote value ++ ": month out of range"
            else
              match afterMonth with
              | s2 :: atDay =>
                if s2 != '-' then cannot afterMonth "-"
                else
                  match atDay with
                  | d1 :: d2 :: afterDay =>
                    if !(isDigit d1 && isDigit d2) then cannot atDay "02"
                    else if !afterDay.isEmpty then
                      "parsing time " ++ quote value ++ ": extra text: " ++ quote ⟨afterDay⟩
                    else "parsing time " ++ quote value ++ ": day out of range"
                  | _ => cannot atDay "02"
              | [] => cannot [] "-"
          | _ => cannot atMonth "01"
      | [] => cannot [] "-"
  | _ => cannot value.data "2006"

/-- Go `time.Parse("2006-01-02", value)`: exactly four year digits, `-`, two
month digits, `-`, two day digits; month in 1..12, day within the month; the
result is midnight UTC of that date. -/
def Parse (value : String) : Except String Time :=
  match value.data with
  | [y1, y2, y3, y4, s1, m1, m2, s2, d1, d2] =>
    if isDigit y1 && isDigit y2 && isDigit y3 && isDigit y4 && s1 == '-' &&
        isDigit m1 && isDigit m2 && s2 == '-' && isDigit d1 && isDigit d2 then
      let year : Int := (digitVal y1 * 1000 + digitVal y2 * 100 + digitVal y3 * 10 + digitVal y4 : Nat)
      let month := digitVal m1 * 10 + digitVal m2
      let day := digitVal d1 * 10 + digitVal d2
      if 1 ≤ month ∧ month ≤ 12 ∧ 1 ≤ day ∧ day ≤ daysIn month year then
        .ok { year := year, month := month, day := day, nanos := 0 }
      else .error (parseErrorText value)
    else .error (parseErrorText value)
  | _ => .error (parseErrorText value)

/-! ## Standard library: `strings` -/

/-- Go `unicode.IsSpace`: the Unicode White_Space property. -/
def isSpace (c : Char) : Bool :=
  let n := c.toNat
  decide (9 ≤ n ∧ n ≤ 13) || n == 32 || n == 133 || n == 160 || n == 5760 ||
    decide (8192 ≤ n ∧ n ≤ 8202) || n == 8232 || n == 8233 || n == 8239 || n == 8287 ||
    n == 12288

/-- The lower-case column of the case table of package `unicode` outside
ASCII: the simple lower-case mapping of the Unicode Character Database
(version 15.0; 1407 code points), in runs that share no code point. The run
`(lo, hi, step, target)` maps the code points `lo`, `lo + step`, ..., up to
`hi`, to `target`, `target + step`, ...; a code point in no run is its own
lower case. -/
def lowerRanges : List (Nat × Nat × Nat × Nat) :=
  [(192, 214, 1, 224), (216, 222, 1, 248), (256, 302, 2, 257), (304, 304, 1, 105),
   (306, 310, 2, 307), (313, 327, 2, 314), (330, 374, 2, 331), (376, 376, 1, 255),
   (377, 381, 2, 378), (385, 385, 1, 595), (386, 388, 2, 387), (390, 390, 1, 596),
   (391, 391, 1, 392), (393, 394, 1, 598), (395, 395, 1, 396), (398, 398, 1, 477),
   (399, 399, 1, 601), (400, 400, 1, 603), (401, 401, 1, 402), (403, 403, 1, 608),
   (404, 404, 1, 611), (406, 406, 1, 617), (407, 407, 1, 616), (408, 408, 1, 409),
   (412, 412, 1, 623), (413, 413, 1, 626), (415, 415, 1, 629), (416, 420, 2, 417),
   (422, 422, 1, 640), (423, 423, 1, 424), (425, 425, 1, 643), (428, 428, 1, 429),
   (430, 430, 1, 648), (431, 431, 1, 432), (433, 434, 1, 650), (435, 437, 2, 436),
   (439, 439, 1, 658), (440, 440, 1, 441), (444, 444, 1, 445), (452, 452, 1, 454),
   (453, 453, 1, 454), (455, 455, 1, 457), (456, 456, 1, 457), (458, 458, 1, 460),
   (459, 475, 2, 460), (478, 494, 2, 479), (497, 497, 1, 499), (498, 500, 2, 499),
   (502, 502, 1, 405), (503, 503, 1, 447), (504, 542, 2, 505), (544, 544, 1, 414),
   (546, 562, 2, 547), (570, 570, 1, 11365), (571, 571, 1, 572), (573, 573, 1, 410),
   (574, 574, 1, 11366), (577, 577, 1, 578), (579, 579, 1, 384), (580, 580, 1, 649),
   (581, 581, 1, 652), (582, 590, 2, 583), (880, 882, 2, 881), (886, 886, 1, 887),
   (895, 895, 1, 1011), (902, 902, 1, 940), (904, 906, 1, 941), (908, 908, 1, 972),
   (910, 911, 1, 973), (913, 929, 1, 945), (931, 939, 1, 963), (975, 975, 1, 983),
   (984, 1006, 2, 985), (1012, 1012, 1, 952), (1015, 1015, 1, 1016), (1017, 1017, 1, 1010),
   (1018, 1018, 1, 1019), (1021, 1023, 1, 891), (1024, 1039, 1, 1104), (1040, 1071, 1, 1072),
   (1120, 1152, 2, 1121), (1162, 1214, 2, 1163), (1216, 1216, 1, 1231), (1217, 1229, 2, 1218),
   (1232, 1326, 2, 1233), (1329, 1366, 1, 1377), (4256, 4293, 1, 11520), (4295, 4295, 1, 11559),
   (4301, 4301, 1, 11565), (5024, 5103, 1, 43888), (5104, 5109, 1, 5112), (7312, 7354, 1, 4304),
   (7357, 7359, 1, 4349), (7680, 7828, 2, 7681), (7838, 7838, 1, 223), (7840, 7934, 2, 7841),
   (7944, 7951, 1, 7936), (7960, 7965, 1, 7952), (7976, 7983, 1, 7968), (7992, 7999, 1, 7984),
   (8008, 8013, 1, 8000), (8025, 8031, 2, 8017), (8040, 8047, 1, 8032), (8072, 8079, 1, 8064),
   (8088, 8095, 1, 8080), (8104, 8111, 1, 8096), (8120, 8121, 1, 8112), (8122, 8123, 1, 8048),
   (8124, 8124, 1, 8115), (8136, 8139, 1, 8050), (8140, 8140, 1, 8131), (8152, 8153, 1, 8144),
   (8154, 8155, 1, 8054), (8168, 8169, 1, 8160), (8170, 8171, 1, 8058), (8172, 8172, 1, 8165),
   (8184, 8185, 1, 8056), (8186, 8187, 1, 8060), (8188, 8188, 1, 8179), (8486, 8486, 1, 969),
   (8490, 8490, 1, 107), (8491, 8491, 1, 229), (8498, 8498, 1, 8526), (8544, 8559, 1, 8560),
   (8579, 8579, 1, 8580), (9398, 9423, 1, 9424), (11264, 11311, 1, 11312),
   (11360, 11360, 1, 11361), (11362, 11362, 1, 619), (11363, 11363, 1, 7549),
   (11364, 11364, 1, 637), (11367, 11371, 2, 11368), (11373, 11373, 1, 593),
   (11374, 11374, 1, 625), (11375, 11375, 1, 592), (11376, 11376, 1, 594),
   (11378, 11378, 1, 11379), (11381, 11381, 1, 11382), (11390, 11391, 1, 575),
   (11392, 11490, 2, 11393), (11499, 11501, 2, 11500), (11506, 11506, 1, 11507),
   (42560, 42604, 2, 42561), (42624, 42650, 2, 42625), (42786, 42798, 2, 42787),
   (42802, 42862, 2, 42803), (42873, 42875, 2, 42874), (42877, 42877, 1, 7545),
   (42878, 42886, 2, 42879), (42891, 42891, 1, 42892), (42893, 42893, 1, 613),
   (42896, 42898, 2, 42897), (42902, 42920, 2, 42903), (42922, 42922, 1, 614),
   (42923, 42923, 1, 604), (42924, 42924, 1, 609), (42925, 42925, 1, 620), (42926, 42926, 1, 618),
   (42928, 42928, 1, 670), (42929, 42929, 1, 647), (42930, 42930, 1, 669),
   (42931, 42931, 1, 43859), (42932, 42946, 2, 42933), (42948, 42948, 1, 42900),
   (42949, 42949, 1, 642), (42950, 42950, 1, 7566), (42951, 42953, 2, 42952),
   (42960, 42960, 1, 42961), (42966, 42968, 2, 42967), (42997, 42997, 1, 42998),
   (65313, 65338, 1, 65345), (66560, 66599, 1, 66600), (66736, 66771, 1, 66776),
   (66928, 66964, 2, 66967), (66929, 66937, 2, 66968), (66941, 66953, 2, 66980),
   (66957, 66961, 2, 66996), (66965, 66965, 1, 67004), (68736, 68786, 1, 68800),
   (71840, 71871, 1, 71872), (93760, 93791, 1, 93792), (125184, 125217, 1, 125218)]

/-- Go `unicode.ToLower`: the ASCII letters directly, every other rune through
the case table. -/
def toLowerRune (c : Char) : Char :=
  if c.toNat ≤ 127 then
    if 65 ≤ c.toNat ∧ c.toNat ≤ 90 then Char.ofNat (c.toNat + 32) else c
  else
    match lowerRanges.find? (fun r =>
        decide (r.1 ≤ c.toNat ∧ c.toNat ≤ r.2.1) && (c.toNat - r.1) % r.2.2.1 == 0) with
    | some r => Char.ofNat (r.2.2.2 + (c.toNat - r.1))
    | none => c

/-- Go `unicode.ToUpper` on the runes whose upper case is an ASCII letter: the
ASCII letters, dotless i U+0131 and long s U+017F. Every other rune is returned
unchanged; its upper case is not an ASCII letter, so whether an upper-cased
string equals an ASCII string, which is all the source uses `ToUpper` for, is
as in Go. -/
def toUpperRune (c : Char) : Char :=
  if 97 ≤ c.toNat ∧ c.toNat ≤ 122 then Char.ofNat (c.toNat - 32)
  else if c.toNat = 305 then 'I'
  else if c.toNat = 383 then 'S'
  else c

/-- Go `strings.ToLower`. -/
def ToLower (s : String) : String := ⟨s.data.map toLowerRune⟩

/-- Go `strings.ToUpper`. -/
def ToUpper (s : String) : String := ⟨s.data.map toUpperRune⟩

/-- Go `strings.TrimSpace`: drop leading and trailing white space. -/
def TrimSpace (s : String) : String :=
  ⟨((s.data.dropWhile isSpace).reverse.dropWhile isSpace).reverse⟩

/-- Go `strings.Contains`. -/
def Contains (s substr : String) : Bool :=
  s.data.tails.any (fun t => substr.data.isPrefixOf t)

/-! ## `internal/domain/entity` -/

/-- Go `entity.User`. `DeletedAt` is `gorm.DeletedAt`: `none` is SQL NULL. -/
structure User where
  ID : Nat
  Name : String
  Email : String
  DateOfBirth : Time
  Age : Int
  Phone : String
  Address : String
  CreatedAt : Time
  UpdatedAt : Time
  DeletedAt : Option Time
  deriving DecidableEq, Repr

/-- Go `(u *User) CalculateAge()`, with `time.Now()` passed as `today`. -/
def User.CalculateAge (today : Time) (u : User) : Int :=
  if u.DateOfBirth.IsZero then 0
  else
    let age := today.Year - u.DateOfBirth.Year
    if today.YearDay < u.DateOfBirth.YearDay then age - 1 else age

/-- Go `entity.CreateUserRequest`. -/
structure CreateUserRequest where
  Name : String
  Email : String
  DateOfBirth : String
  Phone : String
  Address : String
  deriving DecidableEq, Repr

/-- Go `entity.UpdateUserRequest`: a nil pointer is `none`. -/
structure UpdateUserRequest where
  Name : Option String
  Email : Option String
  DateOfBirth : Option String
  Phone : Option String
  Address : Option String
  deriving DecidableEq, Repr

/-- Go `entity.UserListResponse`. -/
structure UserListResponse where
  Users : List User
  Total : Int
  Page : Int
  PerPage : Int
  TotalPages : Int
  deriving DecidableEq, Repr

/-- Go `entity.UserSearchParams`. -/
structure UserSearchParams where
  Search : String
  Page : Int
  PerPage : Int
  SortBy : String
  SortDir : String
  deriving DecidableEq, Repr

/-! ## `internal/service`: age -/

/-- Go `calculateAge(birthDate)` of package `service`, with `time.Now()` passed as `today`. -/
def calculateAge (today birthDate : Time) : Int :=
  if birthDate.IsZero then 0
  else
    let age := today.Year - birthDate.Year
    if today.YearDay < birthDate.YearDay then age - 1 else age

/-! ## Machine integers and `float64` -/

/-- Two's-complement reading of an integer in 64 bits: the value a Go `int`
expression has after overflow. -/
def wrapInt (x : Int) : Int := (x + 9223372036854775808) % 18446744073709551616 - 9223372036854775808

/-- A value of Go type `int` / `int64`. -/
def IsInt64 (x : Int) : Prop := -9223372036854775808 ≤ x ∧ x ≤ 9223372036854775807

/-- Nearest integer, ties to the even one. -/
def roundHalfEven (x : ℚ) : ℤ :=
  let f := ⌊x⌋
  if x - f < 1 / 2 then f
  else if 1 / 2 < x - f then f + 1
  else if f % 2 = 0 then f else f + 1

/-- The `float64` nearest to a rational (IEEE 754 binary64, round to nearest,
ties to even): 53 significant bits. Exponent range limits (overflow to
infinity, subnormals) are not modelled; they lie outside what 64-bit integer
operands and their quotients reach. -/
def roundFloat64 (q : ℚ) : ℚ :=
  if q = 0 then 0
  else
    let e := Int.log 2 |q|
    (if q < 0 then -1 else 1) * (roundHalfEven (|q| * 2 ^ (52 - e)) : ℚ) * 2 ^ (e - 52)

/-- Go `float64(n)` for an integer `n`. -/
def float64OfInt (n : Int) : ℚ := roundFloat64 n

/-- Go `x / y` on `float64` values, for `y` non-zero. -/
def float64Div (x y : ℚ) : ℚ := roundFloat64 (x / y)

/-- Go `int(math.Ceil(x))`: the ceiling is exact, and the conversion keeps an
integral value that fits 64 bits (`wrapInt` stands for the platform-defined
result outside that range). -/
def intCeil (x : ℚ) : Int := wrapInt ⌈x⌉

/-- The expression `int(math.Ceil(float64(total) / float64(perPage)))` of `List`. -/
def totalPagesOf (total perPage : Int) : Int :=
  intCeil (float64Div (float64OfInt total) (float64OfInt perPage))

/-! ## Storage handle: the calls the repository makes on `*gorm.DB` -/

/-- An error value returned by gorm: the sentinel `gorm.ErrRecordNotFound`
(compared by identity in the source) or any other error with its text. -/
inductive DBError where
  | ErrRecordNotFound
  | other (text : String)
  deriving DecidableEq, Repr

/-- Go `err.Error()`. -/
def DBError.Error : DBError → String
  | .ErrRecordNotFound => "record not found"
  | .other text => text

/-- A bound argument of a `Where` condition. -/
inductive SqlArg where
  | str (s : String)
  | uint (n : Nat)
  deriving DecidableEq, Repr

/-- The statement a chain of gorm builder calls on `Model(&entity.User{})` accumulates. -/
structure Query where
  wheres : List (String × List SqlArg)
  order : Option String
  offset : Option Int
  limit : Option Int
  deriving DecidableEq, Repr

namespace Query

/-- Go `db.Model(&entity.User{})`. -/
def Model : Query := { wheres := [], order := none, offset := none, limit := none }

/-- Go `query.Where(sql, args...)`. -/
def Where (q : Query) (sql : String) (args : List SqlArg) : Query :=
  { q with wheres := q.wheres ++ [(sql, args)] }

/-- Go `query.Order(clause)`. -/
def Order (q : Query) (clause : String) : Query := { q with order := some clause }

/-- Go `query.Offset(n)`. -/
def Offset (q : Query) (n : Int) : Query := { q with offset := some n }

/-- Go `query.Limit(n)`. -/
def Limit (q : Query) (n : Int) : Query := { q with limit := some n }

end Query

/-- What gorm writes back into the struct passed to `Create`: the generated
primary key and the two automatic timestamps. -/
structure Inserted where
  ID : Nat
  CreatedAt : Time
  UpdatedAt : Time
  deriving DecidableEq, Repr

/-- The gorm operations used by the repository, over a storage state `σ`.
Each takes the state and returns its result with the new state. -/
structure DB (σ : Type) where
  /-- Go `db.Create(user)`. -/
  Create : User → σ → Except DBError Inserted × σ
  /-- Go `db.First(&user, id)`. -/
  First : Nat → σ → Except DBError User × σ
  /-- Go `db.Where(sql, args...).First(&user)`. -/
  FirstWhere : Query → σ → Except DBError User × σ
  /-- Go `db.Save(user)`; the result is what gorm writes back into a record
  that carries a primary key: the new `UpdatedAt`. A record with key 0 is
  inserted instead, and gorm then fills in its key and `CreatedAt` as well; that
  write-back is left out, the service handing `Update` only records it has
  fetched by id. -/
  Save : User → σ → Except DBError Time × σ
  /-- Go `db.Delete(&entity.User{}, id)`; the result is `RowsAffected`. -/
  Delete : Nat → σ → Except DBError Int × σ
  /-- Go `query.Count(&total)`. -/
  Count : Query → σ → Except DBError Int × σ
  /-- Go `query.Find(&users)`. -/
  Find : Query → σ → Except DBError (List User) × σ

/-! ## `internal/domain/repository`: the interface the service calls -/

/-- Go `repository.UserRepository`, over a storage state `σ`. `Create` and
`Update` receive a `*entity.User`; on success the result is the struct as the
call left it. -/
structure UserRepository (σ : Type) where
  Create : User → σ → Except String User × σ
  GetByID : Nat → σ → Except String User × σ
  GetByEmail : String → σ → Except String User × σ
  Update : User → σ → Except String User × σ
  Delete : Nat → σ → Except String Unit × σ
  List : UserSearchParams → σ → Except String UserListResponse × σ
  EmailExists : String → Nat → σ → Except String Bool × σ

/-! ## `internal/repository/mysql` -/

namespace userRepository

variable {σ : Type}

/-- Go `(r *userRepository) Create`. -/
def Create (db : DB σ) (user : User) (s : σ) : Except String User × σ :=
  match db.Create user s with
  | (.error err, s1) =>
    if Contains err.Error "Duplicate entry" && Contains err.Error "email" then
      (.error "email already exists", s1)
    else (.error ("failed to create user: " ++ err.Error), s1)
  | (.ok w, s1) =>
    (.ok { user with ID := w.ID, CreatedAt := w.CreatedAt, UpdatedAt := w.UpdatedAt }, s1)

/-- Go `(r *userRepository) GetByID`. -/
def GetByID (db : DB σ) (id : Nat) (s : σ) : Except String User × σ :=
  match db.First id s with
  | (.error err, s1) =>
    if err = DBError.ErrRecordNotFound then (.error "user not found", s1)
    else (.error ("failed to get user: " ++ err.Error), s1)
  | (.ok user, s1) => (.ok user, s1)

/-- Go `(r *userRepository) GetByEmail`. -/
def GetByEmail (db : DB σ) (email : String) (s : σ) : Except String User × σ :=
  match db.FirstWhere (Query.Model.Where "email = ?" [.str email]) s with
  | (.error err, s1) =>
    if err = DBError.ErrRecordNotFound then (.error "user not found", s1)
    else (.error ("failed to get user by email: " ++ err.Error), s1)
  | (.ok user, s1) => (.ok user, s1)

/-- Go `(r *userRepository) Update`. -/
def Update (db : DB σ) (user : User) (s : σ) : Except String User × σ :=
  match db.Save user s with
  | (.error err, s1) =>
    if Contains err.Error "Duplicate entry" && Contains err.Error "email" then
      (.error "email already exists", s1)
    else (.error ("failed to update user: " ++ err.Error), s1)
  | (.ok updatedAt, s1) => (.ok { user with UpdatedAt := updatedAt }, s1)

/-- Go `(r *userRepository) Delete`. -/
def Delete (db : DB σ) (id : Nat) (s : σ) : Except String Unit × σ :=
  match db.Delete id s with
  | (.error err, s1) => (.error ("failed to delete user: " ++ err.Error), s1)
  | (.ok rowsAffected, s1) =>
    if rowsAffected = 0 then (.error "user not found", s1) else (.ok (), s1)

end userRepository

/-- Go `getSortField`: the database field name for sorting. -/
def getSortField (sortBy : String) : String :=
  if sortBy = "name" then "name"
  else if sortBy = "email" then "email"
  else if sortBy = "age" then "date_of_birth"
  else if sortBy = "phone" then "phone"
  else if sortBy = "created_at" then "created_at"
  else if sortBy = "updated_at" then "updated_at"
  else if sortBy = "id" then "id"
  else "created_at"

namespace userRepository

variable {σ : Type}

/-- The argument `List` passes to `query.Order`: the block `Build the ORDER BY
clause` of `List`, applied to the parameters after defaulting. -/
def orderClause (params : UserSearchParams) : String :=
  let sortField := getSortField params.SortBy
  if params.SortBy = "age" then
    -- For age sorting, we need to order by date_of_birth in reverse order
    if params.SortDir = "asc" then "date_of_birth DESC"
    else "date_of_birth ASC"
  else
    -- Sanitize the sort direction
    let dir := ToUpper params.SortDir
    let dir := if dir ≠ "ASC" ∧ dir ≠ "DESC" then "DESC" else dir
    sortField ++ " " ++ dir

/-- Go `(r *userRepository) List`. -/
def List (db : DB σ) (params : UserSearchParams) (s : σ) : Except String UserListResponse × σ :=
  -- Set default pagination values
  let params := if params.Page = 0 then { params with Page := 1 } else params
  let params := if params.PerPage = 0 then { params with PerPage := 10 } else params
  -- Set default sorting
  let params := if params.SortBy = "" then { params with SortBy := "created_at" } else params
  let params := if params.SortDir = "" then { params with SortDir := "desc" } else params
  let query := Query.Model
  -- Apply search filter
  let query :=
    if params.Search ≠ "" then
      let searchTerm := "%" ++ params.Search ++ "%"
      query.Where "name LIKE ? OR email LIKE ? OR phone LIKE ?"
        [.str searchTerm, .str searchTerm, .str searchTerm]
    else query
  -- Get total count
  match db.Count query s with
  | (.error err, s1) => (.error ("failed to count users: " ++ err.Error), s1)
  | (.ok total, s1) =>
    -- Apply sorting
    let query := query.Order (orderClause params)
    -- Apply pagination
    let offset := wrapInt (wrapInt (params.Page - 1) * params.PerPage)
    match db.Find ((query.Offset offset).Limit params.PerPage) s1 with
    | (.error err, s2) => (.error ("failed to list users: " ++ err.Error), s2)
    | (.ok users, s2) =>
      let totalPages := totalPagesOf total params.PerPage
      (.ok { Users := users, Total := total, Page := params.Page, PerPage := params.PerPage,
             TotalPages := totalPages }, s2)

/-- Go `(r *userRepository) EmailExists`. -/
def EmailExists (db : DB σ) (email : String) (excludeID : Nat) (s : σ) :
    Except String Bool × σ :=
  let query := Query.Model.Where "email = ?" [.str email]
  let query := if excludeID > 0 then query.Where "id != ?" [.uint excludeID] else query
  match db.Count query s with
  | (.error err, s1) => (.error ("failed to check email existence: " ++ err.Error), s1)
  | (.ok count, s1) => (.ok (decide (count > 0)), s1)

end userRepository

/-- Go `NewUserRepository`: the MySQL repository behind the interface. -/
def NewUserRepository {σ : Type} (db : DB σ) : UserRepository σ where
  Create := userRepository.Create db
  GetByID := userRepository.GetByID db
  GetByEmail := userRepository.GetByEmail db
  Update := userRepository.Update db
  Delete := userRepository.Delete db
  List := userRepository.List db
  EmailExists := userRepository.EmailExists db

/-! ## `internal/service` -/

namespace userService

variable {σ : Type}

/-- Go `(s *userService) CreateUser`. -/
def CreateUser (userRepo : UserRepository σ) (now : Time) (req : CreateUserRequest) (s : σ) :
    Except String User × σ :=
  -- Business rule: Email must be unique
  match userRepo.EmailExists req.Email 0 s with
  | (.error err, s1) => (.error ("failed to validate email: " ++ err), s1)
  | (.ok exists_, s1) =>
    if exists_ then (.error "email already exists", s1)
    else
      -- Parse and validate date of birth
      match Parse req.DateOfBirth with
      | .error err => (.error ("invalid date of birth format, use YYYY-MM-DD: " ++ err), s1)
      | .ok dateOfBirth =>
        -- Business rule: User must be older than 18 years
        let age := calculateAge now dateOfBirth
        if age ≤ 18 then (.error "user must be older than 18 years", s1)
        else
          -- Sanitize input
          let req := { req with Email := ToLower (TrimSpace req.Email) }
          let req := { req with Name := TrimSpace req.Name }
          let user : User :=
            { ID := 0, Name := req.Name, Email := req.Email, DateOfBirth := dateOfBirth, Age := 0,
              Phone := req.Phone, Address := req.Address, CreatedAt := Time.zero,
              UpdatedAt := Time.zero, DeletedAt := none }
          -- Set computed age for response
          let user := { user with Age := age }
          match userRepo.Create user s1 with
          | (.error err, s2) => (.error err, s2)
          | (.ok user, s2) => (.ok user, s2)

/-- Go `(s *userService) GetUser`. -/
def GetUser (userRepo : UserRepository σ) (now : Time) (id : Nat) (s : σ) :
    Except String User × σ :=
  match userRepo.GetByID id s with
  | (.error err, s1) => (.error err, s1)
  | (.ok user, s1) => (.ok { user with Age := user.CalculateAge now }, s1)

/-- Go `(s *userService) UpdateUser`. -/
def UpdateUser (userRepo : UserRepository σ) (now : Time) (id : Nat) (req : UpdateUserRequest)
    (s : σ) : Except String User × σ :=
  -- Get existing user
  match userRepo.GetByID id s with
  | (.error err, s1) => (.error err, s1)
  | (.ok user, s1) =>
    -- Business rule: Email must be unique (if being updated)
    let afterEmail : Except String User × σ :=
      match req.Email with
      | none => (.ok user, s1)
      | some reqEmail =>
        let email := ToLower (TrimSpace reqEmail)
        match userRepo.EmailExists email id s1 with
        | (.error err, s2) => (.error ("failed to validate email: " ++ err), s2)
        | (.ok exists_, s2) =>
          if exists_ then (.error "email already exists", s2)
          else (.ok { user with Email := email }, s2)
    match afterEmail with
    | (.error err, s2) => (.error err, s2)
    | (.ok user, s2) =>
      -- Business rule: Date of birth validation (if being updated)
      let afterDate : Except String User :=
        match req.DateOfBirth with
        | none => .ok user
        | some reqDate =>
          match Parse reqDate with
          | .error err => .error ("invalid date of birth format, use YYYY-MM-DD: " ++ err)
          | .ok dateOfBirth =>
            let age := calculateAge now dateOfBirth
            if age ≤ 18 then .error "user must be older than 18 years"
            else .ok { user with DateOfBirth := dateOfBirth }
      match afterDate with
      | .error err => (.error err, s2)
      | .ok user =>
        -- Update other fields
        let user := match req.Name with
          | some name => { user with Name := TrimSpace name }
          | none => user
        let user := match req.Phone with
          | some phone => { user with Phone := phone }
          | none => user
        let user := match req.Address with
          | some address => { user with Address := address }
          | none => user
        -- Set computed age
        let user := { user with Age := user.CalculateAge now }
        match userRepo.Update user s2 with
        | (.error err, s3) => (.error err, s3)
        | (.ok user, s3) => (.ok user, s3)

/-- Go `(s *userService) DeleteUser`. -/
def DeleteUser (userRepo : UserRepository σ) (id : Nat) (s : σ) : Except String Unit × σ :=
  match userRepo.Delete id s with
  | (.error err, s1) => (.error err, s1)
  | (.ok (), s1) => (.ok (), s1)

/-- Go `(s *userService) ListUsers`. -/
def ListUsers (userRepo : UserRepository σ) (now : Time) (params : UserSearchParams) (s : σ) :
    Except String UserListResponse × σ :=
  match userRepo.List params s with
  | (.error err, s1) => (.error err, s1)
  | (.ok result, s1) =>
    -- Calculate age for all users
    (.ok { result with Users := result.Users.map (fun u => { u with Age := u.CalculateAge now }) },
      s1)

end userService

/-- Go `service.UserService`: the interface the handlers call. -/
structure UserService (σ : Type) where
  CreateUser : CreateUserRequest → σ → Except String User × σ
  GetUser : Nat → σ → Except String User × σ
  UpdateUser : Nat → UpdateUserRequest → σ → Except String User × σ
  DeleteUser : Nat → σ → Except String Unit × σ
  ListUsers : UserSearchParams → σ → Except String UserListResponse × σ

/-- Go `NewUserService`, for requests served at the instant `now`. -/
def NewUserService {σ : Type} (userRepo : UserRepository σ) (now : Time) : UserService σ where
  CreateUser := userService.CreateUser userRepo now
  GetUser := userService.GetUser userRepo now
  UpdateUser := userService.UpdateUser userRepo now
  DeleteUser := userService.DeleteUser userRepo
  ListUsers := userService.ListUsers userRepo now

/-! ### Observing the calls a service makes on its repository -/

/-- One call on the `UserRepository` interface, with its arguments. -/
inductive RepoCall where
  | Create (user : User)
  | GetByID (id : Nat)
  | GetByEmail (email : String)
  | Update (user : User)
  | Delete (id : Nat)
  | List (params : UserSearchParams)
  | EmailExists (email : String) (excludeID : Nat)
  deriving DecidableEq, Repr

/-- A repository that behaves as `repo` and appends every call it receives to a
log kept beside the storage state (the role `mock.Called` plays in the tests). -/
def recording {σ : Type} (repo : UserRepository σ) : UserRepository (σ × List RepoCall) where
  Create user s := ((repo.Create user s.1).1, (repo.Create user s.1).2, s.2 ++ [.Create user])
  GetByID id s := ((repo.GetByID id s.1).1, (repo.GetByID id s.1).2, s.2 ++ [.GetByID id])
  GetByEmail email s :=
    ((repo.GetByEmail email s.1).1, (repo.GetByEmail email s.1).2, s.2 ++ [.GetByEmail email])
  Update user s := ((repo.Update user s.1).1, (repo.Update user s.1).2, s.2 ++ [.Update user])
  Delete id s := ((repo.Delete id s.1).1, (repo.Delete id s.1).2, s.2 ++ [.Delete id])
  List params s := ((repo.List params s.1).1, (repo.List params s.1).2, s.2 ++ [.List params])
  EmailExists email excludeID s :=
    ((repo.EmailExists email excludeID s.1).1, (repo.EmailExists email excludeID s.1).2,
      s.2 ++ [.EmailExists email excludeID])

/-! ## A relational `users` table behind the storage handle

The engine is MySQL reached through gorm; neither is part of the repository.
The model below fixes what the repository relies on: soft delete
(`deleted_at IS NULL` on every read and on `Delete`), the unique index on
`email`, `LIKE` with its wildcards, `ORDER BY`, `LIMIT` / `OFFSET`.

The source does not set the collation of the text columns. The model compares
text character by character after lower-casing, accents kept. On printable
ASCII text every case-insensitive collation of MySQL compares so; outside it
the collations differ from one another and from the model (the default of
utf8mb4 also disregards accents). The properties below on `=` are stated
through `sqlEq`; what `LIKE` selects is described for printable ASCII text.
Rows that tie under `ORDER BY` keep their table order. -/

/-- The `users` table and what the engine needs to fill in new rows. -/
structure Store where
  /-- All rows, soft-deleted ones included, in insertion order. -/
  rows : List User
  /-- The next `AUTO_INCREMENT` value. -/
  nextID : Nat
  /-- The instant gorm stamps rows with. -/
  clock : Time
  deriving DecidableEq, Repr

namespace Store

/-- SQL `a = b` on text columns: equality of the lower-case forms. -/
def sqlEq (a b : String) : Bool := ToLower a == ToLower b

/-- SQL `value LIKE pattern` on character lists: `%` (37) matches any run of
characters, `_` (95) any one character, a backslash (92) makes the next
pattern character literal; a literal pattern character matches the characters
with the same lower case. -/
def likeChars : List Char → List Char → Bool
  | [], [] => true
  | [], _ :: _ => false
  | p :: ps, [] => if p.toNat = 37 then likeChars ps [] else false
  | p :: ps, c :: cs =>
    if p.toNat = 37 then likeChars ps (c :: cs) || likeChars (p :: ps) cs
    else if p.toNat = 95 then likeChars ps cs
    else if p.toNat = 92 then
      match ps with
      | [] => toLowerRune p == toLowerRune c && cs.isEmpty
      | q :: qs => toLowerRune q == toLowerRune c && likeChars qs cs
    else toLowerRune p == toLowerRune c && likeChars ps cs
termination_by p v => p.length + v.length

/-- SQL `value LIKE pattern`. -/
def like (value pattern : String) : Bool := likeChars pattern.data value.data

/-- The row predicate of one `Where` condition issued by the repository;
`none` for SQL the model does not interpret. -/
def evalWhere (cond : String × List SqlArg) : Option (User → Bool) :=
  match cond with
  | ("email = ?", [.str email]) => some (fun u => sqlEq u.Email email)
  | ("id != ?", [.uint id]) => some (fun u => u.ID != id)
  | ("name LIKE ? OR email LIKE ? OR phone LIKE ?", [.str a, .str b, .str c]) =>
    some (fun u => like u.Name a || like u.Email b || like u.Phone c)
  | _ => none

/-- The conjunction of the `Where` conditions of a statement. -/
def wherePred : List (String × List SqlArg) → Option (User → Bool)
  | [] => some (fun _ => true)
  | c :: cs =>
    match evalWhere c, wherePred cs with
    | some f, some g => some (fun u => f u && g u)
    | _, _ => none

/-- Chronological order on instants. -/
def timeLE (a b : Time) : Bool :=
  decide (a.year < b.year) || (a.year == b.year &&
    (decide (a.month < b.month) || (a.month == b.month &&
      (decide (a.day < b.day) || (a.day == b.day && decide (a.nanos ≤ b.nanos))))))

/-- Lexicographic order on character lists, by code point. -/
def charsLE : List Char → List Char → Bool
  | [], _ => true
  | _ :: _, [] => false
  | a :: as, b :: bs => decide (a.toNat < b.toNat) || (a.toNat == b.toNat && charsLE as bs)

/-- Order on text columns: by the code points of the lower-case forms. -/
def textLE (a b : String) : Bool := charsLE (ToLower a).data (ToLower b).data

/-- The order `ORDER BY column ASC` sorts by. -/
def columnLE (column : String) : Option (User → User → Bool) :=
  if column = "name" then some (fun a b => textLE a.Name b.Name)
  else if column = "email" then some (fun a b => textLE a.Email b.Email)
  else if column = "phone" then some (fun a b => textLE a.Phone b.Phone)
  else if column = "date_of_birth" then some (fun a b => timeLE a.DateOfBirth b.DateOfBirth)
  else if column = "created_at" then some (fun a b => timeLE a.CreatedAt b.CreatedAt)
  else if column = "updated_at" then some (fun a b => timeLE a.UpdatedAt b.UpdatedAt)
  else if column = "id" then some (fun a b => decide (a.ID ≤ b.ID))
  else none

/-- The order an `ORDER BY` clause of the form `column ASC` or `column DESC` sorts by. -/
def orderLE (clause : String) : Option (User → User → Bool) :=
  let column := clause.data.takeWhile (fun c => c != ' ')
  let direction := (clause.data.dropWhile (fun c => c != ' ')).drop 1
  match columnLE ⟨column⟩ with
  | none => none
  | some le =>
    if String.mk direction = "ASC" then some le
    else if String.mk direction = "DESC" then some (fun a b => le b a)
    else none

/-- Insert a row into a sorted list, before the first row it does not exceed. -/
def orderedInsert (le : User → User → Bool) (u : User) : List User → List User
  | [] => [u]
  | v :: vs => if le u v then u :: v :: vs else v :: orderedInsert le u vs

/-- Stable sort of rows by `le`. -/
def sortRows (le : User → User → Bool) : List User → List User
  | [] => []
  | u :: us => orderedInsert le u (sortRows le us)

/-- The text of the error MySQL raises for SQL it cannot run. -/
def syntaxError : DBError :=
  .other "Error 1064 (42000): You have an error in your SQL syntax"

/-- Rows a statement selects: not soft-deleted and satisfying every condition. -/
def selectRows (pred : User → Bool) (st : Store) : List User :=
  st.rows.filter (fun u => u.DeletedAt.isNone && pred u)

/-- The effect of the `LIMIT` / `OFFSET` clause gorm renders: `OFFSET` only for
a positive offset, `LIMIT` only for a non-negative limit; MySQL rejects
`OFFSET` without `LIMIT`. -/
def limitRows (offset limit : Option Int) (rows : List User) : Except DBError (List User) :=
  let off : Nat := match offset with
    | some n => if 0 < n then n.toNat else 0
    | none => 0
  match limit with
  | some n =>
    if 0 ≤ n then .ok ((rows.drop off).take n.toNat)
    else if off = 0 then .ok rows else .error syntaxError
  | none => if off = 0 then .ok rows else .error syntaxError

/-- The error MySQL raises for a second row with the same `email`. -/
def duplicateEmail (email : String) : DBError :=
  .other ("Error 1062 (23000): Duplicate entry \x27" ++ email ++
    "\x27 for key \x27users.idx_users_email\x27")

/-- The error MySQL raises for a second row with the same primary key. -/
def duplicateID : DBError :=
  .other "Error 1062 (23000): Duplicate entry for key \x27users.PRIMARY\x27"

/-- `INSERT INTO users`: the unique index on `email` covers every row of the
table, soft-deleted or not; `age` is not a column. -/
def Create (user : User) (st : Store) : Except DBError Inserted × Store :=
  let id := if user.ID = 0 then st.nextID else user.ID
  if st.rows.any (fun r => r.ID == id) then (.error duplicateID, st)
  else if st.rows.any (fun r => sqlEq r.Email user.Email) then
    (.error (duplicateEmail user.Email), st)
  else
    let createdAt := if user.CreatedAt.IsZero then st.clock else user.CreatedAt
    let updatedAt := if user.UpdatedAt.IsZero then st.clock else user.UpdatedAt
    let row := { user with ID := id, Age := 0, CreatedAt := createdAt, UpdatedAt := updatedAt }
    (.ok { ID := id, CreatedAt := createdAt, UpdatedAt := updatedAt },
      { st with rows := st.rows ++ [row], nextID := max st.nextID (id + 1) })

/-- `SELECT * FROM users WHERE id = ? AND deleted_at IS NULL ORDER BY id LIMIT 1`. -/
def First (id : Nat) (st : Store) : Except DBError User × Store :=
  match (selectRows (fun u => u.ID == id) st).head? with
  | some u => (.ok u, st)
  | none => (.error .ErrRecordNotFound, st)

/-- `SELECT * FROM users WHERE ... AND deleted_at IS NULL ORDER BY id LIMIT 1`. -/
def FirstWhere (q : Query) (st : Store) : Except DBError User × Store :=
  match wherePred q.wheres with
  | none => (.error syntaxError, st)
  | some pred =>
    match (sortRows (fun a b => decide (a.ID ≤ b.ID)) (selectRows pred st)).head? with
    | some u => (.ok u, st)
    | none => (.error .ErrRecordNotFound, st)

/-- Go `db.Save(user)`: write every column of the row with the primary key of
`user`, inserting it when no row is updated; without a primary key, `Create`. -/
def Save (user : User) (st : Store) : Except DBError Time × Store :=
  if user.ID = 0 then
    match Create user st with
    | (.error err, st1) => (.error err, st1)
    | (.ok w, st1) => (.ok w.UpdatedAt, st1)
  else if st.rows.any (fun r => r.ID != user.ID && sqlEq r.Email user.Email) then
    (.error (duplicateEmail user.Email), st)
  else
    let row := { user with Age := 0, UpdatedAt := st.clock }
    if st.rows.any (fun r => r.ID == user.ID) then
      (.ok st.clock, { st with rows := st.rows.map (fun r => if r.ID = user.ID then row else r) })
    else
      (.ok st.clock, { st with rows := st.rows ++ [row], nextID := max st.nextID (user.ID + 1) })

/-- `UPDATE users SET deleted_at = ? WHERE id = ? AND deleted_at IS NULL`. -/
def Delete (id : Nat) (st : Store) : Except DBError Int × Store :=
  (.ok ((selectRows (fun u => u.ID == id) st).length : Int),
    { st with rows := st.rows.map (fun r =>
        if r.ID = id ∧ r.DeletedAt = none then { r with DeletedAt := some st.clock } else r) })

/-- `SELECT count(*) FROM users WHERE ... AND deleted_at IS NULL`, as issued
by the repository (on statements without `LIMIT` / `OFFSET`). -/
def Count (q : Query) (st : Store) : Except DBError Int × Store :=
  match wherePred q.wheres with
  | none => (.error syntaxError, st)
  | some pred => (.ok ((selectRows pred st).length : Int), st)

/-- `SELECT * FROM users WHERE ... AND deleted_at IS NULL ORDER BY ... LIMIT ... OFFSET ...`. -/
def Find (q : Query) (st : Store) : Except DBError (List User) × Store :=
  match wherePred q.wheres with
  | none => (.error syntaxError, st)
  | some pred =>
    let selected := selectRows pred st
    match q.order with
    | none => (limitRows q.offset q.limit selected, st)
    | some clause =>
      match orderLE clause with
      | none => (.error syntaxError, st)
      | some le => (limitRows q.offset q.limit (sortRows le selected), st)

end Store

/-- The storage handle of a `Store`. -/
def memDB : DB Store where
  Create := Store.Create
  First := Store.First
  FirstWhere := Store.FirstWhere
  Save := Store.Save
  Delete := Store.Delete
  Count := Store.Count
  Find := Store.Find

/-! ## `internal/handler/http` -/

/-- Go `ErrorResponse`; `Details` lists the entries of the map. -/
structure ErrorResponse where
  Error : String
  Details : List (String × String)
  deriving DecidableEq, Repr

/-- The `Data` member of a `SuccessResponse`. -/
inductive ResponseData where
  | none
  | user (u : User)
  | list (r : UserListResponse)
  deriving DecidableEq, Repr

/-- Go `SuccessResponse`. -/
structure SuccessResponse where
  Message : String
  Data : ResponseData
  deriving DecidableEq, Repr

/-- What a handler hands to `c.JSON`: the status code and the body. -/
inductive Response where
  | failure (status : Nat) (body : ErrorResponse)
  | success (status : Nat) (body : SuccessResponse)
  deriving DecidableEq, Repr

/-- The status code of a response. -/
def Response.status : Response → Nat
  | .failure status _ => status
  | .success status _ => status

/-- One `validator.FieldError`: struct field, failed tag, tag parameter, and
whether the field is an `int`. -/
structure FieldError where
  Field : String
  Tag : String
  Param : String
  isInt : Bool
  deriving DecidableEq, Repr

/-- Go `getValidationMessage`. -/
def getValidationMessage (err : FieldError) : String :=
  if err.Tag = "required" then "This field is required"
  else if err.Tag = "email" then "Must be a valid email address"
  else if err.Tag = "min" then
    if err.isInt then "Must be at least " ++ err.Param
    else "Must be at least " ++ err.Param ++ " characters long"
  else if err.Tag = "max" then
    if err.isInt then "Must be at most " ++ err.Param
    else "Must be at most " ++ err.Param ++ " characters long"
  else "Invalid value"

/-- Go `validator.Struct(params)` for `entity.UserSearchParams`, by its tags:
`Page` `min=1`; `PerPage` `min=1,max=100`; `SortDir` `oneof=asc desc`. One
error per field, for the first tag that fails. -/
def validateSearchParams (params : UserSearchParams) : List FieldError :=
  (if params.Page < 1 then [{ Field := "Page", Tag := "min", Param := "1", isInt := true }]
    else []) ++
  (if params.PerPage < 1 then
      [{ Field := "PerPage", Tag := "min", Param := "1", isInt := true }]
    else if 100 < params.PerPage then
      [{ Field := "PerPage", Tag := "max", Param := "100", isInt := true }]
    else []) ++
  (if params.SortDir = "asc" ∨ params.SortDir = "desc" then []
    else [{ Field := "SortDir", Tag := "oneof", Param := "asc desc", isInt := false }])

/-- What the handlers use of `*validator.Validate` that is the library's own
and not fixed by the struct tags: its `email` rule. -/
structure Validate where
  email : String → Bool

/-- Go `validator.Struct(req)` for `entity.CreateUserRequest`, by its tags:
`Name` `required,min=2,max=100`; `Email` `required,email`; `DateOfBirth`
`required`; `Phone` `omitempty,min=10,max=20`. Lengths count runes. One error
per field, for the first tag that fails. -/
def validateCreateUserRequest (validator : Validate) (req : CreateUserRequest) :
    List FieldError :=
  (if req.Name = "" then [{ Field := "Name", Tag := "required", Param := "", isInt := false }]
    else if req.Name.length < 2 then
      [{ Field := "Name", Tag := "min", Param := "2", isInt := false }]
    else if 100 < req.Name.length then
      [{ Field := "Name", Tag := "max", Param := "100", isInt := false }]
    else []) ++
  (if req.Email = "" then [{ Field := "Email", Tag := "required", Param := "", isInt := false }]
    else if validator.email req.Email then []
    else [{ Field := "Email", Tag := "email", Param := "", isInt := false }]) ++
  (if req.DateOfBirth = "" then
      [{ Field := "DateOfBirth", Tag := "required", Param := "", isInt := false }]
    else []) ++
  (if req.Phone = "" then []
    else if req.Phone.length < 10 then
      [{ Field := "Phone", Tag := "min", Param := "10", isInt := false }]
    else if 20 < req.Phone.length then
      [{ Field := "Phone", Tag := "max", Param := "20", isInt := false }]
    else [])

/-- Go `validator.Struct(req)` for `entity.UpdateUserRequest`, by its tags:
`Name` `omitempty,min=2,max=100`; `Email` `omitempty,email`; `Phone`
`omitempty,min=10,max=20`; a nil pointer is skipped, a pointer that is set is
checked. -/
def validateUpdateUserRequest (validator : Validate) (req : UpdateUserRequest) :
    List FieldError :=
  (match req.Name with
    | none => []
    | some name =>
      if name.length < 2 then [{ Field := "Name", Tag := "min", Param := "2", isInt := false }]
      else if 100 < name.length then
        [{ Field := "Name", Tag := "max", Param := "100", isInt := false }]
      else []) ++
  (match req.Email with
    | none => []
    | some email =>
      if validator.email email then []
      else [{ Field := "Email", Tag := "email", Param := "", isInt := false }]) ++
  (match req.Phone with
    | none => []
    | some phone =>
      if phone.length < 10 then
        [{ Field := "Phone", Tag := "min", Param := "10", isInt := false }]
      else if 20 < phone.length then
        [{ Field := "Phone", Tag := "max", Param := "20", isInt := false }]
      else [])

/-- Go `strconv.ParseUint(s, 10, 32)`: a non-empty run of ASCII decimal digits
(no sign, no underscore) whose value is below 2^32; `none` stands for a
non-nil error. -/
def ParseUint (s : String) : Option Nat :=
  if s.data = [] then none
  else if s.data.all isDigit then
    let n := s.data.foldl (fun acc c => acc * 10 + digitVal c) 0
    if n < 4294967296 then some n else none
  else none

namespace UserHandler

variable {σ : Type}

/-- Go `(h *UserHandler) ListUsers`. `bound` is the outcome of
`c.ShouldBindQuery(&params)`: the parameters, or `none` when binding fails. -/
def ListUsers (userService : UserService σ) (bound : Option UserSearchParams) (s : σ) :
    Response × σ :=
  match bound with
  | none => (.failure 400 { Error := "Invalid query parameters", Details := [] }, s)
  | some params =>
    -- Set defaults
    let params := if params.Page = 0 then { params with Page := 1 } else params
    let params := if params.PerPage = 0 then { params with PerPage := 10 } else params
    let params := if params.SortBy = "" then { params with SortBy := "created_at" } else params
    let params := if params.SortDir = "" then { params with SortDir := "desc" } else params
    -- Validate sort_by field
    let validSortFields := ["name", "email", "age", "phone", "created_at", "updated_at"]
    if ¬ (params.SortBy ∈ validSortFields) then
      (.failure 400 { Error := "Invalid sort field", Details := [] }, s)
    else
      match validateSearchParams params with
      | e :: es =>
        (.failure 400 { Error := "Validation failed",
                        Details := (e :: es).map (fun err => (err.Field, getValidationMessage err)) },
          s)
      | [] =>
        match userService.ListUsers params s with
        | (.error _, s1) => (.failure 500 { Error := "Failed to list users", Details := [] }, s1)
        | (.ok result, s1) =>
          (.success 200 { Message := "Users retrieved successfully", Data := .list result }, s1)

/-- Go `(h *UserHandler) CreateUser`. `bound` is the outcome of
`c.ShouldBindJSON(&req)`: the request, or `none` when binding fails. -/
def CreateUser (userService : UserService σ) (validator : Validate)
    (bound : Option CreateUserRequest) (s : σ) : Response × σ :=
  match bound with
  | none => (.failure 400 { Error := "Invalid request format", Details := [] }, s)
  | some req =>
    match validateCreateUserRequest validator req with
    | e :: es =>
      (.failure 400 { Error := "Validation failed",
                      Details := (e :: es).map (fun err => (err.Field, getValidationMessage err)) },
        s)
    | [] =>
      match userService.CreateUser req s with
      | (.error err, s1) =>
        if err = "email already exists" ∨ err = "user must be older than 18 years" then
          (.failure 400 { Error := err, Details := [] }, s1)
        else (.failure 500 { Error := "Failed to create user", Details := [] }, s1)
      | (.ok user, s1) =>
        (.success 201 { Message := "User created successfully", Data := .user user }, s1)

/-- Go `(h *UserHandler) GetUser`. `idStr` is `c.Param("id")`. -/
def GetUser (userService : UserService σ) (idStr : String) (s : σ) : Response × σ :=
  match ParseUint idStr with
  | none => (.failure 400 { Error := "Invalid user ID", Details := [] }, s)
  | some id =>
    match userService.GetUser id s with
    | (.error err, s1) =>
      if err = "user not found" then
        (.failure 404 { Error := "User not found", Details := [] }, s1)
      else (.failure 500 { Error := "Failed to get user", Details := [] }, s1)
    | (.ok user, s1) =>
      (.success 200 { Message := "User retrieved successfully", Data := .user user }, s1)

/-- Go `(h *UserHandler) UpdateUser`. `idStr` is `c.Param("id")`, `bound` the
outcome of `c.ShouldBindJSON(&req)`. -/
def UpdateUser (userService : UserService σ) (validator : Validate) (idStr : String)
    (bound : Option UpdateUserRequest) (s : σ) : Response × σ :=
  match ParseUint idStr with
  | none => (.failure 400 { Error := "Invalid user ID", Details := [] }, s)
  | some id =>
    match bound with
    | none => (.failure 400 { Error := "Invalid request format", Details := [] }, s)
    | some req =>
      match validateUpdateUserRequest validator req with
      | e :: es =>
        (.failure 400 { Error := "Validation failed",
                        Details := (e :: es).map (fun err => (err.Field, getValidationMessage err)) },
          s)
      | [] =>
        match userService.UpdateUser id req s with
        | (.error err, s1) =>
          if err = "user not found" then
            (.failure 404 { Error := "User not found", Details := [] }, s1)
          else if err = "email already exists" ∨ err = "user must be older than 18 years" then
            (.failure 400 { Error := err, Details := [] }, s1)
          else (.failure 500 { Error := "Failed to update user", Details := [] }, s1)
        | (.ok user, s1) =>
          (.success 200 { Message := "User updated successfully", Data := .user user }, s1)

/-- Go `(h *UserHandler) DeleteUser`. `idStr` is `c.Param("id")`. -/
def DeleteUser (userService : UserService σ) (idStr : String) (s : σ) : Response × σ :=
  match ParseUint idStr with
  | none => (.failure 400 { Error := "Invalid user ID", Details := [] }, s)
  | some id =>
    match userService.DeleteUser id s with
    | (.error err, s1) =>
      if err = "user not found" then
        (.failure 404 { Error := "User not found", Details := [] }, s1)
      else (.failure 500 { Error := "Failed to delete user", Details := [] }, s1)
    | (.ok (), s1) =>
      (.success 200 { Message := "User deleted successfully", Data := .none }, s1)

end UserHandler

/-! ## Definitions used to state the properties -/

/-- The defaults of the specification for list requests: page 1 for 0,
per_page 10 for 0, sort_by created_at for empty, sort_dir desc for empty;
every other value is kept. -/
def searchDefaults (p : UserSearchParams) : UserSearchParams :=
  { Search := p.Search
    Page := if p.Page = 0 then 1 else p.Page
    PerPage := if p.PerPage = 0 then 10 else p.PerPage
    SortBy := if p.SortBy = "" then "created_at" else p.SortBy
    SortDir := if p.SortDir = "" then "desc" else p.SortDir }

/-- The statement `List` has built when it counts: the model, with the search
condition when the search text is not empty. -/
def listFilter (search : String) : Query :=
  if search ≠ "" then
    Query.Model.Where "name LIKE ? OR email LIKE ? OR phone LIKE ?"
      [.str ("%" ++ search ++ "%"), .str ("%" ++ search ++ "%"), .str ("%" ++ search ++ "%")]
  else Query.Model

/-- The offset `List` passes to `query.Offset`, as a row count. -/
def listOffset (p : UserSearchParams) : Nat :=
  (wrapInt (wrapInt (p.Page - 1) * p.PerPage)).toNat

/-- Whether a row matches the free-text search of a list request. -/
def Store.matchesSearch (search : String) (u : User) : Bool :=
  if search = "" then true
  else Store.like u.Name ("%" ++ search ++ "%") || Store.like u.Email ("%" ++ search ++ "%") ||
    Store.like u.Phone ("%" ++ search ++ "%")

/-- The filtered set of a list request: the users that are not soft-deleted
and match the search, in table order. -/
def Store.filtered (search : String) (st : Store) : List User :=
  st.rows.filter (fun u => u.DeletedAt.isNone && Store.matchesSearch search u)

/-- What an update leaves as fetched: `ID` and `CreatedAt` always, and each of
the five request fields that is absent from the request. -/
def UpdateKeeps (req : UpdateUserRequest) (fetched x : User) : Prop :=
  x.ID = fetched.ID ∧ x.CreatedAt = fetched.CreatedAt ∧
  (req.Name = none → x.Name = fetched.Name) ∧
  (req.Email = none → x.Email = fetched.Email) ∧
  (req.DateOfBirth = none → x.DateOfBirth = fetched.DateOfBirth) ∧
  (req.Phone = none → x.Phone = fetched.Phone) ∧
  (req.Address = none → x.Address = fetched.Address)

/-- The email stage of `UpdateUser` (block `Email must be unique`). -/
def updateEmailStep {σ : Type} (userRepo : UserRepository σ) (id : Nat) (reqEmail : Option String)
    (user : User) (s1 : σ) : Except String User × σ :=
  match reqEmail with
  | none => (.ok user, s1)
  | some reqEmail =>
    let email := ToLower (TrimSpace reqEmail)
    match userRepo.EmailExists email id s1 with
    | (.error err, s2) => (.error ("failed to validate email: " ++ err), s2)
    | (.ok exists_, s2) =>
      if exists_ then (.error "email already exists", s2)
      else (.ok { user with Email := email }, s2)

/-- The date stage of `UpdateUser` (block `Date of birth validation`). -/
def updateDateStep (now : Time) (reqDate : Option String) (user : User) : Except String User :=
  match reqDate with
  | none => .ok user
  | some reqDate =>
    match Parse reqDate with
    | .error err => .error ("invalid date of birth format, use YYYY-MM-DD: " ++ err)
    | .ok dateOfBirth =>
      let age := calculateAge now dateOfBirth
      if age ≤ 18 then .error "user must be older than 18 years"
      else .ok { user with DateOfBirth := dateOfBirth }

/-- The last edits of `UpdateUser` (blocks `Update other fields` and `Set computed age`). -/
def updateFields (now : Time) (req : UpdateUserRequest) (user : User) : User :=
  let user := match req.Name with
    | some name => { user with Name := TrimSpace name }
    | none => user
  let user := match req.Phone with
    | some phone => { user with Phone := phone }
    | none => user
  let user := match req.Address with
    | some address => { user with Address := address }
    | none => user
  { user with Age := user.CalculateAge now }

/-- The error `CreateUser` and `UpdateUser` raise for a date of birth they
reject at the instant `now`: the InvalidDate text when the value does not parse
as YYYY-MM-DD, the TooYoung text when the age is at most 18; `none` for a date
they accept. -/
def dateRejection (now : Time) (value : String) : Option String :=
  match Parse value with
  | .error err => some ("invalid date of birth format, use YYYY-MM-DD: " ++ err)
  | .ok dateOfBirth =>
    if calculateAge now dateOfBirth ≤ 18 then some "user must be older than 18 years" else none

/-- The calendar age at `today` of someone born on `birthDate`: the difference
of the years, less one when the month and day of the birthday have not been
reached in the year of `today`. -/
def exactAge (today birthDate : Time) : Int :=
  let age := today.year - birthDate.year
  if today.month < birthDate.month ∨
      (today.month = birthDate.month ∧ today.day < birthDate.day) then age - 1
  else age

/-- Go `unicode.SimpleFold` on the classes of the ASCII letters, by a
representative: an ASCII capital, the Kelvin sign U+212A and the long s U+017F
go to the lower-case ASCII letter of their class; every other rune stands for
itself (the classes without an ASCII letter are not modelled). -/
def foldRune (c : Char) : Char :=
  if 65 ≤ c.toNat ∧ c.toNat ≤ 90 then Char.ofNat (c.toNat + 32)
  else if c.toNat = 8490 then 'k'
  else if c.toNat = 383 then 's'
  else c

/-- Go `strings.EqualFold(s, t)`: equality under simple Unicode case folding,
exact when one of the two strings is ASCII. -/
def EqualFold (s t : String) : Bool := s.data.map foldRune == t.data.map foldRune

/-- The statement `List` hands to `Find`: the filter, the ORDER BY clause, the
offset and the limit, all built from the parameters after defaulting. -/
def findQuery (p : UserSearchParams) : Query :=
  (((listFilter p.Search).Order (userRepository.orderClause (searchDefaults p))).Offset
    (wrapInt (wrapInt ((searchDefaults p).Page - 1) * (searchDefaults p).PerPage))).Limit
      (searchDefaults p).PerPage

/-- What the list handler requires of the parameters after defaulting:
page at least 1, per_page between 1 and 100, sort_dir "asc" or "desc". -/
def SearchValid (q : UserSearchParams) : Prop :=
  1 ≤ q.Page ∧ 1 ≤ q.PerPage ∧ q.PerPage ≤ 100 ∧ (q.SortDir = "asc" ∨ q.SortDir = "desc")

instance (q : UserSearchParams) : Decidable (SearchValid q) := by
  unfold SearchValid; infer_instance

/-- The details of the specification for parameters that are not accepted: one
entry, field and message, for each of page, per_page and sort_dir that is at
fault. -/
def searchViolations (q : UserSearchParams) : List (String × String) :=
  (if q.Page < 1 then [("Page", "Must be at least 1")] else []) ++
  (if q.PerPage < 1 then [("PerPage", "Must be at least 1")]
    else if 100 < q.PerPage then [("PerPage", "Must be at most 100")]
    else []) ++
  (if q.SortDir = "asc" ∨ q.SortDir = "desc" then [] else [("SortDir", "Invalid value")])

/-- Whether `value` contains `search` as a substring when case is
disregarded: both are lower-cased, as `strings.ToLower` does, and compared
with `Contains`. On ASCII text this makes each capital letter equal to its
small letter and nothing else. -/
def containsFold (value search : String) : Bool := Contains (ToLower value) (ToLower search)

/-- A search text without the characters that `LIKE` reads as syntax: `%`
(37), `_` (95) and the backslash (92). -/
def SearchLiteral (search : String) : Prop :=
  ∀ c ∈ search.data, c.toNat ≠ 37 ∧ c.toNat ≠ 95 ∧ c.toNat ≠ 92

instance (search : String) : Decidable (SearchLiteral search) := by
  unfold SearchLiteral; infer_instance

/-- Text of printable ASCII characters only, the space included (code points
32 to 126). On such text the case-insensitive collations of MySQL agree: two
characters are equal exactly when they are the same letter in either case, or
the same character. -/
def PrintableASCII (text : String) : Prop :=
  ∀ c ∈ text.data, 32 ≤ c.toNat ∧ c.toNat ≤ 126

instance (text : String) : Decidable (PrintableASCII text) := by
  unfold PrintableASCII; infer_instance

/-- The storage handle of the repository tests (sqlmock): the count query
answers `total`, the main query answers `rows`, nothing else is expected. -/
def mockDB (total : Int) (rows : List User) : DB Unit where
  Create _ s := (.error (.other "call to ExecQuery was not expected"), s)
  First _ s := (.error (.other "call to Query was not expected"), s)
  FirstWhere _ s := (.error (.other "call to Query was not expected"), s)
  Save _ s := (.error (.other "call to ExecQuery was not expected"), s)
  Delete _ s := (.error (.other "call to ExecQuery was not expected"), s)
  Count _ s := (.ok total, s)
  Find _ s := (.ok rows, s)

/-! ### Sample data -/

namespace Sample

/-- The instant of the sample requests: 2025-08-16. -/
def now : Time := { year := 2025, month := 8, day := 16, nanos := 0 }

/-- A stored user born 1990-01-01. -/
def alice : User :=
  { ID := 1, Name := "Alice", Email := "alice@example.com",
    DateOfBirth := { year := 1990, month := 1, day := 1, nanos := 0 }, Age := 0,
    Phone := "1234567890", Address := "Address 1",
    CreatedAt := { year := 2025, month := 1, day := 1, nanos := 0 },
    UpdatedAt := { year := 2025, month := 1, day := 1, nanos := 0 }, DeletedAt := none }

/-- A stored user born 1995-06-01. -/
def bob : User :=
  { ID := 2, Name := "Bob", Email := "bob@example.com",
    DateOfBirth := { year := 1995, month := 6, day := 1, nanos := 0 }, Age := 0,
    Phone := "0987654321", Address := "Address 2",
    CreatedAt := { year := 2025, month := 1, day := 2, nanos := 0 },
    UpdatedAt := { year := 2025, month := 1, day := 2, nanos := 0 }, DeletedAt := none }

/-- A soft-deleted user born 1985-03-01. -/
def carol : User :=
  { ID := 3, Name := "Carol", Email := "carol@example.com",
    DateOfBirth := { year := 1985, month := 3, day := 1, nanos := 0 }, Age := 0,
    Phone := "5550001111", Address := "Address 3",
    CreatedAt := { year := 2025, month := 1, day := 3, nanos := 0 },
    UpdatedAt := { year := 2025, month := 1, day := 3, nanos := 0 },
    DeletedAt := some { year := 2025, month := 2, day := 1, nanos := 0 } }

/-- A table with two live rows and one soft-deleted row. -/
def store : Store := { rows := [alice, bob, carol], nextID := 4, clock := now }

/-- A create request for a new address, with a birth date to choose. -/
def request (email dateOfBirth : String) : CreateUserRequest :=
  { Name := " New User ", Email := email, DateOfBirth := dateOfBirth, Phone := "1112223333",
    Address := "Address 4" }

/-- An update request that sets the name only. -/
def renameRequest : UpdateUserRequest :=
  { Name := some " Robert ", Email := none, DateOfBirth := none, Phone := none, Address := none }

/-- A list request for the first page of ten. -/
def firstPage (sortBy sortDir : String) : UserSearchParams :=
  { Search := "", Page := 1, PerPage := 10, SortBy := sortBy, SortDir := sortDir }

/-- An update request that sets a free address and a birth date fifteen years back. -/
def emailAndDateRequest : UpdateUserRequest :=
  { Name := none, Email := some "New@Example.com ", DateOfBirth := some "2010-01-01",
    Phone := none, Address := none }

/-- An update request that sends the stored address of the second sample user
in another spelling. -/
def ownEmailRequest : UpdateUserRequest :=
  { Name := none, Email := some " Bob@Example.com", DateOfBirth := none, Phone := none,
    Address := none }

/-- A validator for the sample requests. Its email rule is a stand-in for the
rule of the library: one `@` and no white space. -/
def validator : Validate :=
  { email := fun e => e.data.count '@' == 1 && !e.data.any isSpace }

/-- A create request for a new address, with a name to choose. -/
def requestNamed (name : String) : CreateUserRequest :=
  { Name := name, Email := "dave@example.com", DateOfBirth := "1990-01-01",
    Phone := "1112223333", Address := "Address 4" }

end Sample

/-! ## Lemmas on the library functions -/

/-- The error text of `time.Parse` at each step, on sample values. -/
theorem parseErrorText_samples :
    parseErrorText "invalid-date" =
      "parsing time \"invalid-date\" as \"2006-01-02\": cannot parse \"invalid-date\" as \"2006\"" ∧
    parseErrorText "22-10-25" =
      "parsing time \"22-10-25\" as \"2006-01-02\": cannot parse \"22-10-25\" as \"2006\"" ∧
    parseErrorText "1990/01/01" =
      "parsing time \"1990/01/01\" as \"2006-01-02\": cannot parse \"/01/01\" as \"-\"" ∧
    parseErrorText "1990-1-01" =
      "parsing time \"1990-1-01\" as \"2006-01-02\": cannot parse \"1-01\" as \"01\"" ∧
    parseErrorText "1990-13-01" = "parsing time \"1990-13-01\": month out of range" ∧
    parseErrorText "1990-01-1" =
      "parsing time \"1990-01-1\" as \"2006-01-02\": cannot parse \"1\" as \"02\"" ∧
    parseErrorText "1990-01-01T00:00:00Z" =
      "parsing time \"1990-01-01T00:00:00Z\": extra text: \"T00:00:00Z\"" ∧
    parseErrorText "1990-02-30" = "parsing time \"1990-02-30\": day out of range" ∧
    parseErrorText "" = "parsing time \"\" as \"2006-01-02\": cannot parse \"\" as \"2006\"" ∧
    quote "é" = String.mk [Char.ofNat 34, Char.ofNat 92, 'x', 'c', '3', Char.ofNat 92, 'x', 'a', '9',
      Char.ofNat 34] := by
  refine ⟨by decide, by decide, by decide, by decide, by decide, by decide, by decide,
    by decide, by decide, by decide⟩

theorem Time.isZero_iff (t : Time) : t.IsZero = true ↔ t = Time.zero := by
  cases t with
  | mk y m d n =>
    simp [Time.IsZero, Time.zero]
    tauto

theorem wrapInt_of_isInt64 (x : Int) (h : IsInt64 x) : wrapInt x = x := by
  unfold IsInt64 at h
  unfold wrapInt
  omega

theorem Char.toNat_ofNat_of_valid (n : Nat) (h : n < 55296 ∨ (57343 < n ∧ n < 1114112)) :
    (Char.ofNat n).toNat = n := by
  have hv : n.isValidChar := h
  simp only [Char.ofNat, hv, dite_true]
  rfl

set_option maxRecDepth 100000 in
theorem lowerRanges_clear : ∀ r ∈ lowerRanges,
    160 < r.1 ∧ r.1 ≤ r.2.1 ∧
    (r.2.1 < 5760 ∨ 5760 < r.1) ∧ (r.2.1 < 8192 ∨ 8202 < r.1) ∧ (r.2.1 < 8232 ∨ 8233 < r.1) ∧
    (r.2.1 < 8239 ∨ 8239 < r.1) ∧ (r.2.1 < 8287 ∨ 8287 < r.1) ∧ (r.2.1 < 12288 ∨ 12288 < r.1) ∧
    13 < r.2.2.2 ∧
    (r.2.2.2 + (r.2.1 - r.1) < 32 ∨ 32 < r.2.2.2) ∧
    (r.2.2.2 + (r.2.1 - r.1) < 133 ∨ 133 < r.2.2.2) ∧
    (r.2.2.2 + (r.2.1 - r.1) < 160 ∨ 160 < r.2.2.2) ∧
    (r.2.2.2 + (r.2.1 - r.1) < 5760 ∨ 5760 < r.2.2.2) ∧
    (r.2.2.2 + (r.2.1 - r.1) < 8192 ∨ 8202 < r.2.2.2) ∧
    (r.2.2.2 + (r.2.1 - r.1) < 8232 ∨ 8233 < r.2.2.2) ∧
    (r.2.2.2 + (r.2.1 - r.1) < 8239 ∨ 8239 < r.2.2.2) ∧
    (r.2.2.2 + (r.2.1 - r.1) < 8287 ∨ 8287 < r.2.2.2) ∧
    (r.2.2.2 + (r.2.1 - r.1) < 12288 ∨ 12288 < r.2.2.2) ∧
    (r.2.2.2 + (r.2.1 - r.1) < 55296 ∨
      (57343 < r.2.2.2 ∧ r.2.2.2 + (r.2.1 - r.1) < 1114112)) := by
  decide

theorem isSpace_eq_false (n : Nat) (c : Char) (hc : c.toNat = n)
    (h1 : 13 < n) (h2 : n ≠ 32) (h3 : n ≠ 133) (h4 : n ≠ 160) (h5 : n ≠ 5760)
    (h6 : n < 8192 ∨ 8202 < n) (h7 : n < 8232 ∨ 8233 < n) (h8 : n ≠ 8239) (h9 : n ≠ 8287)
    (h10 : n ≠ 12288) : isSpace c = false := by
  simp only [isSpace, hc, Bool.or_eq_false_iff, decide_eq_false_iff_not, beq_eq_false_iff_ne]
  refine ⟨⟨⟨⟨⟨⟨⟨⟨⟨⟨?_, ?_⟩, ?_⟩, ?_⟩, ?_⟩, ?_⟩, ?_⟩, ?_⟩, ?_⟩, ?_⟩, ?_⟩ <;> omega

theorem isSpace_toLowerRune (c : Char) : isSpace (toLowerRune c) = isSpace c := by
  unfold toLowerRune
  split_ifs with h0 h1
  · have hc : c = Char.ofNat c.toNat := (Char.ofNat_toNat c).symm
    obtain ⟨hlo, hhi⟩ := h1
    generalize c.toNat = n at hc hlo hhi
    subst hc
    interval_cases n <;> decide
  · rfl
  · cases hfind : lowerRanges.find? (fun r =>
        decide (r.1 ≤ c.toNat ∧ c.toNat ≤ r.2.1) && (c.toNat - r.1) % r.2.2.1 == 0) with
    | none => rfl
    | some r =>
      have hmem := List.mem_of_find?_eq_some hfind
      have hpred := List.find?_some hfind
      simp only [Bool.and_eq_true, decide_eq_true_eq] at hpred
      obtain ⟨⟨hlo, hhi⟩, -⟩ := hpred
      obtain ⟨a1, a2, a3, a4, a5, a6, a7, a8, b1, b2, b3, b4, b5, b6, b7, b8, b9, b10, b11⟩ :=
        lowerRanges_clear r hmem
      have ht : (Char.ofNat (r.2.2.2 + (c.toNat - r.1))).toNat = r.2.2.2 + (c.toNat - r.1) :=
        Char.toNat_ofNat_of_valid _ (by omega)
      simp only
      rw [isSpace_eq_false _ _ ht (by omega) (by omega) (by omega) (by omega) (by omega)
          (by omega) (by omega) (by omega) (by omega) (by omega),
        isSpace_eq_false _ c rfl (by omega) (by omega) (by omega) (by omega) (by omega)
          (by omega) (by omega) (by omega) (by omega) (by omega)]

theorem toLower_trimSpace (s : String) : ToLower (TrimSpace s) = TrimSpace (ToLower s) := by
  have hcomp : (isSpace ∘ toLowerRune) = isSpace := funext isSpace_toLowerRune
  have hdrop : ∀ l : List Char,
      (l.dropWhile isSpace).map toLowerRune = (l.map toLowerRune).dropWhile isSpace := by
    intro l
    rw [List.dropWhile_map, hcomp]
  simp only [ToLower, TrimSpace, List.map_reverse, hdrop]

theorem failedToCreate_ne_tooYoung (x : String) :
    "failed to create user: " ++ x ≠ "user must be older than 18 years" := by
  intro h
  have h2 := congrArg String.data h
  simp [String.data_append] at h2

/-! ## Lemmas on the repository -/

theorem userRepository.create_ok {σ : Type} (db : DB σ) (r u : User) (s : σ)
    (h : (userRepository.Create db r s).1 = .ok u) :
    ∃ w : Inserted, u = { r with ID := w.ID, CreatedAt := w.CreatedAt, UpdatedAt := w.UpdatedAt } := by
  unfold userRepository.Create at h
  split at h
  · split at h <;> simp at h
  · rename_i w s1 _
    exact ⟨w, by simpa using h.symm⟩

theorem userRepository.update_ok {σ : Type} (db : DB σ) (r u : User) (s : σ)
    (h : (userRepository.Update db r s).1 = .ok u) :
    ∃ t : Time, u = { r with UpdatedAt := t } := by
  unfold userRepository.Update at h
  split at h
  · split at h <;> simp at h
  · rename_i t s1 _
    exact ⟨t, by simpa using h.symm⟩

theorem list_defaults {σ : Type} (db : DB σ) (p : UserSearchParams) (s : σ) :
    userRepository.List db p s = userRepository.List db (searchDefaults p) s := by
  by_cases h1 : p.Page = 0 <;> by_cases h2 : p.PerPage = 0 <;> by_cases h3 : p.SortBy = "" <;>
    by_cases h4 : p.SortDir = "" <;>
    simp [userRepository.List, searchDefaults, h1, h2, h3, h4]

theorem list_normal {σ : Type} (db : DB σ) (p : UserSearchParams) (s : σ)
    (h1 : p.Page ≠ 0) (h2 : p.PerPage ≠ 0) (h3 : p.SortBy ≠ "") (h4 : p.SortDir ≠ "") :
    userRepository.List db p s =
      match db.Count (listFilter p.Search) s with
      | (.error err, s1) => (.error ("failed to count users: " ++ err.Error), s1)
      | (.ok total, s1) =>
        match db.Find ((((listFilter p.Search).Order (userRepository.orderClause p)).Offset
            (wrapInt (wrapInt (p.Page - 1) * p.PerPage))).Limit p.PerPage) s1 with
        | (.error err, s2) => (.error ("failed to list users: " ++ err.Error), s2)
        | (.ok users, s2) =>
          (.ok { Users := users, Total := total, Page := p.Page, PerPage := p.PerPage,
                 TotalPages := totalPagesOf total p.PerPage }, s2) := by
  simp only [userRepository.List, h1, h2, h3, h4, if_false, listFilter]

theorem searchDefaults_normal (p : UserSearchParams) :
    (searchDefaults p).Page ≠ 0 ∧ (searchDefaults p).PerPage ≠ 0 ∧
    (searchDefaults p).SortBy ≠ "" ∧ (searchDefaults p).SortDir ≠ "" := by
  refine ⟨?_, ?_, ?_, ?_⟩ <;> simp only [searchDefaults] <;> split_ifs <;> first | assumption | decide

theorem Store.wherePred_listFilter (search : String) :
    ∃ pred, Store.wherePred (listFilter search).wheres = some pred ∧
      ∀ st, Store.selectRows pred st = Store.filtered search st := by
  by_cases h : search = ""
  · subst h
    refine ⟨fun _ => true, by simp [listFilter, Query.Model, Store.wherePred], fun st => ?_⟩
    simp [Store.selectRows, Store.filtered, Store.matchesSearch]
  · refine ⟨_, by simp [listFilter, h, Query.Model, Query.Where, Store.wherePred, Store.evalWhere]; rfl, fun st => ?_⟩
    simp [Store.selectRows, Store.filtered, Store.matchesSearch, h]

theorem orderClause_mem (p : UserSearchParams) :
    userRepository.orderClause p ∈
      ["name ASC", "name DESC", "email ASC", "email DESC", "phone ASC", "phone DESC",
       "created_at ASC", "created_at DESC", "updated_at ASC", "updated_at DESC",
       "id ASC", "id DESC", "date_of_birth ASC", "date_of_birth DESC"] := by
  unfold userRepository.orderClause
  by_cases hage : p.SortBy = "age"
  · by_cases hdir : p.SortDir = "asc" <;> simp [hage, hdir]
  · simp only [hage, if_false]
    have hd : (if ToUpper p.SortDir ≠ "ASC" ∧ ToUpper p.SortDir ≠ "DESC" then "DESC"
        else ToUpper p.SortDir) = "ASC" ∨
        (if ToUpper p.SortDir ≠ "ASC" ∧ ToUpper p.SortDir ≠ "DESC" then "DESC"
        else ToUpper p.SortDir) = "DESC" := by
      by_cases h1 : ToUpper p.SortDir = "ASC"
      · left; simp [h1]
      · by_cases h2 : ToUpper p.SortDir = "DESC"
        · right; simp [h2]
        · right; simp [h1, h2]
    unfold getSortField
    rcases hd with hd | hd <;> rw [hd] <;> split_ifs <;> decide

theorem Store.orderLE_orderClause (p : UserSearchParams) :
    ∃ le, Store.orderLE (userRepository.orderClause p) = some le := by
  have h := orderClause_mem p
  simp only [List.mem_cons, List.mem_singleton, List.not_mem_nil, or_false] at h
  rcases h with h | h | h | h | h | h | h | h | h | h | h | h | h | h <;> rw [h] <;>
    exact ⟨_, rfl⟩

theorem Store.limitRows_of_nonneg (offset limit : Int) (rows : List User) (h : 0 ≤ limit) :
    Store.limitRows (some offset) (some limit) rows =
      .ok ((rows.drop offset.toNat).take limit.toNat) := by
  unfold Store.limitRows
  by_cases ho : 0 < offset
  · simp [ho, h]
  · have : offset.toNat = 0 := by omega
    simp [ho, h, this]

theorem list_memDB (p : UserSearchParams) (st : Store)
    (h1 : p.Page ≠ 0) (h2 : p.PerPage ≠ 0) (h3 : p.SortBy ≠ "") (h4 : p.SortDir ≠ "")
    (hlim : 0 ≤ p.PerPage) (le : User → User → Bool)
    (hle : Store.orderLE (userRepository.orderClause p) = some le) :
    userRepository.List memDB p st =
      (.ok { Users := ((Store.sortRows le (Store.filtered p.Search st)).drop
                (listOffset p)).take p.PerPage.toNat
             Total := (Store.filtered p.Search st).length
             Page := p.Page
             PerPage := p.PerPage
             TotalPages := totalPagesOf (Store.filtered p.Search st).length p.PerPage }, st) := by
  obtain ⟨pred, hpred, hsel⟩ := Store.wherePred_listFilter p.Search
  rw [list_normal memDB p st h1 h2 h3 h4]
  simp only [memDB, Store.Count, Store.Find, hpred, Query.Order, Query.Offset, Query.Limit, hle,
    hsel, Store.limitRows_of_nonneg _ _ _ hlim, listOffset]

/-! ## Lemmas on `float64` rounding -/

theorem roundHalfEven_intCast (n : ℤ) : roundHalfEven (n : ℚ) = n := by
  simp [roundHalfEven]

theorem roundHalfEven_ge (x : ℚ) (m : ℤ) (h : (m : ℚ) ≤ x) : m ≤ roundHalfEven x := by
  have hf : m ≤ ⌊x⌋ := Int.le_floor.2 h
  unfold roundHalfEven
  simp only
  split_ifs <;> omega

theorem roundHalfEven_le (x : ℚ) (m : ℤ) (h : x ≤ (m : ℚ)) : roundHalfEven x ≤ m := by
  have hf : ⌊x⌋ ≤ m := Int.floor_le_iff.2 (lt_of_le_of_lt h (by simp))
  unfold roundHalfEven
  simp only
  split_ifs with h1 h2 h3
  · exact hf
  · -- the fractional part exceeds one half, so x is not an integer and floor x < m
    have hlt : ⌊x⌋ < m := by
      rw [Int.floor_lt]
      rcases lt_or_eq_of_le h with h' | h'
      · exact h'
      · exfalso
        rw [h', Int.floor_intCast] at h2
        simp at h2
        linarith
    omega
  · exact hf
  · have hfrac : x - ⌊x⌋ = 1 / 2 := le_antisymm (not_lt.1 h2) (not_lt.1 h1)
    have hlt : ⌊x⌋ < m := by
      rw [Int.floor_lt]
      rcases lt_or_eq_of_le h with h' | h'
      · exact h'
      · exfalso
        rw [h', Int.floor_intCast] at hfrac
        simp at hfrac
    omega

theorem roundHalfEven_err (x : ℚ) : |(roundHalfEven x : ℚ) - x| ≤ 1 / 2 := by
  have h0 : (⌊x⌋ : ℚ) ≤ x := Int.floor_le x
  have h1 : x < ⌊x⌋ + 1 := Int.lt_floor_add_one x
  unfold roundHalfEven
  simp only
  rw [abs_le]
  split_ifs with a b c
  · constructor <;> linarith
  · push_cast; constructor <;> linarith
  · have hfrac : x - ⌊x⌋ = 1 / 2 := le_antisymm (not_lt.1 b) (not_lt.1 a)
    constructor <;> linarith
  · have hfrac : x - ⌊x⌋ = 1 / 2 := le_antisymm (not_lt.1 b) (not_lt.1 a)
    push_cast; constructor <;> linarith

theorem log_two_eq (q : ℚ) (e : ℤ) (h1 : (2 : ℚ) ^ e ≤ q) (h2 : q < 2 ^ (e + 1)) :
    Int.log 2 q = e := by
  have hq : 0 < q := lt_of_lt_of_le (by positivity) h1
  have ha : e ≤ Int.log 2 q := (Int.zpow_le_iff_le_log (by norm_num) hq).1 (by simpa using h1)
  have hb : Int.log 2 q < e + 1 := (Int.lt_zpow_iff_log_lt (by norm_num) hq).1 (by simpa using h2)
  omega

theorem log_two_bounds (q : ℚ) (hq : 0 < q) :
    (2 : ℚ) ^ Int.log 2 q ≤ q ∧ q < 2 ^ (Int.log 2 q + 1) := by
  have h1 := Int.zpow_log_le_self (b := 2) (by norm_num) hq
  have h2 := Int.lt_zpow_succ_log_self (b := 2) (by norm_num) q
  exact ⟨by simpa using h1, by simpa using h2⟩

theorem roundFloat64_of_bounds (q : ℚ) (e : ℤ) (h1 : (2 : ℚ) ^ e ≤ q) (h2 : q < 2 ^ (e + 1)) :
    roundFloat64 q = (roundHalfEven (q * 2 ^ (52 - e)) : ℚ) * 2 ^ (e - 52) := by
  have hq : 0 < q := lt_of_lt_of_le (by positivity) h1
  have hlog := log_two_eq q e h1 h2
  unfold roundFloat64
  simp only [ne_of_gt hq, if_false, not_lt.2 (le_of_lt hq), abs_of_pos hq, hlog, one_mul]

theorem roundFloat64_zero : roundFloat64 0 = 0 := by
  simp [roundFloat64]

theorem zpow_two_split (e : ℤ) : (2 : ℚ) ^ (52 - e) * 2 ^ (e - 52) = 1 := by
  rw [← zpow_add₀ (by norm_num : (2 : ℚ) ≠ 0)]
  simp

theorem roundFloat64_bounds (q : ℚ) (e : ℤ) (h1 : (2 : ℚ) ^ e ≤ q) (h2 : q < 2 ^ (e + 1)) :
    (2 : ℚ) ^ e ≤ roundFloat64 q ∧ roundFloat64 q ≤ 2 ^ (e + 1) := by
  rw [roundFloat64_of_bounds q e h1 h2]
  have hp : (0 : ℚ) < 2 ^ (52 - e) := by positivity
  have hp2 : (0 : ℚ) < 2 ^ (e - 52) := by positivity
  have hlo : ((2 ^ 52 : ℤ) : ℚ) ≤ q * 2 ^ (52 - e) := by
    have : (2 : ℚ) ^ e * 2 ^ (52 - e) = 2 ^ (52 : ℤ) := by
      rw [← zpow_add₀ (by norm_num : (2 : ℚ) ≠ 0)]; simp
    have h := mul_le_mul_of_nonneg_right h1 (le_of_lt hp)
    rw [this] at h
    norm_num at h ⊢
    exact h
  have hhi : q * 2 ^ (52 - e) ≤ ((2 ^ 53 : ℤ) : ℚ) := by
    have : (2 : ℚ) ^ (e + 1) * 2 ^ (52 - e) = 2 ^ (53 : ℤ) := by
      rw [← zpow_add₀ (by norm_num : (2 : ℚ) ≠ 0)]; congr 1; ring
    have h := mul_le_mul_of_nonneg_right (le_of_lt h2) (le_of_lt hp)
    rw [this] at h
    norm_num at h ⊢
    exact h
  have r1 := roundHalfEven_ge _ _ hlo
  have r2 := roundHalfEven_le _ _ hhi
  have r1q : ((2 ^ 52 : ℤ) : ℚ) ≤ (roundHalfEven (q * 2 ^ (52 - e)) : ℚ) := by exact_mod_cast r1
  have r2q : (roundHalfEven (q * 2 ^ (52 - e)) : ℚ) ≤ ((2 ^ 53 : ℤ) : ℚ) := by exact_mod_cast r2
  have e1 : (2 : ℚ) ^ e = ((2 ^ 52 : ℤ) : ℚ) * 2 ^ (e - 52) := by
    have : ((2 ^ 52 : ℤ) : ℚ) = (2 : ℚ) ^ (52 : ℤ) := by norm_num
    rw [this, ← zpow_add₀ (by norm_num : (2 : ℚ) ≠ 0)]; congr 1; ring
  have e2 : (2 : ℚ) ^ (e + 1) = ((2 ^ 53 : ℤ) : ℚ) * 2 ^ (e - 52) := by
    have : ((2 ^ 53 : ℤ) : ℚ) = (2 : ℚ) ^ (53 : ℤ) := by norm_num
    rw [this, ← zpow_add₀ (by norm_num : (2 : ℚ) ≠ 0)]; congr 1; ring
  rw [e1, e2]
  exact ⟨mul_le_mul_of_nonneg_right r1q (le_of_lt hp2),
    mul_le_mul_of_nonneg_right r2q (le_of_lt hp2)⟩

theorem roundFloat64_err (q : ℚ) (e : ℤ) (h1 : (2 : ℚ) ^ e ≤ q) (h2 : q < 2 ^ (e + 1)) :
    |roundFloat64 q - q| ≤ 2 ^ (e - 53) := by
  rw [roundFloat64_of_bounds q e h1 h2]
  have hp2 : (0 : ℚ) < 2 ^ (e - 52) := by positivity
  have hq : q = q * 2 ^ (52 - e) * 2 ^ (e - 52) := by
    rw [mul_assoc, zpow_two_split, mul_one]
  have herr := roundHalfEven_err (q * 2 ^ (52 - e))
  have hfac : (roundHalfEven (q * 2 ^ (52 - e)) : ℚ) * 2 ^ (e - 52) - q =
      ((roundHalfEven (q * 2 ^ (52 - e)) : ℚ) - q * 2 ^ (52 - e)) * 2 ^ (e - 52) := by
    rw [sub_mul, ← hq]
  rw [hfac, abs_mul, abs_of_pos hp2]
  have hhalf : (2 : ℚ) ^ (e - 53) = 1 / 2 * 2 ^ (e - 52) := by
    have : (1 / 2 : ℚ) = 2 ^ (-1 : ℤ) := by norm_num
    rw [this, ← zpow_add₀ (by norm_num : (2 : ℚ) ≠ 0)]; congr 1; ring
  rw [hhalf]
  exact mul_le_mul_of_nonneg_right herr (le_of_lt hp2)

theorem roundFloat64_exact (q : ℚ) (e : ℤ) (n : ℤ) (h1 : (2 : ℚ) ^ e ≤ q) (h2 : q < 2 ^ (e + 1))
    (hn : q * 2 ^ (52 - e) = n) : roundFloat64 q = q := by
  rw [roundFloat64_of_bounds q e h1 h2, hn, roundHalfEven_intCast, ← hn, mul_assoc,
    zpow_two_split, mul_one]

/-- Integers up to 2^53 are float64 values -/
theorem float64OfInt_exact (a : ℤ) (h0 : 0 ≤ a) (h1 : a ≤ 9007199254740992) :
    float64OfInt a = a := by
  unfold float64OfInt
  rcases eq_or_lt_of_le h0 with h | hpos
  · rw [← h]; simp [roundFloat64_zero]
  · have hq : (0 : ℚ) < (a : ℚ) := by exact_mod_cast hpos
    obtain ⟨b1, b2⟩ := log_two_bounds (a : ℚ) hq
    set e := Int.log 2 (a : ℚ) with he
    have he0 : 0 ≤ e := by
      have : (2 : ℚ) ^ (0 : ℤ) ≤ (a : ℚ) := by
        simp only [zpow_zero]; exact_mod_cast hpos
      exact (Int.zpow_le_iff_le_log (by norm_num) hq).1 (by simpa using this)
    have he53 : e < 54 := by
      have : (a : ℚ) < (2 : ℚ) ^ (54 : ℤ) := by
        have : (a : ℚ) ≤ 9007199254740992 := by exact_mod_cast h1
        norm_num
        linarith
      exact (Int.lt_zpow_iff_log_lt (by norm_num) hq).1 (by simpa using this)
    by_cases hle : e ≤ 52
    · -- the scaling factor is a non-negative power of two
      obtain ⟨k, hk⟩ : ∃ k : ℕ, 52 - e = k := ⟨(52 - e).toNat, by omega⟩
      refine roundFloat64_exact (a : ℚ) e (a * 2 ^ k) b1 b2 ?_
      rw [hk, zpow_natCast]
      push_cast
      rfl
    · have he : e = 53 := by omega
      rw [he] at b1 b2
      have ha : a = 9007199254740992 := by
        have : (9007199254740992 : ℚ) ≤ (a : ℚ) := by
          norm_num at b1
          exact b1
        have : (9007199254740992 : ℤ) ≤ a := by exact_mod_cast this
        omega
      refine roundFloat64_exact (a : ℚ) 53 (2 ^ 52) (by rw [he] at *; exact b1) b2 ?_
      rw [ha]
      norm_num

theorem roundFloat64_small (q : ℚ) (h0 : 0 < q) (h1 : q < 1) :
    0 < roundFloat64 q ∧ roundFloat64 q ≤ 1 := by
  obtain ⟨b1, b2⟩ := log_two_bounds q h0
  have hlog : Int.log 2 q < 0 :=
    (Int.lt_zpow_iff_log_lt (by norm_num) h0).1 (by simpa using h1)
  obtain ⟨c1, c2⟩ := roundFloat64_bounds q _ b1 b2
  refine ⟨lt_of_lt_of_le (by positivity) c1, le_trans c2 ?_⟩
  exact zpow_le_one_of_nonpos₀ (by norm_num) (by omega)

theorem ceil_roundFloat64_small (q : ℚ) (h0 : 0 < q) (h1 : q ≤ 1) : ⌈roundFloat64 q⌉ = 1 := by
  rcases eq_or_lt_of_le h1 with h | h
  · have : roundFloat64 1 = 1 := by
      have := float64OfInt_exact 1 (by norm_num) (by norm_num)
      simpa [float64OfInt] using this
    rw [h, this]; simp
  · obtain ⟨c1, c2⟩ := roundFloat64_small q h0 h
    rw [Int.ceil_eq_iff]
    constructor
    · simpa using c1
    · simpa using c2

/-- The quotient of integers a by b with 1 <= a / b, a <= 2^53: rounding to
float64 does not change the ceiling -/
theorem ceil_roundFloat64_div (a b : ℤ) (ha : a ≤ 9007199254740992) (hb : 1 ≤ b)
    (hq : (1 : ℚ) ≤ (a : ℚ) / b) : ⌈roundFloat64 ((a : ℚ) / b)⌉ = ⌈(a : ℚ) / b⌉ := by
  have hbq : (0 : ℚ) < (b : ℚ) := by exact_mod_cast (by omega : 0 < b)
  set q : ℚ := (a : ℚ) / b with hqdef
  have hq0 : 0 < q := lt_of_lt_of_le one_pos hq
  have hqb : q * b = a := by rw [hqdef]; field_simp
  have hfl0 : (⌊q⌋ : ℚ) ≤ q := Int.floor_le q
  have hfl1 : q < ⌊q⌋ + 1 := Int.lt_floor_add_one q
  have hm1 : 1 ≤ ⌊q⌋ := Int.le_floor.2 (by simpa using hq)
  have hqa : q ≤ a := by
    rw [hqdef, div_le_iff₀ hbq]
    have h1 : (1 : ℚ) ≤ b := by exact_mod_cast hb
    have h2 : (0 : ℚ) ≤ a := by
      have := mul_pos hq0 hbq
      rw [hqb] at this
      exact le_of_lt this
    nlinarith
  rcases eq_or_lt_of_le hfl0 with hint | hlt
  · -- the quotient is an integer not above 2^53
    have hma : ⌊q⌋ ≤ a := by
      have : (⌊q⌋ : ℚ) ≤ a := hint ▸ hqa
      exact_mod_cast this
    have := float64OfInt_exact ⌊q⌋ (by omega) (by omega)
    unfold float64OfInt at this
    rw [← hint, this]
  · -- the quotient lies strictly between m and m + 1
    obtain ⟨b1, b2⟩ := log_two_bounds q hq0
    set e := Int.log 2 q with he
    have he0 : 0 ≤ e :=
      (Int.zpow_le_iff_le_log (by norm_num) hq0).1 (by simpa using hq)
    have herr := roundFloat64_err q e b1 b2
    rw [abs_le] at herr
    -- 2^e is an integer below q, hence at most m
    obtain ⟨k, hk⟩ : ∃ k : ℕ, e = k := ⟨e.toNat, by omega⟩
    have hpow : (2 : ℚ) ^ e = ((2 ^ k : ℤ) : ℚ) := by
      rw [hk, zpow_natCast]; push_cast; rfl
    have hem : (2 ^ k : ℤ) ≤ ⌊q⌋ := Int.le_floor.2 (by rw [← hpow]; exact b1)
    have hemq : (2 : ℚ) ^ e ≤ ⌊q⌋ := by rw [hpow]; exact_mod_cast hem
    -- a - m * b and (m + 1) * b - a are positive integers
    have hd1 : (1 : ℚ) ≤ a - ⌊q⌋ * b := by
      have : ⌊q⌋ * b < a := by
        have : (⌊q⌋ : ℚ) * b < a := by rw [← hqb]; exact mul_lt_mul_of_pos_right hlt hbq
        exact_mod_cast this
      have : (1 : ℤ) ≤ a - ⌊q⌋ * b := by omega
      exact_mod_cast this
    have hd2 : (1 : ℚ) ≤ (⌊q⌋ + 1) * b - a := by
      have : a < (⌊q⌋ + 1) * b := by
        have : (a : ℚ) < (⌊q⌋ + 1) * b := by rw [← hqb]; exact mul_lt_mul_of_pos_right hfl1 hbq
        exact_mod_cast this
      have : (1 : ℤ) ≤ (⌊q⌋ + 1) * b - a := by omega
      exact_mod_cast this
    -- b * 2^e < 2^53, so half an ulp is below 1 / b
    have hulp : (2 : ℚ) ^ (e - 53) * b < 1 := by
      have h53 : (2 : ℚ) ^ (e - 53) = 2 ^ e / 9007199254740992 := by
        rw [zpow_sub₀ (by norm_num : (2 : ℚ) ≠ 0)]; norm_num
      rw [h53, div_mul_eq_mul_div, div_lt_one (by norm_num)]
      have haq : (a : ℚ) ≤ 9007199254740992 := by exact_mod_cast ha
      have : (2 : ℚ) ^ e * b ≤ ⌊q⌋ * b := mul_le_mul_of_nonneg_right hemq (le_of_lt hbq)
      linarith
    have hgap1 : (2 : ℚ) ^ (e - 53) < q - ⌊q⌋ := by
      have : (q - ⌊q⌋) * b = a - ⌊q⌋ * b := by rw [sub_mul, hqb]
      have h3 : (2 : ℚ) ^ (e - 53) * b < (q - ⌊q⌋) * b := by rw [this]; linarith
      exact lt_of_mul_lt_mul_right h3 (le_of_lt hbq)
    have hgap2 : (2 : ℚ) ^ (e - 53) < ⌊q⌋ + 1 - q := by
      have : ((⌊q⌋ : ℚ) + 1 - q) * b = (⌊q⌋ + 1) * b - a := by rw [sub_mul, hqb]
      have h3 : (2 : ℚ) ^ (e - 53) * b < ((⌊q⌋ : ℚ) + 1 - q) * b := by rw [this]; linarith
      exact lt_of_mul_lt_mul_right h3 (le_of_lt hbq)
    have hc1 : ⌈roundFloat64 q⌉ = ⌊q⌋ + 1 := by
      rw [Int.ceil_eq_iff]
      push_cast
      constructor <;> linarith [herr.1, herr.2]
    have hc2 : ⌈q⌉ = ⌊q⌋ + 1 := by
      rw [Int.ceil_eq_iff]
      push_cast
      constructor <;> linarith
    rw [hc1, hc2]

theorem float64OfInt_large (b : ℤ) (hb : 9007199254740992 < b) :
    (9007199254740992 : ℚ) ≤ float64OfInt b := by
  have hbq : (9007199254740992 : ℚ) < (b : ℚ) := by exact_mod_cast hb
  have hq : (0 : ℚ) < (b : ℚ) := lt_trans (by norm_num) hbq
  obtain ⟨b1, b2⟩ := log_two_bounds (b : ℚ) hq
  have he : 53 ≤ Int.log 2 (b : ℚ) := by
    have : (2 : ℚ) ^ (53 : ℤ) ≤ (b : ℚ) := by norm_num; exact le_of_lt hbq
    exact (Int.zpow_le_iff_le_log (by norm_num) hq).1 (by simpa using this)
  obtain ⟨c1, -⟩ := roundFloat64_bounds (b : ℚ) _ b1 b2
  unfold float64OfInt
  refine le_trans ?_ c1
  have : (2 : ℚ) ^ (53 : ℤ) ≤ 2 ^ Int.log 2 (b : ℚ) := zpow_le_zpow_right₀ (by norm_num) he
  norm_num at this ⊢
  exact this

theorem totalPagesOf_eq_ceil (total perPage : ℤ) (h0 : 0 ≤ total)
    (h1 : total ≤ 9007199254740992) (hp : 1 ≤ perPage) :
    totalPagesOf total perPage = ⌈(total : ℚ) / perPage⌉ := by
  have hpq : (0 : ℚ) < (perPage : ℚ) := by exact_mod_cast (by omega : 0 < perPage)
  have htq : (0 : ℚ) ≤ (total : ℚ) := by exact_mod_cast h0
  have htq1 : (total : ℚ) ≤ 9007199254740992 := by exact_mod_cast h1
  -- the exact ceiling is between 0 and total
  have hc0 : 0 ≤ ⌈(total : ℚ) / perPage⌉ := Int.ceil_nonneg (div_nonneg htq (le_of_lt hpq))
  have hc1 : ⌈(total : ℚ) / perPage⌉ ≤ total := by
    rw [Int.ceil_le, div_le_iff₀ hpq]
    have : (1 : ℚ) ≤ perPage := by exact_mod_cast hp
    nlinarith
  have hwrap : wrapInt ⌈(total : ℚ) / perPage⌉ = ⌈(total : ℚ) / perPage⌉ :=
    wrapInt_of_isInt64 _ ⟨by omega, by omega⟩
  suffices h : ⌈float64Div (float64OfInt total) (float64OfInt perPage)⌉
      = ⌈(total : ℚ) / perPage⌉ by
    unfold totalPagesOf intCeil
    rw [h, hwrap]
  unfold float64Div
  rw [float64OfInt_exact total h0 h1]
  rcases eq_or_lt_of_le h0 with hz | hpos
  · rw [← hz]; simp [roundFloat64_zero]
  · have hposq : (0 : ℚ) < (total : ℚ) := by exact_mod_cast hpos
    by_cases hb : perPage ≤ 9007199254740992
    · rw [float64OfInt_exact perPage (by omega) hb]
      by_cases hq1 : (1 : ℚ) ≤ (total : ℚ) / perPage
      · exact ceil_roundFloat64_div total perPage h1 hp hq1
      · have hlt : (total : ℚ) / perPage < 1 := not_le.1 hq1
        have hq0 : (0 : ℚ) < (total : ℚ) / perPage := div_pos hposq hpq
        rw [ceil_roundFloat64_small _ hq0 (le_of_lt hlt), eq_comm, Int.ceil_eq_iff]
        constructor
        · simpa using hq0
        · simpa using le_of_lt hlt
    · have hbig : 9007199254740992 < perPage := by omega
      have hfb := float64OfInt_large perPage hbig
      have hfb0 : (0 : ℚ) < float64OfInt perPage := lt_of_lt_of_le (by norm_num) hfb
      have hq0 : (0 : ℚ) < (total : ℚ) / float64OfInt perPage := div_pos hposq hfb0
      have hq1 : (total : ℚ) / float64OfInt perPage ≤ 1 := by
        rw [div_le_one hfb0]; linarith
      rw [ceil_roundFloat64_small _ hq0 hq1, eq_comm, Int.ceil_eq_iff]
      have hbq : (9007199254740992 : ℚ) < (perPage : ℚ) := by exact_mod_cast hbig
      constructor
      · simpa using div_pos hposq hpq
      · have : (total : ℚ) / perPage ≤ 1 := by rw [div_le_one hpq]; linarith
        simpa using this

/-- Above 2^53 the conversion to float64 loses the last bit -/
theorem totalPagesOf_rounds : totalPagesOf 9007199254740993 1 = 9007199254740992 := by
  have h1 : float64OfInt 1 = 1 := by
    have := float64OfInt_exact 1 (by norm_num) (by norm_num)
    exact_mod_cast this
  have hfloor : ⌊((9007199254740993 : ℤ) : ℚ) * 2 ^ ((52 : ℤ) - 53)⌋ = 4503599627370496 := by
    rw [Int.floor_eq_iff]
    norm_num
  have hround : roundHalfEven (((9007199254740993 : ℤ) : ℚ) * 2 ^ ((52 : ℤ) - 53))
      = 4503599627370496 := by
    unfold roundHalfEven
    simp only [hfloor]
    norm_num
  have h2 : float64OfInt 9007199254740993 = 9007199254740992 := by
    unfold float64OfInt
    rw [roundFloat64_of_bounds _ 53 (by norm_num) (by norm_num), hround]
    norm_num
  have h3 : roundFloat64 9007199254740992 = 9007199254740992 := by
    have := float64OfInt_exact 9007199254740992 (by norm_num) (by norm_num)
    simpa [float64OfInt] using this
  unfold totalPagesOf float64Div intCeil
  rw [h1, h2, div_one, h3]
  have : ⌈(9007199254740992 : ℚ)⌉ = 9007199254740992 := by
    simp
  rw [this]
  decide

/-! ## Lemmas on the service -/

theorem updateUser_eq {σ : Type} (userRepo : UserRepository σ) (now : Time) (id : Nat)
    (req : UpdateUserRequest) (s : σ) :
    userService.UpdateUser userRepo now id req s =
      match userRepo.GetByID id s with
      | (.error err, s1) => (.error err, s1)
      | (.ok user, s1) =>
        match updateEmailStep userRepo id req.Email user s1 with
        | (.error err, s2) => (.error err, s2)
        | (.ok user, s2) =>
          match updateDateStep now req.DateOfBirth user with
          | .error err => (.error err, s2)
          | .ok user =>
            match userRepo.Update (updateFields now req user) s2 with
            | (.error err, s3) => (.error err, s3)
            | (.ok user, s3) => (.ok user, s3) := rfl

theorem updateEmailStep_recording {σ : Type} (repo : UserRepository σ) (id : Nat)
    (reqEmail : Option String) (user : User) (st : σ × List RepoCall) :
    (∀ r, RepoCall.Update r ∈ (updateEmailStep (recording repo) id reqEmail user st).2.2 →
      RepoCall.Update r ∈ st.2) ∧
    (∀ u, (updateEmailStep (recording repo) id reqEmail user st).1 = .ok u →
      u = { user with Email := u.Email } ∧ (reqEmail = none → u = user)) := by
  cases reqEmail with
  | none =>
    refine ⟨fun r hr => hr, fun u hu => ?_⟩
    simp only [updateEmailStep, Except.ok.injEq] at hu
    subst hu
    exact ⟨rfl, fun _ => rfl⟩
  | some e =>
    rcases h : repo.EmailExists (ToLower (TrimSpace e)) id st.1 with ⟨_ | b, s2⟩
    · simp [updateEmailStep, recording, h]
    · cases b
      · simp only [updateEmailStep, recording, h]
        refine ⟨fun r hr => by simpa using hr, fun u hu => ?_⟩
        simp only [Bool.false_eq_true, if_false, Except.ok.injEq] at hu
        subst hu
        exact ⟨rfl, fun h => by simp at h⟩
      · simp [updateEmailStep, recording, h]

theorem updateDateStep_ok (now : Time) (reqDate : Option String) (user u : User)
    (h : updateDateStep now reqDate user = .ok u) :
    u = { user with DateOfBirth := u.DateOfBirth } ∧ (reqDate = none → u = user) := by
  cases reqDate with
  | none =>
    simp only [updateDateStep, Except.ok.injEq] at h
    subst h
    exact ⟨rfl, fun _ => rfl⟩
  | some d =>
    simp only [updateDateStep] at h
    split at h
    · simp at h
    · split at h
      · simp at h
      · simp only [Except.ok.injEq] at h
        subst h
        exact ⟨rfl, fun h => by simp at h⟩

theorem updateFields_keeps (now : Time) (req : UpdateUserRequest) (user : User) :
    (updateFields now req user).ID = user.ID ∧
    (updateFields now req user).CreatedAt = user.CreatedAt ∧
    (updateFields now req user).UpdatedAt = user.UpdatedAt ∧
    (updateFields now req user).DeletedAt = user.DeletedAt ∧
    (updateFields now req user).Email = user.Email ∧
    (updateFields now req user).DateOfBirth = user.DateOfBirth ∧
    (req.Name = none → (updateFields now req user).Name = user.Name) ∧
    (req.Phone = none → (updateFields now req user).Phone = user.Phone) ∧
    (req.Address = none → (updateFields now req user).Address = user.Address) := by
  rcases req with ⟨_ | n, e, d, _ | ph, _ | a⟩ <;> simp [updateFields]

theorem updateUser_outcome {σ : Type} (repo : UserRepository σ) (now : Time) (id : Nat)
    (req : UpdateUserRequest) (s s1 : σ) (fetched : User)
    (hget : repo.GetByID id s = (.ok fetched, s1)) :
    (∃ err st, userService.UpdateUser (recording repo) now id req (s, []) = (.error err, st) ∧
      ∀ r, RepoCall.Update r ∉ st.2) ∨
    (∃ r s2 l, UpdateKeeps req fetched r ∧
      (userService.UpdateUser (recording repo) now id req (s, [])).1 = (repo.Update r s2).1 ∧
      (userService.UpdateUser (recording repo) now id req (s, [])).2.2 = l ++ [.Update r] ∧
      ∀ r', RepoCall.Update r' ∉ l) := by
  have hgetR : (recording repo).GetByID id (s, []) = (.ok fetched, (s1, [.GetByID id])) := by
    simp [recording, hget]
  rw [updateUser_eq, hgetR]
  simp only
  obtain ⟨hlogE, hokE⟩ := updateEmailStep_recording repo id req.Email fetched (s1, [.GetByID id])
  rcases hE : updateEmailStep (recording repo) id req.Email fetched (s1, [.GetByID id])
    with ⟨_ | u1, st2⟩
  · left
    rw [hE] at hlogE
    exact ⟨_, _, rfl, fun r hr => by simpa using hlogE r hr⟩
  · rw [hE] at hlogE hokE
    obtain ⟨hu1, hu1none⟩ := hokE u1 rfl
    have hno : ∀ r, RepoCall.Update r ∉ st2.2 := fun r hr => by simpa using hlogE r hr
    simp only
    rcases hD : updateDateStep now req.DateOfBirth u1 with _ | u2
    · left
      exact ⟨_, _, rfl, hno⟩
    · right
      obtain ⟨hu2, hu2none⟩ := updateDateStep_ok now req.DateOfBirth u1 u2 hD
      have hU : (recording repo).Update (updateFields now req u2) st2 =
          ((repo.Update (updateFields now req u2) st2.1).1,
            (repo.Update (updateFields now req u2) st2.1).2,
            st2.2 ++ [.Update (updateFields now req u2)]) := rfl
      simp only
      rw [hU]
      refine ⟨updateFields now req u2, st2.1, st2.2, ?_, ?_, ?_, hno⟩
      · obtain ⟨k1, k2, -, -, k5, k6, k7, k8, k9⟩ := updateFields_keeps now req u2
        have a1 : u1.ID = fetched.ID := by rw [hu1]
        have a2 : u1.CreatedAt = fetched.CreatedAt := by rw [hu1]
        have a3 : u1.Name = fetched.Name := by rw [hu1]
        have a4 : u1.DateOfBirth = fetched.DateOfBirth := by rw [hu1]
        have a5 : u1.Phone = fetched.Phone := by rw [hu1]
        have a6 : u1.Address = fetched.Address := by rw [hu1]
        have b1 : u2.ID = u1.ID := by rw [hu2]
        have b2 : u2.CreatedAt = u1.CreatedAt := by rw [hu2]
        have b3 : u2.Name = u1.Name := by rw [hu2]
        have b4 : u2.Email = u1.Email := by rw [hu2]
        have b5 : u2.Phone = u1.Phone := by rw [hu2]
        have b6 : u2.Address = u1.Address := by rw [hu2]
        refine ⟨?_, ?_, ?_, ?_, ?_, ?_, ?_⟩
        · rw [k1, b1, a1]
        · rw [k2, b2, a2]
        · intro h; rw [k7 h, b3, a3]
        · intro h; rw [k5, b4, hu1none h]
        · intro h; rw [k6, hu2none h, a4]
        · intro h; rw [k8 h, b5, a5]
        · intro h; rw [k9 h, b6, a6]
      · cases hc : (repo.Update (updateFields now req u2) st2.1).1 <;> rfl
      · cases hc : (repo.Update (updateFields now req u2) st2.1).1 <;> rfl

theorem handler_listUsers_defaults {σ : Type} (userService : UserService σ)
    (p : UserSearchParams) (s : σ) :
    UserHandler.ListUsers userService (some p) s =
      UserHandler.ListUsers userService (some (searchDefaults p)) s := by
  by_cases h1 : p.Page = 0 <;> by_cases h2 : p.PerPage = 0 <;> by_cases h3 : p.SortBy = "" <;>
    by_cases h4 : p.SortDir = "" <;>
    simp [UserHandler.ListUsers, searchDefaults, h1, h2, h3, h4]

theorem handler_listUsers_normal {σ : Type} (userService : UserService σ)
    (p : UserSearchParams) (s : σ)
    (h1 : p.Page ≠ 0) (h2 : p.PerPage ≠ 0) (h3 : p.SortBy ≠ "") (h4 : p.SortDir ≠ "")
    (hsort : p.SortBy ∈ ["name", "email", "age", "phone", "created_at", "updated_at"])
    (hvalid : validateSearchParams p = []) :
    UserHandler.ListUsers userService (some p) s =
      match userService.ListUsers p s with
      | (.error _, s1) => (.failure 500 { Error := "Failed to list users", Details := [] }, s1)
      | (.ok result, s1) =>
        (.success 200 { Message := "Users retrieved successfully", Data := .list result }, s1) := by
  simp only [UserHandler.ListUsers, h1, h2, h3, h4, if_false, hsort, not_true_eq_false, hvalid]

/-! ## Lemmas on the table -/

/-! ## Lemmas on the table model -/

theorem memDB_getByID_state (id : Nat) (st : Store) :
    (userRepository.GetByID memDB id st).2 = st := by
  simp only [userRepository.GetByID, memDB, Store.First]
  cases (Store.selectRows (fun u => u.ID == id) st).head? <;> simp

theorem memDB_getByID_eq (id : Nat) (st : Store) :
    userRepository.GetByID memDB id st =
      match (Store.selectRows (fun u => u.ID == id) st).head? with
      | some u => (.ok u, st)
      | none => (.error "user not found", st) := by
  simp only [userRepository.GetByID, memDB, Store.First]
  cases (Store.selectRows (fun u => u.ID == id) st).head? <;> simp

theorem memDB_emailExists_eq (e : String) (x : Nat) (st : Store) :
    userRepository.EmailExists memDB e x st =
      (.ok (decide (0 < (Store.selectRows
        (fun u => Store.sqlEq u.Email e && (decide (x = 0) || u.ID != x)) st).length)), st) := by
  by_cases hx : x > 0
  · have hx0 : x ≠ 0 := by omega
    simp [userRepository.EmailExists, memDB, Store.Count, Query.Model, Query.Where, hx, hx0,
      Store.wherePred, Store.evalWhere, Store.selectRows]
  · have hx0 : x = 0 := by omega
    subst hx0
    simp [userRepository.EmailExists, memDB, Store.Count, Query.Model, Query.Where,
      Store.wherePred, Store.evalWhere, Store.selectRows]

theorem memDB_delete_eq (id : Nat) (st : Store) :
    userRepository.Delete memDB id st =
      (if (Store.selectRows (fun u => u.ID == id) st).length = 0 then .error "user not found"
        else .ok (),
       { st with rows := st.rows.map (fun r =>
          if r.ID = id ∧ r.DeletedAt = none then { r with DeletedAt := some st.clock } else r) }) := by
  simp only [userRepository.Delete, memDB, Store.Delete]
  split_ifs with h1 h2 h2
  · rfl
  · exact absurd (by exact_mod_cast h1) h2
  · exact absurd (by exact_mod_cast h2) h1
  · rfl

theorem Store.selectRows_after_delete (id : Nat) (st : Store) :
    Store.selectRows (fun u => u.ID == id)
      { st with rows := st.rows.map (fun r =>
          if r.ID = id ∧ r.DeletedAt = none then { r with DeletedAt := some st.clock } else r) }
      = [] := by
  simp only [Store.selectRows, List.filter_eq_nil_iff, List.mem_map]
  rintro u ⟨r, -, hr⟩
  by_cases h : r.ID = id ∧ r.DeletedAt = none
  · rw [if_pos h] at hr
    subst hr
    simp
  · rw [if_neg h] at hr
    subst hr
    simp only [Bool.and_eq_true, beq_iff_eq, not_and, Option.isNone_iff_eq_none]
    intro h1 h2
    exact h ⟨h2, h1⟩

theorem Store.sqlEq_comm (a b : String) : Store.sqlEq a b = Store.sqlEq b a := by
  simp only [Store.sqlEq]
  rw [Bool.eq_iff_iff]
  simp only [beq_iff_eq]
  exact eq_comm

theorem Store.sqlEq_self (a : String) : Store.sqlEq a a = true := by
  simp [Store.sqlEq]

theorem memDB_emailExists_iff (st : Store) (e : String) (x : Nat) :
    ∃ b, (NewUserRepository memDB).EmailExists e x st = (.ok b, st) ∧
      (b = true ↔ ∃ u ∈ st.rows, u.DeletedAt = none ∧ Store.sqlEq u.Email e = true ∧
        (0 < x → u.ID ≠ x)) := by
  refine ⟨_, memDB_emailExists_eq e x st, ?_⟩
  simp only [decide_eq_true_eq, List.length_pos, ne_eq, Store.selectRows, List.filter_eq_nil_iff,
    not_forall, Classical.not_not]
  constructor
  · rintro ⟨u, hu, h⟩
    simp only [Bool.and_eq_true, Bool.or_eq_true, decide_eq_true_eq, bne_iff_ne, ne_eq,
      Option.isNone_iff_eq_none] at h
    refine ⟨u, hu, h.1, h.2.1, fun hx => ?_⟩
    rcases h.2.2 with h0 | h0
    · omega
    · exact h0
  · rintro ⟨u, hu, h1, h2, h3⟩
    refine ⟨u, hu, ?_⟩
    simp only [Bool.and_eq_true, Bool.or_eq_true, decide_eq_true_eq, bne_iff_ne, ne_eq,
      Option.isNone_iff_eq_none]
    refine ⟨h1, h2, ?_⟩
    by_cases hx : x = 0
    · exact Or.inl hx
    · exact Or.inr (h3 (by omega))

theorem contains_iff_segment (s sub : String) : Contains s sub = true ↔ sub.data <:+: s.data := by
  simp only [Contains, List.any_eq_true, List.mem_tails, List.isPrefixOf_iff_prefix]
  rw [List.infix_iff_prefix_suffix]
  constructor
  · rintro ⟨t, h1, h2⟩
    exact ⟨t, h2, h1⟩
  · rintro ⟨t, h1, h2⟩
    exact ⟨t, h2, h1⟩

theorem contains_append_left (a b sub : String) (h : Contains a sub = true) :
    Contains (a ++ b) sub = true := by
  rw [contains_iff_segment] at h ⊢
  rw [String.data_append]
  exact h.trans (List.prefix_append _ _).isInfix

theorem contains_append_right (a b sub : String) (h : Contains b sub = true) :
    Contains (a ++ b) sub = true := by
  rw [contains_iff_segment] at h ⊢
  rw [String.data_append]
  exact h.trans (List.suffix_append _ _).isInfix

theorem memDB_create_duplicate (r : User) (st : Store) (hid : r.ID = 0)
    (hrow : ∃ w ∈ st.rows, Store.sqlEq w.Email r.Email = true) :
    ∃ err, userRepository.Create memDB r st = (.error err, st) ∧
      ((∀ w ∈ st.rows, w.ID ≠ st.nextID) → err = "email already exists") := by
  have hany : st.rows.any (fun w => Store.sqlEq w.Email r.Email) = true := by
    rw [List.any_eq_true]
    exact hrow
  have hdup : (Contains (Store.duplicateEmail r.Email).Error "Duplicate entry" &&
      Contains (Store.duplicateEmail r.Email).Error "email") = true := by
    simp only [Store.duplicateEmail, DBError.Error, Bool.and_eq_true]
    exact ⟨contains_append_left _ _ _ (contains_append_left _ _ _ (by decide)),
      contains_append_right _ _ _ (by decide)⟩
  have hpkdup : (Contains Store.duplicateID.Error "Duplicate entry" &&
      Contains Store.duplicateID.Error "email") = false := by decide
  cases hpk : st.rows.any (fun w => w.ID == st.nextID) with
  | true =>
    refine ⟨"failed to create user: " ++ Store.duplicateID.Error, ?_, ?_⟩
    · simp only [userRepository.Create, memDB, Store.Create, hid, if_true, hpk, hpkdup,
        Bool.false_eq_true, if_false]
    · intro hfresh
      rw [List.any_eq_true] at hpk
      obtain ⟨w, hw, hwid⟩ := hpk
      exact absurd (by simpa using hwid) (hfresh w hw)
  | false =>
    refine ⟨"email already exists", ?_, fun _ => rfl⟩
    simp only [userRepository.Create, memDB, Store.Create, hid, if_true, hpk, hany, if_false,
      hdup, Bool.false_eq_true]

theorem Store.create_outcome (user : User) (st : Store) :
    (∃ e, Store.Create user st = (.error e, st)) ∨
    (∃ w st1, Store.Create user st = (.ok w, st1) ∧ ∃ row ∈ st1.rows, row.Email = user.Email) := by
  simp only [Store.Create]
  split_ifs <;> first
    | exact Or.inl ⟨_, rfl⟩
    | exact Or.inr ⟨_, _, rfl, _, List.mem_append_right _ (List.mem_singleton_self _), rfl⟩

theorem memDB_create_row (r u : User) (st st1 : Store)
    (h : userRepository.Create memDB r st = (.ok u, st1)) :
    ∃ w ∈ st1.rows, w.Email = r.Email := by
  simp only [userRepository.Create, memDB] at h
  rcases Store.create_outcome r st with ⟨e, he⟩ | ⟨w, st2, he, hrow⟩
  · rw [he] at h
    simp only at h
    split_ifs at h <;> simp at h
  · rw [he] at h
    simp only [Prod.mk.injEq, Except.ok.injEq] at h
    obtain ⟨-, hst⟩ := h
    subst hst
    exact hrow

theorem createUser_ok_row (now : Time) (req : CreateUserRequest) (u : User) (st st1 : Store)
    (h : userService.CreateUser (NewUserRepository memDB) now req st = (.ok u, st1)) :
    ∃ w ∈ st1.rows, w.Email = ToLower (TrimSpace req.Email) := by
  simp only [userService.CreateUser, NewUserRepository, memDB_emailExists_eq] at h
  split_ifs at h with hex
  · simp at h
  cases hp : Parse req.DateOfBirth with
  | error x =>
    rw [hp] at h
    simp at h
  | ok t =>
    rw [hp] at h
    simp only at h
    split_ifs at h with hage
    · simp at h
    generalize hc : userRepository.Create memDB _ st = c at h
    rcases c with ⟨_ | v, s3⟩
    · simp at h
    · simp only [Prod.mk.injEq, Except.ok.injEq] at h
      obtain ⟨-, hs⟩ := h
      subst hs
      exact memDB_create_row _ _ _ _ hc

theorem createUser_after_check (now : Time) (req : CreateUserRequest) (st : Store)
    (hcheck : (NewUserRepository memDB).EmailExists req.Email 0 st = (.ok false, st))
    (hrow : ∃ w ∈ st.rows, Store.sqlEq w.Email (ToLower (TrimSpace req.Email)) = true) :
    (∀ e, dateRejection now req.DateOfBirth = some e →
      userService.CreateUser (NewUserRepository memDB) now req st = (.error e, st)) ∧
    (dateRejection now req.DateOfBirth = none →
      ∃ err, userService.CreateUser (NewUserRepository memDB) now req st = (.error err, st) ∧
        ((∀ w ∈ st.rows, w.ID ≠ st.nextID) → err = "email already exists")) := by
  cases hp : Parse req.DateOfBirth with
  | error x =>
    have hdr : dateRejection now req.DateOfBirth =
        some ("invalid date of birth format, use YYYY-MM-DD: " ++ x) := by
      simp only [dateRejection, hp]
    have hrun : userService.CreateUser (NewUserRepository memDB) now req st =
        (.error ("invalid date of birth format, use YYYY-MM-DD: " ++ x), st) := by
      simp only [userService.CreateUser, hcheck, Bool.false_eq_true, if_false, hp]
    refine ⟨fun e he => ?_, fun hn => ?_⟩
    · rw [hdr, Option.some.injEq] at he
      rw [← he, hrun]
    · rw [hdr] at hn
      cases hn
  | ok d =>
    by_cases hage : calculateAge now d ≤ 18
    · have hdr : dateRejection now req.DateOfBirth = some "user must be older than 18 years" := by
        simp only [dateRejection, hp, hage, if_true]
      have hrun : userService.CreateUser (NewUserRepository memDB) now req st =
          (.error "user must be older than 18 years", st) := by
        simp only [userService.CreateUser, hcheck, Bool.false_eq_true, if_false, hp, hage, if_true]
      refine ⟨fun e he => ?_, fun hn => ?_⟩
      · rw [hdr, Option.some.injEq] at he
        rw [← he, hrun]
      · rw [hdr] at hn
        cases hn
    · have hdr : dateRejection now req.DateOfBirth = none := by
        simp only [dateRejection, hp, hage, if_false]
      obtain ⟨err, herr, hfresh⟩ := memDB_create_duplicate
        { ID := 0, Name := TrimSpace req.Name, Email := ToLower (TrimSpace req.Email),
          DateOfBirth := d, Age := calculateAge now d, Phone := req.Phone,
          Address := req.Address, CreatedAt := Time.zero, UpdatedAt := Time.zero,
          DeletedAt := none } st rfl hrow
      have herr' : (NewUserRepository memDB).Create
          { ID := 0, Name := TrimSpace req.Name, Email := ToLower (TrimSpace req.Email),
            DateOfBirth := d, Age := calculateAge now d, Phone := req.Phone,
            Address := req.Address, CreatedAt := Time.zero, UpdatedAt := Time.zero,
            DeletedAt := none } st = (.error err, st) := herr
      have hrun : userService.CreateUser (NewUserRepository memDB) now req st =
          (.error err, st) := by
        simp only [userService.CreateUser, hcheck, Bool.false_eq_true, if_false, hp, hage, herr']
      refine ⟨fun e he => ?_, fun _ => ⟨err, hrun, hfresh⟩⟩
      rw [hdr] at he
      cases he

/-! ## Lemmas on the recorded calls and the date stage -/

theorem recording_getByID {σ : Type} (repo : UserRepository σ) (id : Nat) (s s1 : σ)
    (l : List RepoCall) (r : Except String User) (h : repo.GetByID id s = (r, s1)) :
    (recording repo).GetByID id (s, l) = (r, (s1, l ++ [.GetByID id])) := by
  simp [recording, h]

theorem recording_emailExists {σ : Type} (repo : UserRepository σ) (e : String) (x : Nat)
    (s s1 : σ) (l : List RepoCall) (r : Except String Bool)
    (h : repo.EmailExists e x s = (r, s1)) :
    (recording repo).EmailExists e x (s, l) = (r, (s1, l ++ [.EmailExists e x])) := by
  simp [recording, h]

theorem updateDateStep_rejected (now : Time) (d err : String) (user : User)
    (h : dateRejection now d = some err) : updateDateStep now (some d) user = .error err := by
  simp only [dateRejection] at h
  simp only [updateDateStep]
  cases hp : Parse d with
  | error x =>
    rw [hp] at h
    simp only [Option.some.injEq] at h
    simp only [h]
  | ok t =>
    rw [hp] at h
    simp only at h ⊢
    split_ifs at h ⊢ with hage
    simp only [Option.some.injEq] at h
    rw [h]

theorem updateDateStep_accepted (now : Time) (reqDate : Option String) (user : User)
    (h : ∀ d, reqDate = some d → dateRejection now d = none) :
    ∃ u2, updateDateStep now reqDate user = .ok u2 ∧ u2.Email = user.Email ∧ u2.ID = user.ID := by
  cases reqDate with
  | none => exact ⟨user, rfl, rfl, rfl⟩
  | some d =>
    have hd := h d rfl
    simp only [dateRejection] at hd
    simp only [updateDateStep]
    cases hp : Parse d with
    | error x =>
      rw [hp] at hd
      simp at hd
    | ok t =>
      rw [hp] at hd
      simp only at hd ⊢
      split_ifs at hd ⊢ with hage
      exact ⟨_, rfl, rfl, rfl⟩

theorem memDB_update_ok (r : User) (st : Store) (hid : 0 < r.ID)
    (h : ∀ w ∈ st.rows, w.ID ≠ r.ID → Store.sqlEq w.Email r.Email = false) :
    (userRepository.Update memDB r st).1 = .ok { r with UpdatedAt := st.clock } := by
  have hid0 : r.ID ≠ 0 := by omega
  have hany : st.rows.any (fun w => w.ID != r.ID && Store.sqlEq w.Email r.Email) = false := by
    rw [List.any_eq_false]
    intro w hw
    by_cases hne : w.ID = r.ID
    · simp [hne]
    · simp [h w hw hne]
  simp only [userRepository.Update, memDB, Store.Save, hid0, if_false, hany, Bool.false_eq_true]
  split_ifs <;> rfl

/-! ## Lemmas on the handlers -/

theorem invalidDate_ne_recognised (x : String) :
    "invalid date of birth format, use YYYY-MM-DD: " ++ x ≠ "email already exists" ∧
    "invalid date of birth format, use YYYY-MM-DD: " ++ x ≠ "user must be older than 18 years" ∧
    "invalid date of birth format, use YYYY-MM-DD: " ++ x ≠ "user not found" := by
  refine ⟨?_, ?_, ?_⟩ <;>
  · intro h
    have h2 := congrArg String.data h
    simp [String.data_append] at h2

theorem handler_createUser_valid {σ : Type} (userService : UserService σ) (validator : Validate)
    (req : CreateUserRequest) (s : σ) (hv : validateCreateUserRequest validator req = []) :
    UserHandler.CreateUser userService validator (some req) s =
      match userService.CreateUser req s with
      | (.error err, s1) =>
        if err = "email already exists" ∨ err = "user must be older than 18 years" then
          (.failure 400 { Error := err, Details := [] }, s1)
        else (.failure 500 { Error := "Failed to create user", Details := [] }, s1)
      | (.ok user, s1) =>
        (.success 201 { Message := "User created successfully", Data := .user user }, s1) := by
  simp only [UserHandler.CreateUser, hv]

theorem TrimSpace_length_le (s : String) : (TrimSpace s).length ≤ s.length := by
  have h1 : ∀ (p : Char → Bool) (l : List Char), (l.dropWhile p).length ≤ l.length := by
    intro p l
    exact (List.dropWhile_sublist p).length_le
  simp only [TrimSpace, String.length, List.length_reverse]
  calc ((s.data.dropWhile isSpace).reverse.dropWhile isSpace).length
      ≤ (s.data.dropWhile isSpace).reverse.length := h1 _ _
    _ = (s.data.dropWhile isSpace).length := List.length_reverse _
    _ ≤ s.data.length := h1 _ _

theorem validateCreateUserRequest_name (validator : Validate) (req : CreateUserRequest)
    (hv : validateCreateUserRequest validator req = []) :
    req.Name ≠ "" ∧ 2 ≤ req.Name.length ∧ req.Name.length ≤ 100 := by
  simp only [validateCreateUserRequest, List.append_eq_nil] at hv
  obtain ⟨⟨⟨hn, -⟩, -⟩, -⟩ := hv
  split_ifs at hn with h1 h2 h3
  exact ⟨h1, by omega, by omega⟩

/-! ## Lemmas on list requests, the calendar and `LIKE` -/

theorem Char.eq_iff_toNat (c d : Char) : c = d ↔ c.toNat = d.toNat := by
  constructor
  · intro h
    rw [h]
  · intro h
    rw [← Char.ofNat_toNat c, ← Char.ofNat_toNat d, h]

theorem toUpperRune_toNat (c : Char) :
    (toUpperRune c).toNat =
      if 97 ≤ c.toNat ∧ c.toNat ≤ 122 then c.toNat - 32
      else if c.toNat = 305 then 73
      else if c.toNat = 383 then 83
      else c.toNat := by
  unfold toUpperRune
  split_ifs with h1 h2 h3
  · have hc : c = Char.ofNat c.toNat := (Char.ofNat_toNat c).symm
    obtain ⟨hlo, hhi⟩ := h1
    generalize c.toNat = n at hc hlo hhi
    subst hc
    interval_cases n <;> decide
  · decide
  · decide
  · rfl

theorem foldRune_toNat (c : Char) :
    (foldRune c).toNat =
      if 65 ≤ c.toNat ∧ c.toNat ≤ 90 then c.toNat + 32
      else if c.toNat = 8490 then 107
      else if c.toNat = 383 then 115
      else c.toNat := by
  unfold foldRune
  split_ifs with h1 h2 h3
  · have hc : c = Char.ofNat c.toNat := (Char.ofNat_toNat c).symm
    obtain ⟨hlo, hhi⟩ := h1
    generalize c.toNat = n at hc hlo hhi
    subst hc
    interval_cases n <;> decide
  · decide
  · decide
  · rfl

theorem toUpper_eq_ASC_iff (d : String) : ToUpper d = "ASC" ↔ EqualFold d "asc" = true := by
  have hA : ∀ c : Char, toUpperRune c = 'A' ↔ foldRune c = 'a' := by
    intro c
    rw [Char.eq_iff_toNat, Char.eq_iff_toNat, toUpperRune_toNat, foldRune_toNat]
    have e1 : ('A' : Char).toNat = 65 := by decide
    have e2 : ('a' : Char).toNat = 97 := by decide
    rw [e1, e2]
    split_ifs <;> omega
  have hS : ∀ c : Char, toUpperRune c = 'S' ↔ foldRune c = 's' := by
    intro c
    rw [Char.eq_iff_toNat, Char.eq_iff_toNat, toUpperRune_toNat, foldRune_toNat]
    have e1 : ('S' : Char).toNat = 83 := by decide
    have e2 : ('s' : Char).toNat = 115 := by decide
    rw [e1, e2]
    split_ifs <;> omega
  have hC : ∀ c : Char, toUpperRune c = 'C' ↔ foldRune c = 'c' := by
    intro c
    rw [Char.eq_iff_toNat, Char.eq_iff_toNat, toUpperRune_toNat, foldRune_toNat]
    have e1 : ('C' : Char).toNat = 67 := by decide
    have e2 : ('c' : Char).toNat = 99 := by decide
    rw [e1, e2]
    split_ifs <;> omega
  have hasc : ("asc" : String).data.map foldRune = ['a', 's', 'c'] := by decide
  have hASC : ToUpper d = "ASC" ↔ d.data.map toUpperRune = ['A', 'S', 'C'] := by
    rw [String.ext_iff]
    rfl
  rw [hASC]
  simp only [EqualFold, hasc, beq_iff_eq]
  rcases d.data with _ | ⟨x, _ | ⟨y, _ | ⟨z, _ | ⟨w, r⟩⟩⟩⟩ <;>
    simp [hA, hS, hC]

theorem list_findQuery {σ : Type} (db : DB σ) (p : UserSearchParams) (s : σ) :
    userRepository.List db p s =
      match db.Count (listFilter p.Search) s with
      | (.error err, s1) => (.error ("failed to count users: " ++ err.Error), s1)
      | (.ok total, s1) =>
        match db.Find (findQuery p) s1 with
        | (.error err, s2) => (.error ("failed to list users: " ++ err.Error), s2)
        | (.ok users, s2) =>
          (.ok { Users := users, Total := total, Page := (searchDefaults p).Page,
                 PerPage := (searchDefaults p).PerPage,
                 TotalPages := totalPagesOf total (searchDefaults p).PerPage }, s2) := by
  obtain ⟨n1, n2, n3, n4⟩ := searchDefaults_normal p
  rw [list_defaults, list_normal db (searchDefaults p) s n1 n2 n3 n4]
  rfl

theorem getSortField_default (sortBy : String) :
    getSortField (if sortBy = "" then "created_at" else sortBy) = getSortField sortBy := by
  split_ifs with h
  · rw [h]
    decide
  · rfl

theorem validateSearchParams_details (q : UserSearchParams) :
    (validateSearchParams q).map (fun err => (err.Field, getValidationMessage err)) =
      searchViolations q := by
  simp only [validateSearchParams, searchViolations, List.map_append]
  congr 1
  · congr 1
    · split_ifs <;> rfl
    · split_ifs <;> rfl
  · split_ifs <;> rfl

theorem validateSearchParams_nil_iff (q : UserSearchParams) :
    validateSearchParams q = [] ↔ SearchValid q := by
  simp only [validateSearchParams, SearchValid, List.append_eq_nil]
  constructor
  · rintro ⟨⟨h1, h2⟩, h3⟩
    split_ifs at h1 h2 h3 with a b c d
    exact ⟨by omega, by omega, by omega, d⟩
  · rintro ⟨h1, h2, h3, h4⟩
    have a : ¬ q.Page < 1 := by omega
    have b : ¬ q.PerPage < 1 := by omega
    have c : ¬ 100 < q.PerPage := by omega
    simp [a, b, c, h4]

theorem Store.likeChars_cons_percent (p : Char) (ps : List Char) (c : Char) (cs : List Char)
    (hp : p.toNat = 37) :
    Store.likeChars (p :: ps) (c :: cs) =
      (Store.likeChars ps (c :: cs) || Store.likeChars (p :: ps) cs) := by
  cases ps <;> simp only [Store.likeChars, hp, if_true]

theorem Store.likeChars_cons_literal (p : Char) (ps : List Char) (c : Char) (cs : List Char)
    (h37 : p.toNat ≠ 37) (h95 : p.toNat ≠ 95) (h92 : p.toNat ≠ 92) :
    Store.likeChars (p :: ps) (c :: cs) =
      (toLowerRune p == toLowerRune c && Store.likeChars ps cs) := by
  cases ps <;> simp only [Store.likeChars, h37, h95, h92, if_false]

theorem Store.likeChars_percent (p : Char) (ps : List Char) (hp : p.toNat = 37) (v : List Char) :
    Store.likeChars (p :: ps) v = true ↔
      ∃ pre tail, v = pre ++ tail ∧ Store.likeChars ps tail = true := by
  induction v with
  | nil =>
    rw [Store.likeChars, if_pos hp]
    constructor
    · intro h
      exact ⟨[], [], rfl, h⟩
    · rintro ⟨pre, tail, hv, h⟩
      have ht : tail = [] := (List.append_eq_nil.1 hv.symm).2
      rw [ht] at h
      exact h
  | cons c cs ih =>
    rw [Store.likeChars_cons_percent p ps c cs hp, Bool.or_eq_true, ih]
    constructor
    · rintro (h | ⟨pre, tail, hv, h⟩)
      · exact ⟨[], c :: cs, rfl, h⟩
      · exact ⟨c :: pre, tail, by rw [hv]; rfl, h⟩
    · rintro ⟨pre, tail, hv, h⟩
      cases pre with
      | nil =>
        left
        rw [List.nil_append] at hv
        rw [hv]
        exact h
      | cons x xs =>
        right
        rw [List.cons_append, List.cons.injEq] at hv
        exact ⟨xs, tail, hv.2, h⟩

theorem Store.likeChars_literal (s rest : List Char)
    (hs : ∀ c ∈ s, c.toNat ≠ 37 ∧ c.toNat ≠ 95 ∧ c.toNat ≠ 92) (v : List Char) :
    Store.likeChars (s ++ rest) v = true ↔
      ∃ mid tail, v = mid ++ tail ∧ mid.map toLowerRune = s.map toLowerRune ∧
        Store.likeChars rest tail = true := by
  induction s generalizing v with
  | nil =>
    constructor
    · intro h
      exact ⟨[], v, rfl, rfl, h⟩
    · rintro ⟨mid, tail, hv, hm, h⟩
      have : mid = [] := List.map_eq_nil_iff.1 hm
      subst this
      rw [hv]
      exact h
  | cons p ps ih =>
    obtain ⟨h37, h95, h92⟩ := hs p (List.mem_cons_self _ _)
    have hps : ∀ c ∈ ps, c.toNat ≠ 37 ∧ c.toNat ≠ 95 ∧ c.toNat ≠ 92 :=
      fun c hc => hs c (List.mem_cons_of_mem _ hc)
    cases v with
    | nil =>
      rw [List.cons_append, Store.likeChars, if_neg h37]
      constructor
      · intro h
        exact absurd h Bool.false_ne_true
      · rintro ⟨mid, tail, hv, hm, -⟩
        have hmid : mid = [] := (List.append_eq_nil.1 hv.symm).1
        rw [hmid] at hm
        simp at hm
    | cons c cs =>
      rw [List.cons_append, Store.likeChars_cons_literal p _ c cs h37 h95 h92,
        Bool.and_eq_true, beq_iff_eq, ih hps]
      constructor
      · rintro ⟨hc, mid, tail, hv, hm, h⟩
        refine ⟨c :: mid, tail, by rw [hv]; rfl, ?_, h⟩
        simp only [List.map_cons, hm, hc]
      · rintro ⟨mid, tail, hv, hm, h⟩
        cases mid with
        | nil => simp at hm
        | cons x xs =>
          rw [List.cons_append, List.cons.injEq] at hv
          simp only [List.map_cons, List.cons.injEq] at hm
          refine ⟨?_, xs, tail, hv.2, hm.2, h⟩
          rw [hv.1]
          exact hm.1.symm

theorem Store.like_literal (value search : String) (hlit : SearchLiteral search) :
    Store.like value ("%" ++ search ++ "%") = containsFold value search := by
  have hdata : ("%" ++ search ++ "%").data = '%' :: (search.data ++ ['%']) := by
    simp only [String.data_append]
    rfl
  have h37 : ('%' : Char).toNat = 37 := by decide
  rw [Bool.eq_iff_iff]
  simp only [Store.like, hdata, containsFold, contains_iff_segment, ToLower]
  rw [Store.likeChars_percent '%' _ h37]
  constructor
  · rintro ⟨pre, tail, hv, h⟩
    obtain ⟨mid, post, ht, hm, -⟩ := (Store.likeChars_literal search.data ['%'] hlit tail).1 h
    refine ⟨pre.map toLowerRune, post.map toLowerRune, ?_⟩
    rw [hv, ht, List.map_append, List.map_append, hm, List.append_assoc]
  · rintro ⟨a, b, hab⟩
    obtain ⟨l1, post, hv, h1, -⟩ := List.map_eq_append_iff.1 hab.symm
    obtain ⟨pre, mid, hl1, -, hmid⟩ := List.map_eq_append_iff.1 h1
    refine ⟨pre, mid ++ post, by rw [hv, hl1, List.append_assoc], ?_⟩
    rw [Store.likeChars_literal search.data ['%'] hlit]
    refine ⟨mid, post, rfl, hmid, ?_⟩
    rw [Store.likeChars_percent '%' [] h37]
    exact ⟨post, [], (List.append_nil _).symm, by rw [Store.likeChars]⟩

theorem containsFold_empty (value : String) : containsFold value "" = true := by
  rw [containsFold, contains_iff_segment]
  exact ⟨[], (ToLower value).data, rfl⟩

theorem Store.matchesSearch_literal (search : String) (hlit : SearchLiteral search) (u : User) :
    Store.matchesSearch search u =
      (containsFold u.Name search || containsFold u.Email search ||
        containsFold u.Phone search) := by
  simp only [Store.matchesSearch]
  split_ifs with h
  · rw [h, containsFold_empty]
    rfl
  · rw [Store.like_literal _ _ hlit, Store.like_literal _ _ hlit, Store.like_literal _ _ hlit]

theorem failedToWrite_ne_duplicate (x : String) :
    "failed to create user: " ++ x ≠ "email already exists" ∧
    "failed to update user: " ++ x ≠ "email already exists" := by
  refine ⟨?_, ?_⟩ <;>
  · intro h
    have h2 := congrArg String.data h
    simp [String.data_append] at h2

theorem Time.yearDay_lt_iff (a b : Time) (ha : a.Valid) (hb : b.Valid)
    (hl : isLeap a.year = isLeap b.year) :
    a.YearDay < b.YearDay ↔ (a.month < b.month ∨ (a.month = b.month ∧ a.day < b.day)) := by
  obtain ⟨ay, am, ad, an⟩ := a
  obtain ⟨by_, bm, bd, bn⟩ := b
  simp only [Time.Valid] at ha hb
  simp only [Time.YearDay] at hl ⊢
  obtain ⟨ha1, ha2, ha3, ha4, -⟩ := ha
  obtain ⟨hb1, hb2, hb3, hb4, -⟩ := hb
  rw [Nat.cast_lt]
  cases hL : isLeap by_ <;> rw [hL] at hl <;>
    interval_cases am <;> interval_cases bm <;>
    simp [daysBefore, daysIn, hl, hL] at ha4 hb4 ⊢ <;> omega

theorem Time.isZero_false (t : Time) (h : t ≠ Time.zero) : t.IsZero = false := by
  rw [Bool.eq_false_iff]
  intro hz
  exact h ((Time.isZero_iff t).1 hz)

theorem calculateAge_of_ne_zero (today b : Time) (h : b ≠ Time.zero) :
    calculateAge today b =
      if today.YearDay < b.YearDay then today.year - b.year - 1 else today.year - b.year := by
  simp only [calculateAge, Time.isZero_false b h, Time.Year]
  rfl

theorem Store.orderedInsert_length (le : User → User → Bool) (u : User) (l : List User) :
    (Store.orderedInsert le u l).length = l.length + 1 := by
  induction l with
  | nil => rfl
  | cons v vs ih =>
    simp only [Store.orderedInsert]
    split_ifs
    · rfl
    · simp [ih]

theorem Store.sortRows_length (le : User → User → Bool) (l : List User) :
    (Store.sortRows le l).length = l.length := by
  induction l with
  | nil => rfl
  | cons v vs ih => simp [Store.sortRows, Store.orderedInsert_length, ih]

theorem offset_lt_iff_page_le (total page perPage : ℤ) (hp : 1 ≤ perPage) :
    (page - 1) * perPage < total ↔ page ≤ ⌈(total : ℚ) / perPage⌉ := by
  have hpq : (0 : ℚ) < (perPage : ℚ) := by exact_mod_cast (by omega : 0 < perPage)
  rw [← Int.sub_one_lt_iff, Int.lt_ceil, lt_div_iff₀ hpq]
  constructor
  · intro h
    exact_mod_cast h
  · intro h
    exact_mod_cast h

/-! ## Properties of the specification -/

/-- C1: for a create request whose email is not taken and whose date of birth
parses, CreateUser fails with "user must be older than 18 years" exactly when
the computed age is at most 18; age 18 is rejected, and with age 19 the
request succeeds whenever the repository write does. -/
theorem createUser_tooYoung_iff {σ : Type} (db : DB σ) (now : Time) (req : CreateUserRequest)
    (s s1 : σ) (dob : Time)
    (hEmail : (NewUserRepository db).EmailExists req.Email 0 s = (.ok false, s1))
    (hDate : Parse req.DateOfBirth = .ok dob) :
    ((userService.CreateUser (NewUserRepository db) now req s).1
        = .error "user must be older than 18 years" ↔ calculateAge now dob ≤ 18) ∧
    (calculateAge now dob = 18 →
      userService.CreateUser (NewUserRepository db) now req s
        = (.error "user must be older than 18 years", s1)) ∧
    (calculateAge now dob = 19 → ∀ (u : User) (s2 : σ),
      (NewUserRepository db).Create
          { ID := 0, Name := TrimSpace req.Name, Email := ToLower (TrimSpace req.Email),
            DateOfBirth := dob, Age := 19, Phone := req.Phone, Address := req.Address,
            CreatedAt := Time.zero, UpdatedAt := Time.zero, DeletedAt := none } s1 = (.ok u, s2) →
      userService.CreateUser (NewUserRepository db) now req s = (.ok u, s2)) := by
  have hE : userService.CreateUser (NewUserRepository db) now req s =
      if calculateAge now dob ≤ 18 then (.error "user must be older than 18 years", s1)
      else
        match (NewUserRepository db).Create
          { ID := 0, Name := TrimSpace req.Name, Email := ToLower (TrimSpace req.Email),
            DateOfBirth := dob, Age := calculateAge now dob, Phone := req.Phone,
            Address := req.Address, CreatedAt := Time.zero, UpdatedAt := Time.zero,
            DeletedAt := none } s1 with
        | (.error err, s2) => (.error err, s2)
        | (.ok user, s2) => (.ok user, s2) := by
    simp only [userService.CreateUser, hEmail, hDate]
    rfl
  refine ⟨?_, ?_, ?_⟩
  · constructor
    · intro h
      by_contra hage
      rw [hE, if_neg hage] at h
      simp only [NewUserRepository, userRepository.Create] at h
      split at h
      · rename_i err s2 heq
        split at heq
        · split at heq
          · simp at heq
            rw [← heq.1] at h
            simp at h
          · simp at heq
            rw [← heq.1] at h
            simp at h
            exact failedToCreate_ne_tooYoung _ h
        · simp at heq
      · simp at h
    · intro hage
      rw [hE, if_pos hage]
  · intro h18
    rw [hE, if_pos (by omega)]
  · intro h19 u s2 hc
    rw [hE, if_neg (by omega), h19, hc]

theorem createUser_tooYoung_iff_witness :
    (NewUserRepository memDB).EmailExists "dave@example.com" 0 Sample.store
        = (.ok false, Sample.store) ∧
    Parse "2007-01-01" = .ok { year := 2007, month := 1, day := 1, nanos := 0 } ∧
    calculateAge Sample.now { year := 2007, month := 1, day := 1, nanos := 0 } = 18 ∧
    userService.CreateUser (NewUserRepository memDB) Sample.now
        (Sample.request "dave@example.com" "2007-01-01") Sample.store
      = (.error "user must be older than 18 years", Sample.store) :=
  ⟨rfl, rfl, rfl,
    (createUser_tooYoung_iff memDB Sample.now (Sample.request "dave@example.com" "2007-01-01")
      Sample.store Sample.store { year := 2007, month := 1, day := 1, nanos := 0 } rfl rfl).2.1 rfl⟩

/-- C2: both age functions return 0 for the zero birth date and otherwise the
difference of the years, less one exactly when the day-of-year of the
reference date is smaller than that of the birth date; they agree on every
input. -/
theorem calculateAge_spec :
    (∀ r : Time, calculateAge r Time.zero = 0) ∧
    (∀ r b : Time, calculateAge r b =
      if b = Time.zero then 0
      else if r.YearDay < b.YearDay then r.Year - b.Year - 1 else r.Year - b.Year) ∧
    (∀ (r : Time) (u : User), u.CalculateAge r = calculateAge r u.DateOfBirth) := by
  refine ⟨fun r => by simp [calculateAge, Time.IsZero, Time.zero], fun r b => ?_, fun r u => rfl⟩
  by_cases hb : b = Time.zero
  · subst hb; simp [calculateAge, Time.IsZero, Time.zero]
  · have hz : b.IsZero = false := by
      rw [Bool.eq_false_iff]; intro h; exact hb ((Time.isZero_iff b).1 h)
    simp [calculateAge, hz, hb]

/-- C3: a successful CreateUser hands the repository one record, whose email
is the trimmed lower-cased input email, whose name is the trimmed input name,
whose date of birth is the parsed input date and whose phone and address are
those of the request; the returned user has the same five fields. Lower-casing
is that of `strings.ToLower`, on every rune with a lower case, and trimming
that of `strings.TrimSpace`. -/
theorem createUser_stores_sanitized {σ : Type} (db : DB σ) (now : Time) (req : CreateUserRequest)
    (s s' : σ) (log : List RepoCall) (u : User)
    (h : userService.CreateUser (recording (NewUserRepository db)) now req (s, [])
      = (.ok u, (s', log))) :
    ∃ dob, Parse req.DateOfBirth = .ok dob ∧
      log = [.EmailExists req.Email 0,
             .Create { ID := 0, Name := TrimSpace req.Name, Email := TrimSpace (ToLower req.Email),
                       DateOfBirth := dob, Age := calculateAge now dob, Phone := req.Phone,
                       Address := req.Address, CreatedAt := Time.zero, UpdatedAt := Time.zero,
                       DeletedAt := none }] ∧
      u.Name = TrimSpace req.Name ∧ u.Email = TrimSpace (ToLower req.Email) ∧
      u.DateOfBirth = dob ∧ u.Phone = req.Phone ∧ u.Address = req.Address := by
  simp only [userService.CreateUser, recording, NewUserRepository] at h
  split at h
  · simp at h
  · rename_i ex s1 hex
    split at h
    · simp at h
    · split at h
      · simp at h
      · rename_i dob hdob
        split at h
        · simp at h
        · split at h
          · simp at h
          · rename_i u2 s2 hcr
            simp only [Prod.mk.injEq, Except.ok.injEq] at h hex hcr
            obtain ⟨hu, hs⟩ := h
            subst hu
            obtain ⟨hcr1, hcr2⟩ := hcr
            obtain ⟨w, hw⟩ := userRepository.create_ok db _ _ _ hcr1
            obtain ⟨-, hs1⟩ := hex
            subst hs1
            subst hcr2
            simp only [Prod.mk.injEq] at hs
            obtain ⟨-, hlog⟩ := hs
            refine ⟨dob, hdob, ?_, ?_⟩
            · rw [← hlog, ← toLower_trimSpace]; rfl
            · rw [hw, ← toLower_trimSpace]
              exact ⟨rfl, rfl, rfl, rfl, rfl⟩

theorem createUser_stores_sanitized_witness :
    (∃ u s' log,
      userService.CreateUser (recording (NewUserRepository memDB)) Sample.now
        (Sample.request " Dave@Example.COM " "1990-01-01") (Sample.store, []) = (.ok u, (s', log)) ∧
      u.Name = "New User" ∧ u.Email = "dave@example.com" ∧ u.ID = 4) ∧
    (∃ u s' log,
      userService.CreateUser (recording (NewUserRepository memDB)) Sample.now
        (Sample.request " ÉCOLE@Example.COM " "1990-01-01") (Sample.store, []) = (.ok u, (s', log)) ∧
      u.Email = "école@example.com") ∧
    TrimSpace (ToLower " ÉCOLE@Example.COM ") = "école@example.com" :=
  ⟨⟨_, _, _, rfl,
    (createUser_stores_sanitized memDB Sample.now (Sample.request " Dave@Example.COM " "1990-01-01")
      Sample.store _ _ _ rfl).choose_spec.2.2.1,
    (createUser_stores_sanitized memDB Sample.now (Sample.request " Dave@Example.COM " "1990-01-01")
      Sample.store _ _ _ rfl).choose_spec.2.2.2.1, rfl⟩,
   ⟨_, _, _, rfl,
    (createUser_stores_sanitized memDB Sample.now (Sample.request " ÉCOLE@Example.COM " "1990-01-01")
      Sample.store _ _ _ rfl).choose_spec.2.2.2.1⟩,
   by decide⟩

/-- C4 (at the failing input): CreateUser passes the email to EmailExists as
received, before it is trimmed and lower-cased; for every request the first
repository call is EmailExists on the raw email, and for the request email
"Dave@Example.COM" that text differs from the normalised address which is
stored afterwards. -/
theorem createUser_checks_raw_email :
    (∀ {σ : Type} (repo : UserRepository σ) (now : Time) (req : CreateUserRequest) (s : σ),
      (userService.CreateUser (recording repo) now req (s, [])).2.2.head?
        = some (.EmailExists req.Email 0)) ∧
    (userService.CreateUser (recording (NewUserRepository memDB)) Sample.now
        (Sample.request "Dave@Example.COM" "1990-01-01") (Sample.store, [])).2.2.head?
      = some (.EmailExists "Dave@Example.COM" 0) ∧
    ToLower (TrimSpace "Dave@Example.COM") = "dave@example.com" ∧
    "Dave@Example.COM" ≠ "dave@example.com" := by
  refine ⟨?_, rfl, by decide, by decide⟩
  intro σ repo now req s
  simp only [userService.CreateUser, recording]
  rcases repo.EmailExists req.Email 0 s with ⟨_ | b, s1⟩
  · rfl
  · cases b
    · simp only [Bool.false_eq_true, if_false]
      cases Parse req.DateOfBirth with
      | error e => rfl
      | ok dob =>
        simp only
        split
        · rfl
        · split <;> rename_i heq <;> rw [← heq] <;> rfl
    · rfl

/-- C5: for sort_by = "age", List asks the engine for date_of_birth DESC when
sort_dir is "asc" and for date_of_birth ASC when sort_dir is "desc", and the
rows it returns are the page of the filtered users sorted by date of birth in
that opposite direction. -/
theorem list_age_order (st : Store) (p : UserSearchParams)
    (hby : p.SortBy = "age") (hper : 0 ≤ p.PerPage) :
    (p.SortDir = "asc" →
      userRepository.orderClause (searchDefaults p) = "date_of_birth DESC" ∧
      ∃ resp, userRepository.List memDB p st = (.ok resp, st) ∧
        resp.Users =
          ((Store.sortRows (fun a b => Store.timeLE b.DateOfBirth a.DateOfBirth)
            (Store.filtered p.Search st)).drop (listOffset (searchDefaults p))).take
              (searchDefaults p).PerPage.toNat) ∧
    (p.SortDir = "desc" →
      userRepository.orderClause (searchDefaults p) = "date_of_birth ASC" ∧
      ∃ resp, userRepository.List memDB p st = (.ok resp, st) ∧
        resp.Users =
          ((Store.sortRows (fun a b => Store.timeLE a.DateOfBirth b.DateOfBirth)
            (Store.filtered p.Search st)).drop (listOffset (searchDefaults p))).take
              (searchDefaults p).PerPage.toNat) ∧
    Store.orderLE "date_of_birth DESC"
      = some (fun a b => Store.timeLE b.DateOfBirth a.DateOfBirth) ∧
    Store.orderLE "date_of_birth ASC"
      = some (fun a b => Store.timeLE a.DateOfBirth b.DateOfBirth) := by
  obtain ⟨n1, n2, n3, n4⟩ := searchDefaults_normal p
  have hby2 : (searchDefaults p).SortBy = "age" := by simp [searchDefaults, hby]
  have hper2 : 0 ≤ (searchDefaults p).PerPage := by
    simp only [searchDefaults]; split_ifs <;> omega
  have hsearch : (searchDefaults p).Search = p.Search := rfl
  refine ⟨fun hdir => ?_, fun hdir => ?_, rfl, rfl⟩
  · have hdir2 : (searchDefaults p).SortDir = "asc" := by simp [searchDefaults, hdir]
    have hc : userRepository.orderClause (searchDefaults p) = "date_of_birth DESC" := by
      simp [userRepository.orderClause, hby2, hdir2]
    have hL := list_memDB (searchDefaults p) st n1 n2 n3 n4 hper2 _ (by rw [hc]; rfl)
    rw [← list_defaults] at hL
    exact ⟨hc, _, hL, rfl⟩
  · have hdir2 : (searchDefaults p).SortDir = "desc" := by simp [searchDefaults, hdir]
    have hc : userRepository.orderClause (searchDefaults p) = "date_of_birth ASC" := by
      simp [userRepository.orderClause, hby2, hdir2]
    have hL := list_memDB (searchDefaults p) st n1 n2 n3 n4 hper2 _ (by rw [hc]; rfl)
    rw [← list_defaults] at hL
    exact ⟨hc, _, hL, rfl⟩

theorem list_age_order_witness :
    ∃ resp, userRepository.List memDB (Sample.firstPage "age" "asc") Sample.store
        = (.ok resp, Sample.store) ∧
      resp.Users = [Sample.bob, Sample.alice] :=
  ((list_age_order Sample.store (Sample.firstPage "age" "asc") rfl (by decide)).1 rfl).2

/-- C6: getSortField maps name, email, phone, created_at, updated_at and id
to themselves, age to date_of_birth, and every other string, the empty string
and "Name" among them, to created_at. -/
theorem getSortField_spec :
    getSortField "name" = "name" ∧ getSortField "email" = "email" ∧
    getSortField "phone" = "phone" ∧ getSortField "created_at" = "created_at" ∧
    getSortField "updated_at" = "updated_at" ∧ getSortField "id" = "id" ∧
    getSortField "age" = "date_of_birth" ∧ getSortField "" = "created_at" ∧
    getSortField "Name" = "created_at" ∧
    ∀ sortBy : String,
      sortBy ∉ ["name", "email", "phone", "created_at", "updated_at", "id", "age"] →
      getSortField sortBy = "created_at" := by
  refine ⟨by decide, by decide, by decide, by decide, by decide, by decide, by decide, by decide,
    by decide, fun sortBy h => ?_⟩
  simp only [List.mem_cons, List.mem_singleton, List.not_mem_nil, not_or, or_false] at h
  simp [getSortField, h]

theorem getSortField_spec_witness :
    "AGE" ∉ ["name", "email", "phone", "created_at", "updated_at", "id", "age"] ∧
    getSortField "AGE" = "created_at" :=
  ⟨by decide, getSortField_spec.2.2.2.2.2.2.2.2.2 "AGE" (by decide)⟩

/-- C7 (amended): for a total between 0 and 2^53 and per_page at least 1, the
envelope returned by List has total_pages = ceil(total / per_page), the least
integer n with n * per_page >= total. -/
theorem list_total_pages {σ : Type} (db : DB σ) (p : UserSearchParams) (s s' : σ)
    (resp : UserListResponse)
    (hlist : userRepository.List db p s = (.ok resp, s'))
    (h0 : 0 ≤ resp.Total) (h1 : resp.Total ≤ 9007199254740992) (hper : 1 ≤ p.PerPage) :
    resp.PerPage = p.PerPage ∧
    resp.TotalPages = ⌈(resp.Total : ℚ) / p.PerPage⌉ ∧
    resp.Total ≤ resp.TotalPages * p.PerPage ∧
    ∀ n : ℤ, resp.Total ≤ n * p.PerPage → resp.TotalPages ≤ n := by
  obtain ⟨n1, n2, n3, n4⟩ := searchDefaults_normal p
  have hPP : (searchDefaults p).PerPage = p.PerPage := by
    simp only [searchDefaults]; split_ifs <;> omega
  rw [list_defaults, list_normal db (searchDefaults p) s n1 n2 n3 n4] at hlist
  have hpq : (0 : ℚ) < (p.PerPage : ℚ) := by exact_mod_cast (by omega : 0 < p.PerPage)
  split at hlist
  · simp at hlist
  · split at hlist
    · simp at hlist
    · rename_i total s1 _ _ users s2 _
      simp only [Prod.mk.injEq, Except.ok.injEq] at hlist
      obtain ⟨hresp, -⟩ := hlist
      subst hresp
      simp only at h0 h1 ⊢
      rw [hPP, totalPagesOf_eq_ceil total p.PerPage h0 h1 hper]
      refine ⟨rfl, rfl, ?_, fun n hn => ?_⟩
      · have h := Int.le_ceil ((total : ℚ) / p.PerPage)
        rw [div_le_iff₀ hpq] at h
        exact_mod_cast h
      · rw [Int.ceil_le, div_le_iff₀ hpq]
        exact_mod_cast hn

theorem list_total_pages_witness :
    ∃ resp, userRepository.List (mockDB 25 [])
        { Search := "", Page := 1, PerPage := 10, SortBy := "name", SortDir := "asc" } ()
        = (.ok resp, ()) ∧
      resp.Total = 25 ∧ resp.TotalPages = 3 := by
  refine ⟨_, rfl, rfl, ?_⟩
  have h := (list_total_pages (mockDB 25 [])
    { Search := "", Page := 1, PerPage := 10, SortBy := "name", SortDir := "asc" } () () _ rfl
    (by decide) (by decide) (by decide)).2.1
  rw [h, Int.ceil_eq_iff]
  norm_num

/-- C7 (as stated, refuted): with a total of 2^53 + 1 and per_page = 1 the
conversion of the total to float64 drops the last bit and List reports
total_pages = 2^53, which is not ceil(total / per_page): 2^53 * 1 < total. -/
theorem list_total_pages_float :
    ∃ resp, userRepository.List (mockDB 9007199254740993 [])
        { Search := "", Page := 1, PerPage := 1, SortBy := "name", SortDir := "asc" } ()
        = (.ok resp, ()) ∧
      resp.Total = 9007199254740993 ∧ resp.PerPage = 1 ∧
      resp.TotalPages = 9007199254740992 ∧
      ¬ (resp.Total ≤ resp.TotalPages * resp.PerPage) :=
  ⟨_, rfl, rfl, rfl, totalPagesOf_rounds, by
    show ¬ ((9007199254740993 : ℤ) ≤ totalPagesOf 9007199254740993 1 * 1)
    rw [totalPagesOf_rounds]; decide⟩

/-- C8 (amended): for page and per_page at least 1 whose offset
(page - 1) * per_page fits a 64-bit int, List returns exactly the rows at
positions offset .. offset + per_page - 1 of the filtered users in the
requested order, hence at most per_page rows, and reports as total the size of
the whole filtered set, which depends on the search text only. -/
theorem list_page_rows (st : Store) (p : UserSearchParams)
    (hpage : 1 ≤ p.Page) (hper : 1 ≤ p.PerPage)
    (hoff : (p.Page - 1) * p.PerPage ≤ 9223372036854775807) :
    ∃ le resp, Store.orderLE (userRepository.orderClause (searchDefaults p)) = some le ∧
      userRepository.List memDB p st = (.ok resp, st) ∧
      resp.Users = ((Store.sortRows le (Store.filtered p.Search st)).drop
        ((p.Page - 1) * p.PerPage).toNat).take p.PerPage.toNat ∧
      (resp.Users.length : Int) ≤ p.PerPage ∧
      resp.Total = (Store.filtered p.Search st).length := by
  obtain ⟨n1, n2, n3, n4⟩ := searchDefaults_normal p
  obtain ⟨le, hle⟩ := Store.orderLE_orderClause (searchDefaults p)
  have hP : (searchDefaults p).Page = p.Page := by
    simp only [searchDefaults]; split_ifs <;> omega
  have hPP : (searchDefaults p).PerPage = p.PerPage := by
    simp only [searchDefaults]; split_ifs <;> omega
  have hper2 : 0 ≤ (searchDefaults p).PerPage := by omega
  have hsearch : (searchDefaults p).Search = p.Search := rfl
  have hpos : 0 ≤ (p.Page - 1) * p.PerPage := Int.mul_nonneg (by omega) (by omega)
  have hp1 : p.Page - 1 ≤ 9223372036854775807 := by nlinarith
  have hoffset : listOffset (searchDefaults p) = ((p.Page - 1) * p.PerPage).toNat := by
    unfold listOffset
    rw [hP, hPP, wrapInt_of_isInt64 (p.Page - 1) ⟨by omega, hp1⟩,
      wrapInt_of_isInt64 _ ⟨by omega, hoff⟩]
  have hL := list_memDB (searchDefaults p) st n1 n2 n3 n4 hper2 le hle
  rw [← list_defaults] at hL
  refine ⟨le, _, hle, hL, ?_, ?_, rfl⟩
  · simp only [hoffset, hPP, hsearch]
  · simp only [List.length_take]
    have : ((min (searchDefaults p).PerPage.toNat
        (List.drop (listOffset (searchDefaults p))
          (Store.sortRows le (Store.filtered (searchDefaults p).Search st))).length : Nat) : Int)
        ≤ ((searchDefaults p).PerPage.toNat : Int) := by
      exact_mod_cast Nat.min_le_left _ _
    rw [Int.toNat_of_nonneg hper2] at this
    exact this.trans (le_of_eq hPP)

theorem list_page_rows_witness :
    ∃ resp, userRepository.List memDB
        { Search := "", Page := 2, PerPage := 1, SortBy := "name", SortDir := "asc" } Sample.store
        = (.ok resp, Sample.store) ∧
      resp.Users = [Sample.bob] ∧ resp.Total = 2 := by
  obtain ⟨le, resp, hle, hlist, husers, -, htotal⟩ :=
    list_page_rows Sample.store
      { Search := "", Page := 2, PerPage := 1, SortBy := "name", SortDir := "asc" }
      (by decide) (by decide) (by decide)
  have hle2 : le = fun a b => Store.textLE a.Name b.Name :=
    Option.some.inj (hle.symm.trans rfl)
  subst hle2
  exact ⟨resp, hlist, husers.trans (by decide), htotal.trans (by decide)⟩

/-- C8 (as stated, refuted): with page = 2^61 + 1 and per_page = 4 the offset
(page - 1) * per_page = 2^63 does not fit a 64-bit int and wraps to -2^63;
gorm renders no OFFSET for it, and List returns the first rows of the filtered
set, not the (empty) run of rows at positions 2^63 .. 2^63 + 3. -/
theorem list_page_rows_overflow :
    ∃ resp, userRepository.List memDB
        { Search := "", Page := 2305843009213693953, PerPage := 4, SortBy := "id",
          SortDir := "asc" } Sample.store = (.ok resp, Sample.store) ∧
      resp.Users = [Sample.alice, Sample.bob] ∧
      wrapInt (wrapInt ((2305843009213693953 : Int) - 1) * 4) = -9223372036854775808 ∧
      ((Store.sortRows (fun a b => decide (a.ID ≤ b.ID)) (Store.filtered "" Sample.store)).drop
        (((2305843009213693953 : Int) - 1) * 4).toNat).take (4 : Int).toNat = [] :=
  ⟨_, list_memDB _ Sample.store (by decide) (by decide) (by decide) (by decide) (by decide)
      (fun a b => decide (a.ID ≤ b.ID)) rfl, by decide, by decide, by decide⟩

/-- C9: List and the list handler both start by replacing page 0 by 1,
per_page 0 by 10, an empty sort_by by "created_at" and an empty sort_dir by
"desc", keeping every other value: each behaves on a request as on the
defaulted request, List builds its count and fetch statements from the
defaulted values and returns them as page and per_page, and the handler
validates the defaulted values and passes them to the service. -/
theorem list_applies_defaults {σ : Type} (db : DB σ) (userService : UserService σ)
    (p : UserSearchParams) (s : σ) :
    ((searchDefaults p).Page = if p.Page = 0 then 1 else p.Page) ∧
    ((searchDefaults p).PerPage = if p.PerPage = 0 then 10 else p.PerPage) ∧
    ((searchDefaults p).SortBy = if p.SortBy = "" then "created_at" else p.SortBy) ∧
    ((searchDefaults p).SortDir = if p.SortDir = "" then "desc" else p.SortDir) ∧
    (searchDefaults p).Search = p.Search ∧
    userRepository.List db p s = userRepository.List db (searchDefaults p) s ∧
    userRepository.List db p s =
      (match db.Count (listFilter p.Search) s with
      | (.error err, s1) => (.error ("failed to count users: " ++ err.Error), s1)
      | (.ok total, s1) =>
        match db.Find ((((listFilter p.Search).Order
            (userRepository.orderClause (searchDefaults p))).Offset
              (wrapInt (wrapInt ((searchDefaults p).Page - 1) * (searchDefaults p).PerPage))).Limit
                (searchDefaults p).PerPage) s1 with
        | (.error err, s2) => (.error ("failed to list users: " ++ err.Error), s2)
        | (.ok users, s2) =>
          (.ok { Users := users, Total := total, Page := (searchDefaults p).Page,
                 PerPage := (searchDefaults p).PerPage,
                 TotalPages := totalPagesOf total (searchDefaults p).PerPage }, s2)) ∧
    (∀ resp s', userRepository.List db p s = (.ok resp, s') →
      resp.Page = (searchDefaults p).Page ∧ resp.PerPage = (searchDefaults p).PerPage) ∧
    UserHandler.ListUsers userService (some p) s =
      UserHandler.ListUsers userService (some (searchDefaults p)) s ∧
    ((searchDefaults p).SortBy ∈ ["name", "email", "age", "phone", "created_at", "updated_at"] →
      validateSearchParams (searchDefaults p) = [] →
      UserHandler.ListUsers userService (some p) s =
        match userService.ListUsers (searchDefaults p) s with
        | (.error _, s1) => (.failure 500 { Error := "Failed to list users", Details := [] }, s1)
        | (.ok result, s1) =>
          (.success 200 { Message := "Users retrieved successfully", Data := .list result },
            s1)) := by
  obtain ⟨n1, n2, n3, n4⟩ := searchDefaults_normal p
  have hN := list_normal db (searchDefaults p) s n1 n2 n3 n4
  rw [← list_defaults] at hN
  refine ⟨rfl, rfl, rfl, rfl, rfl, list_defaults db p s, hN, ?_, handler_listUsers_defaults _ p s,
    ?_⟩
  · intro resp s' h
    rw [hN] at h
    split at h
    · simp at h
    · split at h
      · simp at h
      · simp only [Prod.mk.injEq, Except.ok.injEq] at h
        rw [← h.1]
        exact ⟨rfl, rfl⟩
  · intro hsort hvalid
    rw [handler_listUsers_defaults, handler_listUsers_normal _ _ s n1 n2 n3 n4 hsort hvalid]

theorem list_applies_defaults_witness :
    ∃ resp, userRepository.List memDB
        { Search := "", Page := 0, PerPage := 0, SortBy := "", SortDir := "" } Sample.store
        = (.ok resp, Sample.store) ∧
      resp.Page = 1 ∧ resp.PerPage = 10 ∧ resp.Users = [Sample.bob, Sample.alice] :=
  ⟨_, rfl, ((list_applies_defaults memDB (NewUserService (NewUserRepository memDB) Sample.now)
      { Search := "", Page := 0, PerPage := 0, SortBy := "", SortDir := "" }
      Sample.store).2.2.2.2.2.2.2.1 _ _ rfl).1,
    ((list_applies_defaults memDB (NewUserService (NewUserRepository memDB) Sample.now)
      { Search := "", Page := 0, PerPage := 0, SortBy := "", SortDir := "" }
      Sample.store).2.2.2.2.2.2.2.1 _ _ rfl).2, rfl⟩

/-- C11: a create or update that is rejected for NotFound on the fetch, for
DuplicateEmail by the uniqueness check, for InvalidDate or for TooYoung returns
the error and no user, and the calls it has made on the repository are the
reads only (EmailExists for a create; GetByID, then EmailExists when an email
is sent, for an update): Create and Update are not called, and the state is the
one the reads left, which on the table is the state before the request. An
update with a free new email and a rejected date of birth ends the same way. -/
theorem rejected_request_not_applied {σ : Type} (repo : UserRepository σ) (now : Time) (s : σ) :
    (∀ (req : CreateUserRequest) (s1 : σ) (err : String),
      (repo.EmailExists req.Email 0 s = (.ok true, s1) ∧ err = "email already exists") ∨
      (repo.EmailExists req.Email 0 s = (.ok false, s1) ∧
        dateRejection now req.DateOfBirth = some err) →
      userService.CreateUser (recording repo) now req (s, []) =
        (.error err, (s1, [.EmailExists req.Email 0]))) ∧
    (∀ (id : Nat) (req : UpdateUserRequest) (s1 : σ) (err : String),
      repo.GetByID id s = (.error err, s1) →
      userService.UpdateUser (recording repo) now id req (s, []) =
        (.error err, (s1, [.GetByID id]))) ∧
    (∀ (id : Nat) (req : UpdateUserRequest) (fetched : User) (s1 s2 : σ) (e : String),
      repo.GetByID id s = (.ok fetched, s1) → req.Email = some e →
      repo.EmailExists (ToLower (TrimSpace e)) id s1 = (.ok true, s2) →
      userService.UpdateUser (recording repo) now id req (s, []) =
        (.error "email already exists",
          (s2, [.GetByID id, .EmailExists (ToLower (TrimSpace e)) id]))) ∧
    (∀ (id : Nat) (req : UpdateUserRequest) (fetched : User) (s1 : σ) (d err : String),
      repo.GetByID id s = (.ok fetched, s1) → req.Email = none → req.DateOfBirth = some d →
      dateRejection now d = some err →
      userService.UpdateUser (recording repo) now id req (s, []) =
        (.error err, (s1, [.GetByID id]))) ∧
    (∀ (id : Nat) (req : UpdateUserRequest) (fetched : User) (s1 s2 : σ) (e d err : String),
      repo.GetByID id s = (.ok fetched, s1) → req.Email = some e →
      repo.EmailExists (ToLower (TrimSpace e)) id s1 = (.ok false, s2) →
      req.DateOfBirth = some d → dateRejection now d = some err →
      userService.UpdateUser (recording repo) now id req (s, []) =
        (.error err, (s2, [.GetByID id, .EmailExists (ToLower (TrimSpace e)) id]))) ∧
    (∀ (st : Store) (id : Nat) (e : String) (x : Nat),
      ((NewUserRepository memDB).GetByID id st).2 = st ∧
      ((NewUserRepository memDB).EmailExists e x st).2 = st) := by
  refine ⟨?_, ?_, ?_, ?_, ?_, ?_⟩
  · rintro req s1 err (⟨h, rfl⟩ | ⟨h, hd⟩)
    · have hR := recording_emailExists repo req.Email 0 s s1 [] _ h
      simp only [userService.CreateUser, hR]
      rfl
    · have hR := recording_emailExists repo req.Email 0 s s1 [] _ h
      simp only [userService.CreateUser, hR]
      simp only [dateRejection] at hd
      cases hp : Parse req.DateOfBirth with
      | error x =>
        rw [hp] at hd
        simp only [Option.some.injEq] at hd
        simp [hd]
      | ok t =>
        rw [hp] at hd
        simp only at hd
        split_ifs at hd with hage
        simp only [Option.some.injEq] at hd
        simp [hage, hd]
  · intro id req s1 err h
    have hR := recording_getByID repo id s s1 [] _ h
    rw [updateUser_eq, hR]
    rfl
  · intro id req fetched s1 s2 e h he hx
    have hR := recording_getByID repo id s s1 [] _ h
    have hE := recording_emailExists repo _ id s1 s2 ([] ++ [.GetByID id]) _ hx
    rw [updateUser_eq, hR]
    simp only [he, updateEmailStep, hE]
    rfl
  · intro id req fetched s1 d err h he hd hrej
    have hR := recording_getByID repo id s s1 [] _ h
    rw [updateUser_eq, hR]
    simp only [he, hd, updateEmailStep, updateDateStep_rejected now d err _ hrej]
    rfl
  · intro id req fetched s1 s2 e d err h he hx hd hrej
    have hR := recording_getByID repo id s s1 [] _ h
    have hE := recording_emailExists repo _ id s1 s2 ([] ++ [.GetByID id]) _ hx
    rw [updateUser_eq, hR]
    simp only [he, hd, updateEmailStep, hE, updateDateStep_rejected now d err _ hrej]
    rfl
  · intro st id e x
    refine ⟨memDB_getByID_state id st, ?_⟩
    simp only [NewUserRepository, memDB_emailExists_eq]

theorem rejected_request_not_applied_witness :
    (NewUserRepository memDB).GetByID 2 Sample.store = (.ok Sample.bob, Sample.store) ∧
    (NewUserRepository memDB).EmailExists "new@example.com" 2 Sample.store =
      (.ok false, Sample.store) ∧
    dateRejection Sample.now "2010-01-01" = some "user must be older than 18 years" ∧
    userService.UpdateUser (recording (NewUserRepository memDB)) Sample.now 2
        Sample.emailAndDateRequest (Sample.store, []) =
      (.error "user must be older than 18 years",
        (Sample.store, [.GetByID 2, .EmailExists "new@example.com" 2])) :=
  ⟨rfl, rfl, rfl,
    (rejected_request_not_applied (NewUserRepository memDB) Sample.now Sample.store).2.2.2.2.1
      2 Sample.emailAndDateRequest Sample.bob Sample.store Sample.store "New@Example.com "
      "2010-01-01" "user must be older than 18 years" rfl rfl rfl rfl rfl⟩

/-- C12: on the table, EmailExists(e, x) answers true exactly when some row that
is not soft-deleted has email e (as the column compares text, which on
lower-case text is equality) and, when x > 0, an id other than x. When the
live rows have pairwise distinct emails, every live user u has
EmailExists(u.email, 0) true and, its id being positive, EmailExists(u.email,
u.id) false, so an update of u that sends its own email passes the uniqueness
check and goes on to the Update call; that call succeeds when no other row of
the table holds the email. -/
theorem emailExists_excludes_own (st : Store)
    (hdistinct : (st.rows.filter (fun u => u.DeletedAt.isNone)).Pairwise
      (fun a b => Store.sqlEq a.Email b.Email = false)) :
    (∀ (e : String) (x : Nat), ∃ b,
      (NewUserRepository memDB).EmailExists e x st = (.ok b, st) ∧
      (b = true ↔ ∃ u ∈ st.rows, u.DeletedAt = none ∧ Store.sqlEq u.Email e = true ∧
        (0 < x → u.ID ≠ x))) ∧
    (∀ a b : String, ToLower a = a → ToLower b = b → (Store.sqlEq a b = true ↔ a = b)) ∧
    (∀ u ∈ st.rows, u.DeletedAt = none →
      (NewUserRepository memDB).EmailExists u.Email 0 st = (.ok true, st) ∧
      (0 < u.ID →
        (NewUserRepository memDB).EmailExists u.Email u.ID st = (.ok false, st) ∧
        ∀ (now : Time) (req : UpdateUserRequest) (e : String),
          req.Email = some e → ToLower (TrimSpace e) = u.Email →
          (∀ d, req.DateOfBirth = some d → dateRejection now d = none) →
          ∃ r, r.Email = u.Email ∧
            (userService.UpdateUser (recording (NewUserRepository memDB)) now u.ID req
              (st, [])).2.2 = [.GetByID u.ID, .EmailExists u.Email u.ID, .Update r] ∧
            ((∀ w ∈ st.rows, w.ID ≠ u.ID → Store.sqlEq w.Email u.Email = false) →
              (userService.UpdateUser (recording (NewUserRepository memDB)) now u.ID req
                (st, [])).1 = .ok { r with UpdatedAt := st.clock }))) := by
  refine ⟨fun e x => memDB_emailExists_iff st e x, ?_, ?_⟩
  · intro a b ha hb
    simp only [Store.sqlEq, ha, hb, beq_iff_eq]
  intro u hu hlive
  have hsymm : Symmetric (fun a b : User => Store.sqlEq a.Email b.Email = false) := by
    intro a b hab
    rw [Store.sqlEq_comm]
    exact hab
  have hkey : ∀ w ∈ st.rows, w.DeletedAt = none → Store.sqlEq w.Email u.Email = true → w = u := by
    intro w hw hwl hweq
    by_contra hne
    have hw' : w ∈ st.rows.filter (fun u => u.DeletedAt.isNone) := by
      simp [List.mem_filter, hw, hwl]
    have hu' : u ∈ st.rows.filter (fun u => u.DeletedAt.isNone) := by
      simp [List.mem_filter, hu, hlive]
    have := hdistinct.forall hsymm hw' hu' hne
    simp only at this
    rw [this] at hweq
    exact Bool.false_ne_true hweq
  constructor
  · obtain ⟨b, hb, hiff⟩ := memDB_emailExists_iff st u.Email 0
    have : b = true := hiff.2 ⟨u, hu, hlive, Store.sqlEq_self _, fun h => absurd h (lt_irrefl 0)⟩
    rw [hb, this]
  intro hpos
  have hfalse : (NewUserRepository memDB).EmailExists u.Email u.ID st = (.ok false, st) := by
    obtain ⟨b, hb, hiff⟩ := memDB_emailExists_iff st u.Email u.ID
    cases b with
    | false => exact hb
    | true =>
      obtain ⟨w, hw, hwl, hweq, hwid⟩ := hiff.1 rfl
      have := hkey w hw hwl hweq
      exact absurd (congrArg User.ID this) (hwid hpos)
  refine ⟨hfalse, ?_⟩
  intro now req e he hnorm hdate
  have hsel : Store.selectRows (fun w => w.ID == u.ID) st ≠ [] := by
    intro hnil
    have hmem : u ∈ Store.selectRows (fun w => w.ID == u.ID) st := by
      simp [Store.selectRows, List.mem_filter, hu, hlive]
    rw [hnil] at hmem
    exact List.not_mem_nil _ hmem
  obtain ⟨fetched, hhead⟩ : ∃ f, (Store.selectRows (fun w => w.ID == u.ID) st).head? = some f := by
    cases hs : Store.selectRows (fun w => w.ID == u.ID) st with
    | nil => exact absurd hs hsel
    | cons f fs => exact ⟨f, rfl⟩
  have hfid : fetched.ID = u.ID := by
    have hmem : fetched ∈ Store.selectRows (fun w => w.ID == u.ID) st :=
      List.mem_of_mem_head? hhead
    simp only [Store.selectRows, List.mem_filter, Bool.and_eq_true, beq_iff_eq] at hmem
    exact hmem.2.2
  have hget : (NewUserRepository memDB).GetByID u.ID st = (.ok fetched, st) := by
    simp only [NewUserRepository, memDB_getByID_eq, hhead]
  have hR := recording_getByID (NewUserRepository memDB) u.ID st st [] _ hget
  have hE := recording_emailExists (NewUserRepository memDB) u.Email u.ID st st
    ([] ++ [.GetByID u.ID]) _ hfalse
  obtain ⟨u2, hu2, hu2e, hu2id⟩ :=
    updateDateStep_accepted now req.DateOfBirth { fetched with Email := u.Email } hdate
  obtain ⟨k1, -, -, -, k5, -⟩ := updateFields_keeps now req u2
  have hU : (recording (NewUserRepository memDB)).Update (updateFields now req u2)
      (st, [] ++ [.GetByID u.ID] ++ [.EmailExists u.Email u.ID]) =
      (((NewUserRepository memDB).Update (updateFields now req u2) st).1,
        ((NewUserRepository memDB).Update (updateFields now req u2) st).2,
        [] ++ [.GetByID u.ID] ++ [.EmailExists u.Email u.ID] ++
          [.Update (updateFields now req u2)]) := rfl
  have hrun : userService.UpdateUser (recording (NewUserRepository memDB)) now u.ID req (st, []) =
      (recording (NewUserRepository memDB)).Update (updateFields now req u2)
          (st, [] ++ [.GetByID u.ID] ++ [.EmailExists u.Email u.ID]) := by
    rw [updateUser_eq, hR]
    simp only [he, updateEmailStep, hnorm, hE, Bool.false_eq_true, if_false, hu2]
    generalize (recording (NewUserRepository memDB)).Update (updateFields now req u2)
      (st, [] ++ [.GetByID u.ID] ++ [.EmailExists u.Email u.ID]) = x
    rcases x with ⟨_ | _, _⟩ <;> rfl
  refine ⟨updateFields now req u2, by rw [k5, hu2e], ?_, ?_⟩
  · rw [hrun, hU]
    rfl
  · intro hindex
    have hok := memDB_update_ok (updateFields now req u2) st (by rw [k1, hu2id, hfid]; exact hpos)
      (by
        intro w hw hne
        rw [k1, hu2id, hfid] at hne
        rw [k5, hu2e]
        exact hindex w hw hne)
    rw [hrun, hU]
    have hok' : ((NewUserRepository memDB).Update (updateFields now req u2) st).1 =
        .ok { updateFields now req u2 with UpdatedAt := st.clock } := hok
    rw [hok']

theorem emailExists_excludes_own_witness :
    (NewUserRepository memDB).EmailExists "bob@example.com" 0 Sample.store =
      (.ok true, Sample.store) ∧
    (NewUserRepository memDB).EmailExists "bob@example.com" 2 Sample.store =
      (.ok false, Sample.store) ∧
    (NewUserRepository memDB).EmailExists "bob@example.com" 1 Sample.store =
      (.ok true, Sample.store) ∧
    ∃ r, r.Email = "bob@example.com" ∧
      (userService.UpdateUser (recording (NewUserRepository memDB)) Sample.now 2
        Sample.ownEmailRequest (Sample.store, [])).2.2 =
        [.GetByID 2, .EmailExists "bob@example.com" 2, .Update r] :=
  have h := (emailExists_excludes_own Sample.store (by decide)).2.2 Sample.bob (by decide) rfl
  ⟨h.1, (h.2 (by decide)).1, rfl,
    ((h.2 (by decide)).2 Sample.now Sample.ownEmailRequest " Bob@Example.com" rfl rfl
      (fun d hd => by cases hd)).imp (fun _ hr => ⟨hr.1, hr.2.1⟩)⟩

/-- C13: after a successful Delete(id) on the table, GetByID(id), and with it
GetUser(id), fails with "user not found". -/
theorem delete_then_getByID (st st' : Store) (id : Nat) (now : Time)
    (hdel : (NewUserRepository memDB).Delete id st = (.ok (), st')) :
    (NewUserRepository memDB).GetByID id st' = (.error "user not found", st') ∧
    userService.GetUser (NewUserRepository memDB) now id st' = (.error "user not found", st') := by
  have hst : st' = { st with rows := st.rows.map (fun r =>
      if r.ID = id ∧ r.DeletedAt = none then { r with DeletedAt := some st.clock } else r) } := by
    have h := congrArg Prod.snd hdel
    simp only [NewUserRepository, memDB_delete_eq] at h
    exact h.symm
  have hget : (NewUserRepository memDB).GetByID id st' = (.error "user not found", st') := by
    simp only [NewUserRepository, memDB_getByID_eq]
    rw [hst, Store.selectRows_after_delete]
    rfl
  refine ⟨hget, ?_⟩
  simp only [userService.GetUser, hget]

theorem delete_then_getByID_witness :
    (NewUserRepository memDB).GetByID 2 Sample.store = (.ok Sample.bob, Sample.store) ∧
    (∃ st', (NewUserRepository memDB).Delete 2 Sample.store = (.ok (), st') ∧
      (NewUserRepository memDB).GetByID 2 st' = (.error "user not found", st')) :=
  ⟨rfl, _, rfl, (delete_then_getByID Sample.store _ 2 Sample.now rfl).1⟩

/-- C14 (at the failing input): after a successful CreateUser, a second
CreateUser whose email normalises to the same address never succeeds and
leaves the table as it is, but its error is "email already exists" only when
the uniqueness check finds the email as it was sent, or when the date of birth
is accepted and the insert meets the unique index; when the email as sent is
not found (it carries white space) and the date of birth is rejected, the error
is the InvalidDate or TooYoung one. -/
theorem createUser_same_address_twice (st st1 : Store) (now now2 : Time)
    (req1 req2 : CreateUserRequest) (u : User)
    (hsame : ToLower (TrimSpace req1.Email) = ToLower (TrimSpace req2.Email))
    (hfirst : userService.CreateUser (NewUserRepository memDB) now req1 st = (.ok u, st1)) :
    (∃ err, userService.CreateUser (NewUserRepository memDB) now2 req2 st1 = (.error err, st1)) ∧
    ((NewUserRepository memDB).EmailExists req2.Email 0 st1 = (.ok true, st1) →
      userService.CreateUser (NewUserRepository memDB) now2 req2 st1 =
        (.error "email already exists", st1)) ∧
    ((NewUserRepository memDB).EmailExists req2.Email 0 st1 = (.ok false, st1) →
      (∀ e, dateRejection now2 req2.DateOfBirth = some e →
        userService.CreateUser (NewUserRepository memDB) now2 req2 st1 = (.error e, st1)) ∧
      (dateRejection now2 req2.DateOfBirth = none → (∀ w ∈ st1.rows, w.ID ≠ st1.nextID) →
        userService.CreateUser (NewUserRepository memDB) now2 req2 st1 =
          (.error "email already exists", st1))) := by
  obtain ⟨row, hrowmem, hrowEmail⟩ := createUser_ok_row now req1 u st st1 hfirst
  have hrow : ∃ w ∈ st1.rows, Store.sqlEq w.Email (ToLower (TrimSpace req2.Email)) = true :=
    ⟨row, hrowmem, by rw [hrowEmail, hsame]; exact Store.sqlEq_self _⟩
  have htrue : (NewUserRepository memDB).EmailExists req2.Email 0 st1 = (.ok true, st1) →
      userService.CreateUser (NewUserRepository memDB) now2 req2 st1 =
        (.error "email already exists", st1) := by
    intro h
    simp only [userService.CreateUser, h, if_true]
  refine ⟨?_, htrue, ?_⟩
  · obtain ⟨b, hb, -⟩ := memDB_emailExists_iff st1 req2.Email 0
    cases b with
    | true => exact ⟨_, htrue hb⟩
    | false =>
      obtain ⟨h1, h2⟩ := createUser_after_check now2 req2 st1 hb hrow
      cases hd : dateRejection now2 req2.DateOfBirth with
      | some e => exact ⟨e, h1 e hd⟩
      | none =>
        obtain ⟨err, herr, -⟩ := h2 hd
        exact ⟨err, herr⟩
  · intro hb
    obtain ⟨h1, h2⟩ := createUser_after_check now2 req2 st1 hb hrow
    refine ⟨h1, fun hd hfresh => ?_⟩
    obtain ⟨err, herr, he⟩ := h2 hd
    rw [herr, he hfresh]

theorem createUser_same_address_twice_witness :
    ToLower (TrimSpace "dave@example.com") = ToLower (TrimSpace " Dave@Example.com ") ∧
    ∃ u st1,
      userService.CreateUser (NewUserRepository memDB) Sample.now
        (Sample.request "dave@example.com" "1990-01-01") Sample.store = (.ok u, st1) ∧
      (NewUserRepository memDB).EmailExists " Dave@Example.com " 0 st1 = (.ok false, st1) ∧
      userService.CreateUser (NewUserRepository memDB) Sample.now
        (Sample.request " Dave@Example.com " "invalid-date") st1 =
        (.error ("invalid date of birth format, use YYYY-MM-DD: " ++
          parseErrorText "invalid-date"), st1) ∧
      userService.CreateUser (NewUserRepository memDB) Sample.now
        (Sample.request " Dave@Example.com " "2010-01-01") st1 =
        (.error "user must be older than 18 years", st1) ∧
      userService.CreateUser (NewUserRepository memDB) Sample.now
        (Sample.request " Dave@Example.com " "1990-01-01") st1 =
        (.error "email already exists", st1) ∧
      userService.CreateUser (NewUserRepository memDB) Sample.now
        (Sample.request "Dave@Example.com" "invalid-date") st1 =
        (.error "email already exists", st1) :=
  ⟨by decide, _, _, rfl, rfl,
    ((createUser_same_address_twice Sample.store _ Sample.now Sample.now
      (Sample.request "dave@example.com" "1990-01-01")
      (Sample.request " Dave@Example.com " "invalid-date") _ (by decide) rfl).2.2 rfl).1 _ rfl,
    rfl, rfl, rfl⟩

/-- C15: the list handler answers 400 "Invalid sort field" exactly when sort_by,
with the empty value replaced by created_at, is not literally one of name,
email, age, phone, created_at, updated_at; the answer is then the same for
every service and leaves the state as it was, so the service is not called and
no default takes the place of the unrecognised value. -/
theorem listUsers_invalid_sort {σ : Type} (userService : UserService σ) (p : UserSearchParams)
    (s : σ) :
    ((UserHandler.ListUsers userService (some p) s).1 =
        .failure 400 { Error := "Invalid sort field", Details := [] } ↔
      (searchDefaults p).SortBy ∉ ["name", "email", "age", "phone", "created_at", "updated_at"]) ∧
    ((searchDefaults p).SortBy ∉ ["name", "email", "age", "phone", "created_at", "updated_at"] →
      ∀ other : UserService σ, UserHandler.ListUsers other (some p) s =
        (.failure 400 { Error := "Invalid sort field", Details := [] }, s)) := by
  have hbad : (searchDefaults p).SortBy ∉ ["name", "email", "age", "phone", "created_at", "updated_at"] →
      ∀ other : UserService σ, UserHandler.ListUsers other (some p) s =
        (.failure 400 { Error := "Invalid sort field", Details := [] }, s) := by
    intro h other
    rw [handler_listUsers_defaults]
    obtain ⟨h1, h2, h3, h4⟩ := searchDefaults_normal p
    simp only [UserHandler.ListUsers, h1, h2, h3, h4, if_false, h, not_false_eq_true, if_true]
  refine ⟨⟨fun hresp => ?_, fun h => by rw [hbad h userService]⟩, hbad⟩
  intro hmem
  obtain ⟨h1, h2, h3, h4⟩ := searchDefaults_normal p
  rw [handler_listUsers_defaults] at hresp
  by_cases hv : validateSearchParams (searchDefaults p) = []
  · rw [handler_listUsers_normal userService (searchDefaults p) s h1 h2 h3 h4 hmem hv] at hresp
    generalize userService.ListUsers (searchDefaults p) s = x at hresp
    rcases x with ⟨_ | r, s1⟩ <;> simp at hresp
  · simp only [UserHandler.ListUsers, h1, h2, h3, h4, if_false, hmem, not_true_eq_false] at hresp
    cases hvl : validateSearchParams (searchDefaults p) with
    | nil => exact hv hvl
    | cons e es =>
      rw [hvl] at hresp
      simp at hresp

theorem listUsers_invalid_sort_witness :
    (∀ sortBy ∈ ["id", "Name", "date_of_birth", "created_at "],
      UserHandler.ListUsers (NewUserService (NewUserRepository memDB) Sample.now)
          (some (Sample.firstPage sortBy "asc")) Sample.store =
        (.failure 400 { Error := "Invalid sort field", Details := [] }, Sample.store)) ∧
    (UserHandler.ListUsers (NewUserService (NewUserRepository memDB) Sample.now)
        (some (Sample.firstPage "" "asc")) Sample.store).1.status = 200 :=
  ⟨fun sortBy h =>
    (listUsers_invalid_sort (NewUserService (NewUserRepository memDB) Sample.now)
      (Sample.firstPage sortBy "asc") Sample.store).2
      (by
        simp only [List.mem_cons, List.mem_singleton, List.not_mem_nil, or_false] at h
        rcases h with rfl | rfl | rfl | rfl <;> decide) _,
    by rfl⟩

/-- C16 (at the failing input): the create and update handlers answer 400 for
the service errors "email already exists" and "user must be older than 18
years", but a service error that begins "invalid date of birth format, use
YYYY-MM-DD: " is none of the texts they compare with, so an unparsable
date_of_birth is answered with 500 "Failed to create user" or "Failed to
update user". -/
theorem invalidDate_answered_500 {σ : Type} (userService : UserService σ) (validator : Validate)
    (s s1 : σ) :
    (∀ (req : CreateUserRequest) (detail : String),
      validateCreateUserRequest validator req = [] →
      userService.CreateUser req s =
        (.error ("invalid date of birth format, use YYYY-MM-DD: " ++ detail), s1) →
      UserHandler.CreateUser userService validator (some req) s =
        (.failure 500 { Error := "Failed to create user", Details := [] }, s1)) ∧
    (∀ (idStr : String) (id : Nat) (req : UpdateUserRequest) (detail : String),
      ParseUint idStr = some id → validateUpdateUserRequest validator req = [] →
      userService.UpdateUser id req s =
        (.error ("invalid date of birth format, use YYYY-MM-DD: " ++ detail), s1) →
      UserHandler.UpdateUser userService validator idStr (some req) s =
        (.failure 500 { Error := "Failed to update user", Details := [] }, s1)) ∧
    (∀ (req : CreateUserRequest) (err : String),
      validateCreateUserRequest validator req = [] →
      userService.CreateUser req s = (.error err, s1) →
      err = "email already exists" ∨ err = "user must be older than 18 years" →
      UserHandler.CreateUser userService validator (some req) s =
        (.failure 400 { Error := err, Details := [] }, s1)) ∧
    (∀ (idStr : String) (id : Nat) (req : UpdateUserRequest) (err : String),
      ParseUint idStr = some id → validateUpdateUserRequest validator req = [] →
      userService.UpdateUser id req s = (.error err, s1) →
      err = "email already exists" ∨ err = "user must be older than 18 years" →
      UserHandler.UpdateUser userService validator idStr (some req) s =
        (.failure 400 { Error := err, Details := [] }, s1)) := by
  refine ⟨?_, ?_, ?_, ?_⟩
  · intro req detail hv hs
    obtain ⟨h1, h2, -⟩ := invalidDate_ne_recognised detail
    simp only [UserHandler.CreateUser, hv, hs, h1, h2, or_self, if_false]
  · intro idStr id req detail hp hv hs
    obtain ⟨h1, h2, h3⟩ := invalidDate_ne_recognised detail
    simp only [UserHandler.UpdateUser, hp, hv, hs, h1, h2, h3, or_self, if_false]
  · intro req err hv hs herr
    simp only [UserHandler.CreateUser, hv, hs, herr, if_true]
  · intro idStr id req err hp hv hs herr
    have hnf : err ≠ "user not found" := by
      rcases herr with rfl | rfl <;> decide
    simp only [UserHandler.UpdateUser, hp, hv, hs, hnf, herr, if_true, if_false]

theorem invalidDate_answered_500_witness :
    validateCreateUserRequest Sample.validator (Sample.request "dave@example.com" "invalid-date")
      = [] ∧
    Parse "invalid-date" = .error (parseErrorText "invalid-date") ∧
    UserHandler.CreateUser (NewUserService (NewUserRepository memDB) Sample.now) Sample.validator
        (some (Sample.request "dave@example.com" "invalid-date")) Sample.store =
      (.failure 500 { Error := "Failed to create user", Details := [] }, Sample.store) ∧
    UserHandler.CreateUser (NewUserService (NewUserRepository memDB) Sample.now) Sample.validator
        (some (Sample.request "dave@example.com" "2010-01-01")) Sample.store =
      (.failure 400 { Error := "user must be older than 18 years", Details := [] },
        Sample.store) :=
  ⟨by decide, rfl,
    (invalidDate_answered_500 (NewUserService (NewUserRepository memDB) Sample.now)
      Sample.validator Sample.store Sample.store).1
      (Sample.request "dave@example.com" "invalid-date") (parseErrorText "invalid-date")
      (by decide) rfl,
    (invalidDate_answered_500 (NewUserService (NewUserRepository memDB) Sample.now)
      Sample.validator Sample.store Sample.store).2.2.1
      (Sample.request "dave@example.com" "2010-01-01") _ (by decide) rfl (Or.inr rfl)⟩

/-- C17: for GET and DELETE on /api/v1/users/:id the status is 400 when the id
text is not accepted by ParseUint (base 10, 32 bits), and then the response is
the same for every service and the state is untouched; otherwise it is 404
when the service error is the text "user not found", 500 for every other
service error and 200 when the service succeeds. -/
theorem id_handlers_status {σ : Type} (userService : UserService σ) (idStr : String) (s : σ) :
    (UserHandler.GetUser userService idStr s).1.status =
      (match ParseUint idStr with
        | none => 400
        | some id =>
          match (userService.GetUser id s).1 with
          | .error err => if err = "user not found" then 404 else 500
          | .ok _ => 200) ∧
    (UserHandler.DeleteUser userService idStr s).1.status =
      (match ParseUint idStr with
        | none => 400
        | some id =>
          match (userService.DeleteUser id s).1 with
          | .error err => if err = "user not found" then 404 else 500
          | .ok _ => 200) ∧
    (ParseUint idStr = none → ∀ other : UserService σ,
      UserHandler.GetUser other idStr s =
        (.failure 400 { Error := "Invalid user ID", Details := [] }, s) ∧
      UserHandler.DeleteUser other idStr s =
        (.failure 400 { Error := "Invalid user ID", Details := [] }, s)) ∧
    (∀ id, ParseUint idStr = some id → id < 4294967296 ∧ idStr.data ≠ [] ∧
      ∀ c ∈ idStr.data, 48 ≤ c.toNat ∧ c.toNat ≤ 57) := by
  refine ⟨?_, ?_, ?_, ?_⟩
  · simp only [UserHandler.GetUser]
    cases ParseUint idStr with
    | none => rfl
    | some id =>
      simp only
      rcases userService.GetUser id s with ⟨_ | u, s1⟩
      · simp only
        split_ifs <;> rfl
      · rfl
  · simp only [UserHandler.DeleteUser]
    cases ParseUint idStr with
    | none => rfl
    | some id =>
      simp only
      rcases userService.DeleteUser id s with ⟨_ | u, s1⟩
      · simp only
        split_ifs <;> rfl
      · rfl
  · intro h other
    simp only [UserHandler.GetUser, UserHandler.DeleteUser, h, and_self]
  · intro id h
    simp only [ParseUint] at h
    split_ifs at h with h1 h2 h3
    simp only [Option.some.injEq] at h
    refine ⟨h ▸ h3, h1, fun c hc => ?_⟩
    have := List.all_eq_true.1 h2 c hc
    simpa [isDigit] using this

theorem id_handlers_status_witness :
    ParseUint "999" = some 999 ∧ ParseUint "007" = some 7 ∧
    ParseUint "4294967295" = some 4294967295 ∧
    (∀ idStr ∈ ["invalid", "", "-1", "+1", "1.0", "0x10", " 1", "4294967296"],
      UserHandler.GetUser (NewUserService (NewUserRepository memDB) Sample.now) idStr
          Sample.store =
        (.failure 400 { Error := "Invalid user ID", Details := [] }, Sample.store)) ∧
    (UserHandler.GetUser (NewUserService (NewUserRepository memDB) Sample.now) "2"
      Sample.store).1.status = 200 ∧
    (UserHandler.GetUser (NewUserService (NewUserRepository memDB) Sample.now) "3"
      Sample.store).1.status = 404 ∧
    (UserHandler.DeleteUser (NewUserService (NewUserRepository memDB) Sample.now) "2"
      Sample.store).1.status = 200 ∧
    (UserHandler.DeleteUser (NewUserService (NewUserRepository memDB) Sample.now) "999"
      Sample.store).1.status = 404 :=
  ⟨by decide, by decide, by decide,
    fun idStr h =>
      ((id_handlers_status (NewUserService (NewUserRepository memDB) Sample.now) idStr
        Sample.store).2.2.1
        (by
          simp only [List.mem_cons, List.mem_singleton, List.not_mem_nil, or_false] at h
          rcases h with rfl | rfl | rfl | rfl | rfl | rfl | rfl | rfl <;> decide) _).1,
    by rfl, by rfl, by rfl, by rfl⟩

/-- C18: in each of the five handlers a service error the handler does not
recognise is answered with status 500, the fixed text of the operation and no
details; the response does not depend on the text of the error, so two such
errors give identical responses. -/
theorem unrecognised_error_hidden {σ : Type} (userService : UserService σ)
    (validator : Validate) (s s1 : σ) (err : String) :
    (∀ req : CreateUserRequest, validateCreateUserRequest validator req = [] →
      userService.CreateUser req s = (.error err, s1) →
      err ≠ "email already exists" → err ≠ "user must be older than 18 years" →
      UserHandler.CreateUser userService validator (some req) s =
        (.failure 500 { Error := "Failed to create user", Details := [] }, s1)) ∧
    (∀ (idStr : String) (id : Nat), ParseUint idStr = some id →
      userService.GetUser id s = (.error err, s1) → err ≠ "user not found" →
      UserHandler.GetUser userService idStr s =
        (.failure 500 { Error := "Failed to get user", Details := [] }, s1)) ∧
    (∀ (idStr : String) (id : Nat) (req : UpdateUserRequest), ParseUint idStr = some id →
      validateUpdateUserRequest validator req = [] →
      userService.UpdateUser id req s = (.error err, s1) → err ≠ "user not found" →
      err ≠ "email already exists" → err ≠ "user must be older than 18 years" →
      UserHandler.UpdateUser userService validator idStr (some req) s =
        (.failure 500 { Error := "Failed to update user", Details := [] }, s1)) ∧
    (∀ (idStr : String) (id : Nat), ParseUint idStr = some id →
      userService.DeleteUser id s = (.error err, s1) → err ≠ "user not found" →
      UserHandler.DeleteUser userService idStr s =
        (.failure 500 { Error := "Failed to delete user", Details := [] }, s1)) ∧
    (∀ p : UserSearchParams,
      (searchDefaults p).SortBy ∈ ["name", "email", "age", "phone", "created_at", "updated_at"] →
      validateSearchParams (searchDefaults p) = [] →
      userService.ListUsers (searchDefaults p) s = (.error err, s1) →
      UserHandler.ListUsers userService (some p) s =
        (.failure 500 { Error := "Failed to list users", Details := [] }, s1)) := by
  refine ⟨?_, ?_, ?_, ?_, ?_⟩
  · intro req hv hs h1 h2
    simp only [UserHandler.CreateUser, hv, hs, h1, h2, or_self, if_false]
  · intro idStr id hp hs h1
    simp only [UserHandler.GetUser, hp, hs, h1, if_false]
  · intro idStr id req hp hv hs h1 h2 h3
    simp only [UserHandler.UpdateUser, hp, hv, hs, h1, h2, h3, or_self, if_false]
  · intro idStr id hp hs h1
    simp only [UserHandler.DeleteUser, hp, hs, h1, if_false]
  · intro p hmem hv hs
    obtain ⟨h1, h2, h3, h4⟩ := searchDefaults_normal p
    rw [handler_listUsers_defaults,
      handler_listUsers_normal userService (searchDefaults p) s h1 h2 h3 h4 hmem hv, hs]

theorem unrecognised_error_hidden_witness :
    UserHandler.GetUser (NewUserService (NewUserRepository (mockDB 0 [])) Sample.now) "1" () =
      (.failure 500 { Error := "Failed to get user", Details := [] }, ()) ∧
    UserHandler.CreateUser (NewUserService (NewUserRepository (mockDB 0 [])) Sample.now)
        Sample.validator (some (Sample.request "dave@example.com" "1990-01-01")) () =
      (.failure 500 { Error := "Failed to create user", Details := [] }, ()) :=
  ⟨(unrecognised_error_hidden (NewUserService (NewUserRepository (mockDB 0 [])) Sample.now)
      Sample.validator () () "failed to get user: call to Query was not expected").2.1
      "1" 1 (by decide) rfl (by decide),
    (unrecognised_error_hidden (NewUserService (NewUserRepository (mockDB 0 [])) Sample.now)
      Sample.validator () () "failed to create user: call to ExecQuery was not expected").1
      (Sample.request "dave@example.com" "1990-01-01") (by decide) rfl (by decide) (by decide)⟩

/-- C19: the user returned by GetUser and every row returned by ListUsers is
the one the repository returned with Age replaced by the age computed from its
date of birth at the current date, whatever Age the repository returned;
ListUsers keeps the row order, total, page, per_page and total_pages. The user
returned by CreateUser and by UpdateUser over the MySQL repository carries the
age computed from the date of birth it is returned with. -/
theorem returned_age_computed {σ : Type} (repo : UserRepository σ) (db : DB σ) (now : Time)
    (s s1 : σ) :
    (∀ (id : Nat) (u : User), userService.GetUser repo now id s = (.ok u, s1) →
      u.Age = calculateAge now u.DateOfBirth ∧
      ∃ f, repo.GetByID id s = (.ok f, s1) ∧ u = { f with Age := calculateAge now f.DateOfBirth }) ∧
    (∀ (p : UserSearchParams) (r : UserListResponse),
      userService.ListUsers repo now p s = (.ok r, s1) →
      (∀ u ∈ r.Users, u.Age = calculateAge now u.DateOfBirth) ∧
      ∃ r0, repo.List p s = (.ok r0, s1) ∧
        r = { r0 with Users :=
          r0.Users.map (fun u => { u with Age := calculateAge now u.DateOfBirth }) }) ∧
    (∀ (req : CreateUserRequest) (u : User),
      userService.CreateUser (NewUserRepository db) now req s = (.ok u, s1) →
      u.Age = calculateAge now u.DateOfBirth) ∧
    (∀ (id : Nat) (req : UpdateUserRequest) (u : User),
      userService.UpdateUser (NewUserRepository db) now id req s = (.ok u, s1) →
      u.Age = calculateAge now u.DateOfBirth) := by
  refine ⟨?_, ?_, ?_, ?_⟩
  · intro id u h
    simp only [userService.GetUser] at h
    rcases hg : repo.GetByID id s with ⟨_ | f, s2⟩
    · rw [hg] at h
      simp at h
    · rw [hg] at h
      simp only [Prod.mk.injEq, Except.ok.injEq] at h
      obtain ⟨hu, hs⟩ := h
      subst hu hs
      exact ⟨rfl, f, rfl, rfl⟩
  · intro p r h
    simp only [userService.ListUsers] at h
    rcases hg : repo.List p s with ⟨_ | r0, s2⟩
    · rw [hg] at h
      simp at h
    · rw [hg] at h
      simp only [Prod.mk.injEq, Except.ok.injEq] at h
      obtain ⟨hu, hs⟩ := h
      subst hu hs
      refine ⟨?_, r0, rfl, rfl⟩
      intro u hu
      simp only [List.mem_map] at hu
      obtain ⟨v, -, rfl⟩ := hu
      rfl
  · intro req u h
    simp only [userService.CreateUser] at h
    rcases he : (NewUserRepository db).EmailExists req.Email 0 s with ⟨_ | b, s2⟩
    · rw [he] at h
      simp at h
    · rw [he] at h
      cases b with
      | true => simp at h
      | false =>
        simp only [Bool.false_eq_true, if_false] at h
        cases hp : Parse req.DateOfBirth with
        | error x =>
          rw [hp] at h
          simp at h
        | ok t =>
          rw [hp] at h
          simp only at h
          split_ifs at h with hage
          · simp at h
          generalize hc : (NewUserRepository db).Create _ s2 = c at h
          rcases c with ⟨_ | v, s3⟩
          · simp at h
          · simp only [Prod.mk.injEq, Except.ok.injEq] at h
            obtain ⟨hv, -⟩ := h
            subst hv
            obtain ⟨w, hw⟩ := userRepository.create_ok db _ v s2 (by
              have := congrArg Prod.fst hc
              exact this)
            rw [hw]
  · intro id req u h
    rw [updateUser_eq] at h
    rcases hg : (NewUserRepository db).GetByID id s with ⟨_ | f, s2⟩
    · rw [hg] at h
      simp at h
    · rw [hg] at h
      simp only at h
      rcases hE : updateEmailStep (NewUserRepository db) id req.Email f s2 with ⟨_ | u1, s3⟩
      · rw [hE] at h
        simp at h
      · rw [hE] at h
        simp only at h
        cases hD : updateDateStep now req.DateOfBirth u1 with
        | error x =>
          rw [hD] at h
          simp at h
        | ok u2 =>
          rw [hD] at h
          simp only at h
          generalize hc : (NewUserRepository db).Update _ s3 = c at h
          rcases c with ⟨_ | v, s4⟩
          · simp at h
          · simp only [Prod.mk.injEq, Except.ok.injEq] at h
            obtain ⟨hv, -⟩ := h
            subst hv
            obtain ⟨t, ht⟩ := userRepository.update_ok db _ v s3 (by
              have := congrArg Prod.fst hc
              exact this)
            rw [ht]
            rcases req with ⟨_ | n, e, d, _ | ph, _ | a⟩ <;> rfl

theorem returned_age_computed_witness :
    (∃ u, userService.GetUser (NewUserRepository memDB) Sample.now 2 Sample.store =
        (.ok u, Sample.store) ∧ Sample.bob.Age = 0 ∧ u.Age = 30 ∧
      calculateAge Sample.now u.DateOfBirth = 30) ∧
    (∃ u st, userService.CreateUser (NewUserRepository memDB) Sample.now
        (Sample.request "dave@example.com" "1990-01-01") Sample.store = (.ok u, st) ∧
      u.Age = calculateAge Sample.now u.DateOfBirth ∧ u.Age = 35) :=
  ⟨⟨_, rfl, rfl,
      ((returned_age_computed (NewUserRepository memDB) memDB Sample.now Sample.store
        Sample.store).1 2 _ rfl).1.symm ▸ by decide, by decide⟩,
    ⟨_, _, rfl,
      (returned_age_computed (NewUserRepository memDB) memDB Sample.now Sample.store _).2.2.1
        (Sample.request "dave@example.com" "1990-01-01") _ rfl, by decide⟩⟩

/-- C20 (at the failing input): the handler checks the length of the name as
received and the service trims it afterwards, so the name " a " (three
characters) passes `min=2` and is stored as "a", and a name of three spaces
passes `required` and is stored empty; only the upper bound of 100 carries
over to the stored name. -/
theorem stored_name_checked_before_trim (validator : Validate)
    (hemail : validator.email "dave@example.com" = true) :
    (∀ req : CreateUserRequest, validateCreateUserRequest validator req = [] →
      2 ≤ req.Name.length ∧ req.Name.length ≤ 100 ∧ (TrimSpace req.Name).length ≤ 100) ∧
    validateCreateUserRequest validator (Sample.requestNamed " a ") = [] ∧
    (∃ u st, UserHandler.CreateUser (NewUserService (NewUserRepository memDB) Sample.now)
        validator (some (Sample.requestNamed " a ")) Sample.store =
        (.success 201 { Message := "User created successfully", Data := .user u }, st) ∧
      u.Name = "a" ∧ u.Name.length = 1 ∧
      st.rows.map (fun r => r.Name) = ["Alice", "Bob", "Carol", "a"]) ∧
    validateCreateUserRequest validator (Sample.requestNamed "   ") = [] ∧
    (∃ u st, UserHandler.CreateUser (NewUserService (NewUserRepository memDB) Sample.now)
        validator (some (Sample.requestNamed "   ")) Sample.store =
        (.success 201 { Message := "User created successfully", Data := .user u }, st) ∧
      u.Name = "" ∧
      st.rows.map (fun r => r.Name) = ["Alice", "Bob", "Carol", ""]) := by
  have hv1 : validateCreateUserRequest validator (Sample.requestNamed " a ") = [] := by
    simp only [validateCreateUserRequest, Sample.requestNamed, hemail, if_true]
    decide
  have hv2 : validateCreateUserRequest validator (Sample.requestNamed "   ") = [] := by
    simp only [validateCreateUserRequest, Sample.requestNamed, hemail, if_true]
    decide
  refine ⟨?_, hv1, ?_, hv2, ?_⟩
  · intro req hv
    obtain ⟨-, h2, h3⟩ := validateCreateUserRequest_name validator req hv
    exact ⟨h2, h3, le_trans (TrimSpace_length_le _) h3⟩
  · rw [handler_createUser_valid _ _ _ _ hv1]
    exact ⟨_, _, rfl, by decide, by decide, by decide⟩
  · rw [handler_createUser_valid _ _ _ _ hv2]
    exact ⟨_, _, rfl, by decide, by decide⟩

theorem stored_name_checked_before_trim_witness :
    Sample.validator.email "dave@example.com" = true ∧
    validateCreateUserRequest Sample.validator (Sample.requestNamed " a ") = [] ∧
    ∃ u st, UserHandler.CreateUser (NewUserService (NewUserRepository memDB) Sample.now)
        Sample.validator (some (Sample.requestNamed " a ")) Sample.store =
        (.success 201 { Message := "User created successfully", Data := .user u }, st) ∧
      u.Name = "a" ∧ u.Name.length = 1 ∧
      st.rows.map (fun r => r.Name) = ["Alice", "Bob", "Carol", "a"] :=
  ⟨by decide, (stored_name_checked_before_trim Sample.validator (by decide)).2.1,
    (stored_name_checked_before_trim Sample.validator (by decide)).2.2.1⟩

/-- C21 (amended): when sort_by, after defaulting, is one of the six accepted
names, the list handler calls the service, with the defaulted parameters,
exactly when page >= 1, 1 <= per_page <= 100 and sort_dir is "asc" or "desc";
otherwise it answers 400 "Validation failed", whatever the service, with one
detail for each of Page, PerPage and SortDir that is at fault, and leaves the
state as it was. -/
theorem listUsers_validation {σ : Type} (userService : UserService σ) (p : UserSearchParams)
    (s : σ)
    (hsort : (searchDefaults p).SortBy ∈
      ["name", "email", "age", "phone", "created_at", "updated_at"]) :
    (SearchValid (searchDefaults p) →
      UserHandler.ListUsers userService (some p) s =
        match userService.ListUsers (searchDefaults p) s with
        | (.error _, s1) => (.failure 500 { Error := "Failed to list users", Details := [] }, s1)
        | (.ok result, s1) =>
          (.success 200 { Message := "Users retrieved successfully", Data := .list result },
            s1)) ∧
    (¬ SearchValid (searchDefaults p) →
      searchViolations (searchDefaults p) ≠ [] ∧
      ∀ other : UserService σ, UserHandler.ListUsers other (some p) s =
        (.failure 400 { Error := "Validation failed",
                        Details := searchViolations (searchDefaults p) }, s)) ∧
    ((searchViolations (searchDefaults p)).map Prod.fst).Nodup ∧
    ("Page" ∈ (searchViolations (searchDefaults p)).map Prod.fst ↔
      (searchDefaults p).Page < 1) ∧
    ("PerPage" ∈ (searchViolations (searchDefaults p)).map Prod.fst ↔
      ((searchDefaults p).PerPage < 1 ∨ 100 < (searchDefaults p).PerPage)) ∧
    ("SortDir" ∈ (searchViolations (searchDefaults p)).map Prod.fst ↔
      ¬ ((searchDefaults p).SortDir = "asc" ∨ (searchDefaults p).SortDir = "desc")) := by
  obtain ⟨n1, n2, n3, n4⟩ := searchDefaults_normal p
  refine ⟨fun hv => ?_, fun hv => ?_, ?_, ?_, ?_, ?_⟩
  · rw [handler_listUsers_defaults,
      handler_listUsers_normal userService (searchDefaults p) s n1 n2 n3 n4 hsort
        ((validateSearchParams_nil_iff _).2 hv)]
  · have hne : validateSearchParams (searchDefaults p) ≠ [] := fun h =>
      hv ((validateSearchParams_nil_iff _).1 h)
    have hd := validateSearchParams_details (searchDefaults p)
    constructor
    · intro h
      rw [h] at hd
      exact hne (List.map_eq_nil_iff.1 hd)
    · intro other
      rw [handler_listUsers_defaults]
      simp only [UserHandler.ListUsers, n1, n2, n3, n4, if_false, hsort, not_true_eq_false]
      cases hvl : validateSearchParams (searchDefaults p) with
      | nil => exact absurd hvl hne
      | cons e es =>
        simp only
        rw [← hvl, hd]
  · simp only [searchViolations]
    split_ifs <;> decide
  · simp only [searchViolations]
    split_ifs <;> simp_all
  · simp only [searchViolations]
    split_ifs <;> simp_all
  · simp only [searchViolations]
    split_ifs <;> simp_all

theorem listUsers_validation_witness :
    UserHandler.ListUsers (NewUserService (NewUserRepository memDB) Sample.now)
        (some { Search := "", Page := -1, PerPage := 101, SortBy := "name", SortDir := "up" })
        Sample.store =
      (.failure 400 { Error := "Validation failed",
                      Details := [("Page", "Must be at least 1"),
                                  ("PerPage", "Must be at most 100"),
                                  ("SortDir", "Invalid value")] }, Sample.store) ∧
    UserHandler.ListUsers (NewUserService (NewUserRepository memDB) Sample.now)
        (some { Search := "", Page := 0, PerPage := 0, SortBy := "", SortDir := "ASC" })
        Sample.store =
      (.failure 400 { Error := "Validation failed",
                      Details := [("SortDir", "Invalid value")] }, Sample.store) :=
  ⟨((listUsers_validation (NewUserService (NewUserRepository memDB) Sample.now)
      { Search := "", Page := -1, PerPage := 101, SortBy := "name", SortDir := "up" }
      Sample.store (by decide)).2.1 (by decide)).2 _,
    ((listUsers_validation (NewUserService (NewUserRepository memDB) Sample.now)
      { Search := "", Page := 0, PerPage := 0, SortBy := "", SortDir := "ASC" }
      Sample.store (by decide)).2.1 (by decide)).2 _⟩

/-- C21 (as stated, refuted): a request with page = -1 and the sort_by "bogus"
is answered 400 "Invalid sort field" without details, not 400 "Validation
failed": the handler checks sort_by before it validates the other values. -/
theorem listUsers_validation_after_sort :
    ¬ SearchValid (searchDefaults
      { Search := "", Page := -1, PerPage := 10, SortBy := "bogus", SortDir := "asc" }) ∧
    UserHandler.ListUsers (NewUserService (NewUserRepository memDB) Sample.now)
        (some { Search := "", Page := -1, PerPage := 10, SortBy := "bogus", SortDir := "asc" })
        Sample.store =
      (.failure 400 { Error := "Invalid sort field", Details := [] }, Sample.store) ∧
    searchViolations (searchDefaults
      { Search := "", Page := -1, PerPage := 10, SortBy := "bogus", SortDir := "asc" }) =
      [("Page", "Must be at least 1")] := by
  refine ⟨by decide, rfl, by decide⟩

/-- C23: for a sort_by other than "age", the ORDER BY clause that List hands to
the engine is the mapped column, a space, and ASC when sort_dir equals "asc"
under case folding (ToUpper gives "ASC"), DESC for every other sort_dir, the
empty one and "desc" in any case included. -/
theorem orderClause_direction (p : UserSearchParams) (hby : p.SortBy ≠ "age") :
    userRepository.orderClause (searchDefaults p) =
      getSortField p.SortBy ++ " " ++ (if EqualFold p.SortDir "asc" then "ASC" else "DESC") ∧
    (findQuery p).order = some (userRepository.orderClause (searchDefaults p)) ∧
    (EqualFold p.SortDir "asc" = true ↔ ToUpper p.SortDir = "ASC") ∧
    (∀ {σ : Type} (db : DB σ) (s : σ),
      userRepository.List db p s =
        match db.Count (listFilter p.Search) s with
        | (.error err, s1) => (.error ("failed to count users: " ++ err.Error), s1)
        | (.ok total, s1) =>
          match db.Find (findQuery p) s1 with
          | (.error err, s2) => (.error ("failed to list users: " ++ err.Error), s2)
          | (.ok users, s2) =>
            (.ok { Users := users, Total := total, Page := (searchDefaults p).Page,
                   PerPage := (searchDefaults p).PerPage,
                   TotalPages := totalPagesOf total (searchDefaults p).PerPage }, s2)) := by
  refine ⟨?_, rfl, (toUpper_eq_ASC_iff _).symm, fun db s => list_findQuery db p s⟩
  have hby2 : (searchDefaults p).SortBy ≠ "age" := by
    simp only [searchDefaults]
    split_ifs
    · decide
    · exact hby
  have hcol : getSortField (searchDefaults p).SortBy = getSortField p.SortBy :=
    getSortField_default p.SortBy
  simp only [userRepository.orderClause, hby2, if_false, hcol]
  congr 1
  by_cases hd : p.SortDir = ""
  · have h1 : (searchDefaults p).SortDir = "desc" := by simp [searchDefaults, hd]
    rw [h1, hd]
    decide
  · have h1 : (searchDefaults p).SortDir = p.SortDir := by simp [searchDefaults, hd]
    rw [h1]
    by_cases hasc : ToUpper p.SortDir = "ASC"
    · have hf := (toUpper_eq_ASC_iff p.SortDir).1 hasc
      simp [hasc, hf]
    · have hf : EqualFold p.SortDir "asc" = false := by
        rw [Bool.eq_false_iff]
        intro h
        exact hasc ((toUpper_eq_ASC_iff p.SortDir).2 h)
      by_cases hdesc : ToUpper p.SortDir = "DESC"
      · simp [hasc, hdesc, hf]
      · simp [hasc, hdesc, hf]

theorem orderClause_direction_witness :
    userRepository.orderClause (searchDefaults (Sample.firstPage "name" "aSc")) = "name ASC" ∧
    userRepository.orderClause (searchDefaults (Sample.firstPage "name" "aſc")) = "name ASC" ∧
    userRepository.orderClause (searchDefaults (Sample.firstPage "email" "Desc")) =
      "email DESC" ∧
    userRepository.orderClause (searchDefaults (Sample.firstPage "" "")) = "created_at DESC" ∧
    userRepository.orderClause (searchDefaults (Sample.firstPage "bogus" "up")) =
      "created_at DESC" :=
  ⟨(orderClause_direction (Sample.firstPage "name" "aSc") (by decide)).1.trans (by decide),
    (orderClause_direction (Sample.firstPage "name" "aſc") (by decide)).1.trans (by decide),
    (orderClause_direction (Sample.firstPage "email" "Desc") (by decide)).1.trans (by decide),
    (orderClause_direction (Sample.firstPage "" "") (by decide)).1.trans (by decide),
    (orderClause_direction (Sample.firstPage "bogus" "up") (by decide)).1.trans (by decide)⟩

/-- C24: Create and Update of the MySQL repository return "email already
exists" when the storage call fails with an error whose text contains both
"Duplicate entry" and "email", return the storage error wrapped behind "failed
to create user: " or "failed to update user: " (a text other than "email
already exists") for every other storage error, and succeed exactly when the
storage call returns no error. The error the table raises for a second row
with the same email is recognised. -/
theorem gateway_write_errors {σ : Type} (db : DB σ) (user : User) (s : σ) :
    (∀ (err : DBError) (s1 : σ), db.Create user s = (.error err, s1) →
      userRepository.Create db user s =
        (.error (if Contains err.Error "Duplicate entry" = true ∧
            Contains err.Error "email" = true then "email already exists"
          else "failed to create user: " ++ err.Error), s1)) ∧
    (∀ (err : DBError) (s1 : σ), db.Save user s = (.error err, s1) →
      userRepository.Update db user s =
        (.error (if Contains err.Error "Duplicate entry" = true ∧
            Contains err.Error "email" = true then "email already exists"
          else "failed to update user: " ++ err.Error), s1)) ∧
    (∀ x : String, "failed to create user: " ++ x ≠ "email already exists" ∧
      "failed to update user: " ++ x ≠ "email already exists") ∧
    ((∃ u s1, userRepository.Create db user s = (.ok u, s1)) ↔
      ∃ w s1, db.Create user s = (.ok w, s1)) ∧
    ((∃ u s1, userRepository.Update db user s = (.ok u, s1)) ↔
      ∃ t s1, db.Save user s = (.ok t, s1)) ∧
    (∀ email : String, Contains (Store.duplicateEmail email).Error "Duplicate entry" = true ∧
      Contains (Store.duplicateEmail email).Error "email" = true) := by
  refine ⟨?_, ?_, failedToWrite_ne_duplicate, ?_, ?_, ?_⟩
  · intro err s1 h
    simp only [userRepository.Create, h, Bool.and_eq_true]
    split_ifs <;> rfl
  · intro err s1 h
    simp only [userRepository.Update, h, Bool.and_eq_true]
    split_ifs <;> rfl
  · simp only [userRepository.Create]
    rcases db.Create user s with ⟨err | w, s1⟩
    · simp only
      constructor
      · rintro ⟨u, s2, h⟩
        split_ifs at h <;> simp at h
      · rintro ⟨w, s2, h⟩
        simp at h
    · exact ⟨fun _ => ⟨w, s1, rfl⟩, fun _ => ⟨_, s1, rfl⟩⟩
  · simp only [userRepository.Update]
    rcases db.Save user s with ⟨err | t, s1⟩
    · simp only
      constructor
      · rintro ⟨u, s2, h⟩
        split_ifs at h <;> simp at h
      · rintro ⟨w, s2, h⟩
        simp at h
    · exact ⟨fun _ => ⟨t, s1, rfl⟩, fun _ => ⟨_, s1, rfl⟩⟩
  · intro email
    simp only [Store.duplicateEmail, DBError.Error]
    exact ⟨contains_append_left _ _ _ (contains_append_left _ _ _ (by decide)),
      contains_append_right _ _ _ (by decide)⟩

theorem gateway_write_errors_witness :
    userRepository.Create memDB { Sample.alice with ID := 0, Name := "Alice Again" }
      Sample.store = (.error "email already exists", Sample.store) ∧
    userRepository.Update memDB { Sample.bob with Email := "alice@example.com" }
      Sample.store = (.error "email already exists", Sample.store) ∧
    userRepository.Create (mockDB 0 []) Sample.alice () =
      (.error "failed to create user: call to ExecQuery was not expected", ()) :=
  ⟨((gateway_write_errors memDB { Sample.alice with ID := 0, Name := "Alice Again" }
      Sample.store).1 (Store.duplicateEmail "alice@example.com") Sample.store rfl).trans
      (by
        rw [if_pos ((gateway_write_errors memDB Sample.alice Sample.store).2.2.2.2.2 _)]),
    ((gateway_write_errors memDB { Sample.bob with Email := "alice@example.com" }
      Sample.store).2.1 (Store.duplicateEmail "alice@example.com") Sample.store rfl).trans
      (by
        rw [if_pos ((gateway_write_errors memDB Sample.alice Sample.store).2.2.2.2.2 _)]),
    ((gateway_write_errors (mockDB 0 []) Sample.alice ()).1
      (.other "call to ExecQuery was not expected") () rfl).trans (by
        rw [if_neg (by decide)]
        rfl)⟩

/-- C25: for the birth date 2000-03-01 and the reference date 2023-03-01 the
day-of-year rule gives 22 (day 60 of 2023 is before day 61 of the leap year
2000), while the birthday has been reached and the calendar age is 23; both
age functions of the code return 22. -/
theorem calculateAge_approximate :
    calculateAge { year := 2023, month := 3, day := 1, nanos := 0 }
      { year := 2000, month := 3, day := 1, nanos := 0 } = 22 ∧
    exactAge { year := 2023, month := 3, day := 1, nanos := 0 }
      { year := 2000, month := 3, day := 1, nanos := 0 } = 23 ∧
    Parse "2000-03-01" = .ok { year := 2000, month := 3, day := 1, nanos := 0 } ∧
    Time.YearDay { year := 2023, month := 3, day := 1, nanos := 0 } = 60 ∧
    Time.YearDay { year := 2000, month := 3, day := 1, nanos := 0 } = 61 ∧
    (∀ u : User, u.DateOfBirth = { year := 2000, month := 3, day := 1, nanos := 0 } →
      u.CalculateAge { year := 2023, month := 3, day := 1, nanos := 0 } = 22) ∧
    ∃ today b : Time, today.Valid ∧ b.Valid ∧ b ≠ Time.zero ∧
      calculateAge today b ≠ exactAge today b := by
  refine ⟨by decide, by decide, rfl, by decide, by decide, ?_, ?_⟩
  · intro u hu
    simp only [User.CalculateAge, hu]
    decide
  · exact ⟨{ year := 2023, month := 3, day := 1, nanos := 0 },
      { year := 2000, month := 3, day := 1, nanos := 0 }, by decide, by decide, by decide,
      by decide⟩

theorem calculateAge_approximate_witness :
    Sample.bob.DateOfBirth ≠ { year := 2000, month := 3, day := 1, nanos := 0 } ∧
    ({ Sample.bob with DateOfBirth := { year := 2000, month := 3, day := 1, nanos := 0 } } :
      User).CalculateAge { year := 2023, month := 3, day := 1, nanos := 0 } = 22 :=
  ⟨by decide, calculateAge_approximate.2.2.2.2.2.1 _ rfl⟩

/-- C26 (amended): at a fixed reference date the computed age does not increase
with the birth date: for calendar birth dates b1 not later than b2, neither of
them the zero time, the age for b1 is at least the age for b2. The zero time
gets age 0 although it is not later than any calendar date of year 1 or after,
so it is the exception. -/
theorem calculateAge_antitone (today b1 b2 : Time) (h1 : b1.Valid) (h2 : b2.Valid)
    (hz1 : b1 ≠ Time.zero) (hz2 : b2 ≠ Time.zero) (hle : Store.timeLE b1 b2 = true) :
    calculateAge today b2 ≤ calculateAge today b1 ∧
    (∀ u1 u2 : User, u1.DateOfBirth = b1 → u2.DateOfBirth = b2 →
      u2.CalculateAge today ≤ u1.CalculateAge today) ∧
    calculateAge today Time.zero = 0 ∧
    (1 ≤ b2.year → Store.timeLE Time.zero b2 = true) := by
  have key : calculateAge today b2 ≤ calculateAge today b1 := by
    rw [calculateAge_of_ne_zero today b1 hz1, calculateAge_of_ne_zero today b2 hz2]
    simp only [Store.timeLE, Bool.or_eq_true, Bool.and_eq_true, decide_eq_true_eq,
      beq_iff_eq] at hle
    rcases hle with hy | ⟨hy, hrest⟩
    · split_ifs <;> omega
    · have hyd : b1.YearDay ≤ b2.YearDay := by
        by_contra hlt
        rw [not_le] at hlt
        have := (Time.yearDay_lt_iff b2 b1 h2 h1 (by rw [hy])).1 hlt
        rcases hrest with hm | ⟨hm, hd | ⟨hd, -⟩⟩ <;> omega
      split_ifs <;> omega
  refine ⟨key, fun u1 u2 hu1 hu2 => ?_, ?_, fun hy => ?_⟩
  · subst hu1 hu2
    exact key
  · simp [calculateAge, Time.IsZero, Time.zero]
  · obtain ⟨hm, -, hd, -, -⟩ := h2
    simp only [Store.timeLE, Time.zero, Bool.or_eq_true, Bool.and_eq_true, decide_eq_true_eq,
      beq_iff_eq]
    by_cases hy1 : 1 < b2.year
    · exact Or.inl hy1
    · right
      refine ⟨by omega, ?_⟩
      by_cases hm1 : 1 < b2.month
      · exact Or.inl hm1
      · right
        refine ⟨by omega, ?_⟩
        by_cases hd1 : 1 < b2.day
        · exact Or.inl hd1
        · exact Or.inr ⟨by omega, Nat.zero_le _⟩

theorem calculateAge_antitone_witness :
    Store.timeLE Sample.alice.DateOfBirth Sample.bob.DateOfBirth = true ∧
    calculateAge Sample.now Sample.bob.DateOfBirth ≤
      calculateAge Sample.now Sample.alice.DateOfBirth ∧
    calculateAge Sample.now Sample.alice.DateOfBirth = 35 ∧
    calculateAge Sample.now Sample.bob.DateOfBirth = 30 ∧
    Store.timeLE Time.zero Sample.bob.DateOfBirth = true ∧
    calculateAge Sample.now Time.zero < calculateAge Sample.now Sample.bob.DateOfBirth :=
  ⟨by decide,
    (calculateAge_antitone Sample.now Sample.alice.DateOfBirth Sample.bob.DateOfBirth
      (by decide) (by decide) (by decide) (by decide) (by decide)).1,
    by decide, by decide, by decide, by decide⟩

/-- C26 (as stated, refuted): the zero time is not the earliest date. The text
"0000-01-01" parses to January 1 of year 0, a calendar date that is not the
zero time and lies before it, and CreateUser accepts it as a date of birth;
the age computed for it, 2025 at the sample instant, is not below the age 0 of
the zero time, so against this earlier date the zero time is no exception. -/
theorem zero_date_not_earliest :
    Parse "0000-01-01" = .ok { year := 0, month := 1, day := 1, nanos := 0 } ∧
    Time.Valid { year := 0, month := 1, day := 1, nanos := 0 } ∧
    ({ year := 0, month := 1, day := 1, nanos := 0 } : Time) ≠ Time.zero ∧
    Store.timeLE { year := 0, month := 1, day := 1, nanos := 0 } Time.zero = true ∧
    Store.timeLE Time.zero { year := 0, month := 1, day := 1, nanos := 0 } = false ∧
    calculateAge Sample.now { year := 0, month := 1, day := 1, nanos := 0 } = 2025 ∧
    calculateAge Sample.now Time.zero = 0 ∧
    ∃ u st, userService.CreateUser (NewUserRepository memDB) Sample.now
        (Sample.request "dave@example.com" "0000-01-01") Sample.store = (.ok u, st) ∧
      u.DateOfBirth = { year := 0, month := 1, day := 1, nanos := 0 } ∧ u.ID = 4 ∧
      st.rows.length = 4 := by
  refine ⟨rfl, by decide, by decide, by decide, by decide, by decide, by decide,
    _, _, rfl, rfl, rfl, rfl⟩

/-- C27: whatever sort_by and sort_dir are, the ORDER BY clause that List hands
to the engine is one of the fourteen strings made of a column among name,
email, phone, created_at, updated_at, id, date_of_birth and a direction ASC or
DESC; the count statement carries no ORDER BY clause. -/
theorem orderClause_closed_set (p : UserSearchParams) :
    userRepository.orderClause (searchDefaults p) ∈
      ["name ASC", "name DESC", "email ASC", "email DESC", "phone ASC", "phone DESC",
       "created_at ASC", "created_at DESC", "updated_at ASC", "updated_at DESC",
       "id ASC", "id DESC", "date_of_birth ASC", "date_of_birth DESC"] ∧
    (findQuery p).order = some (userRepository.orderClause (searchDefaults p)) ∧
    (listFilter p.Search).order = none ∧
    (∀ {σ : Type} (db : DB σ) (s : σ),
      userRepository.List db p s =
        match db.Count (listFilter p.Search) s with
        | (.error err, s1) => (.error ("failed to count users: " ++ err.Error), s1)
        | (.ok total, s1) =>
          match db.Find (findQuery p) s1 with
          | (.error err, s2) => (.error ("failed to list users: " ++ err.Error), s2)
          | (.ok users, s2) =>
            (.ok { Users := users, Total := total, Page := (searchDefaults p).Page,
                   PerPage := (searchDefaults p).PerPage,
                   TotalPages := totalPagesOf total (searchDefaults p).PerPage }, s2)) := by
  refine ⟨orderClause_mem _, rfl, ?_, fun db s => list_findQuery db p s⟩
  simp only [listFilter]
  split_ifs <;> rfl

theorem orderClause_closed_set_witness :
    userRepository.orderClause
        (searchDefaults (Sample.firstPage "name; DROP TABLE users" "asc, id")) =
      "created_at DESC" ∧
    userRepository.orderClause (searchDefaults (Sample.firstPage "id" "asc")) = "id ASC" ∧
    userRepository.orderClause
        (searchDefaults (Sample.firstPage "name; DROP TABLE users" "asc, id")) ∈
      ["name ASC", "name DESC", "email ASC", "email DESC", "phone ASC", "phone DESC",
       "created_at ASC", "created_at DESC", "updated_at ASC", "updated_at DESC",
       "id ASC", "id DESC", "date_of_birth ASC", "date_of_birth DESC"] :=
  ⟨by decide, by decide, (orderClause_closed_set _).1⟩

/-- C28 (amended): for page and per_page at least 1 whose offset
(page - 1) * per_page fits a 64-bit int and a total between 0 and 2^53, the
offset List computes is below the total exactly when page is at most the
total_pages List computes; on the table, List then returns at least one row
exactly for the pages up to the total_pages it reports. -/
theorem pagination_consistent (st : Store) (p : UserSearchParams)
    (hpage : 1 ≤ p.Page) (hper : 1 ≤ p.PerPage)
    (hoff : (p.Page - 1) * p.PerPage ≤ 9223372036854775807) :
    wrapInt (wrapInt (p.Page - 1) * p.PerPage) = (p.Page - 1) * p.PerPage ∧
    (∀ total : ℤ, 0 ≤ total → total ≤ 9007199254740992 →
      totalPagesOf total p.PerPage = ⌈(total : ℚ) / p.PerPage⌉ ∧
      (wrapInt (wrapInt (p.Page - 1) * p.PerPage) < total ↔
        p.Page ≤ totalPagesOf total p.PerPage)) ∧
    ((Store.filtered p.Search st).length ≤ 9007199254740992 →
      ∃ resp, userRepository.List memDB p st = (.ok resp, st) ∧
        resp.Total = (Store.filtered p.Search st).length ∧
        resp.TotalPages = ⌈(resp.Total : ℚ) / p.PerPage⌉ ∧
        ((p.Page - 1) * p.PerPage < resp.Total ↔ p.Page ≤ resp.TotalPages) ∧
        (resp.Users ≠ [] ↔ p.Page ≤ resp.TotalPages)) := by
  obtain ⟨n1, n2, n3, n4⟩ := searchDefaults_normal p
  obtain ⟨le, hle⟩ := Store.orderLE_orderClause (searchDefaults p)
  have hP : (searchDefaults p).Page = p.Page := by
    simp only [searchDefaults]; split_ifs <;> omega
  have hPP : (searchDefaults p).PerPage = p.PerPage := by
    simp only [searchDefaults]; split_ifs <;> omega
  have hper2 : 0 ≤ (searchDefaults p).PerPage := by omega
  have hpos : 0 ≤ (p.Page - 1) * p.PerPage := Int.mul_nonneg (by omega) (by omega)
  have hp1 : p.Page - 1 ≤ 9223372036854775807 := by nlinarith
  have hwrap : wrapInt (wrapInt (p.Page - 1) * p.PerPage) = (p.Page - 1) * p.PerPage := by
    rw [wrapInt_of_isInt64 (p.Page - 1) ⟨by omega, hp1⟩, wrapInt_of_isInt64 _ ⟨by omega, hoff⟩]
  have harith : ∀ total : ℤ, 0 ≤ total → total ≤ 9007199254740992 →
      totalPagesOf total p.PerPage = ⌈(total : ℚ) / p.PerPage⌉ ∧
      (wrapInt (wrapInt (p.Page - 1) * p.PerPage) < total ↔
        p.Page ≤ totalPagesOf total p.PerPage) := by
    intro total h0 h1
    have hc := totalPagesOf_eq_ceil total p.PerPage h0 h1 hper
    refine ⟨hc, ?_⟩
    rw [hwrap, hc]
    exact offset_lt_iff_page_le total p.Page p.PerPage hper
  refine ⟨hwrap, harith, fun hT => ?_⟩
  have hL := list_memDB (searchDefaults p) st n1 n2 n3 n4 hper2 le hle
  rw [← list_defaults] at hL
  have hsearch : (searchDefaults p).Search = p.Search := rfl
  have hT0 : (0 : ℤ) ≤ ((Store.filtered p.Search st).length : ℤ) := Int.natCast_nonneg _
  have hT1 : ((Store.filtered p.Search st).length : ℤ) ≤ 9007199254740992 := by
    exact_mod_cast hT
  obtain ⟨hceil, hiff⟩ := harith _ hT0 hT1
  have hoffset : listOffset (searchDefaults p) = ((p.Page - 1) * p.PerPage).toNat := by
    unfold listOffset
    rw [hP, hPP, hwrap]
  refine ⟨_, hL, rfl, ?_, ?_, ?_⟩
  · simp only [hsearch, hPP]
    exact hceil
  · simp only [hsearch, hPP]
    rw [← hwrap]
    exact hiff
  · simp only [hsearch, hPP, hoffset]
    rw [← hiff, hwrap]
    rw [ne_eq, ← List.length_eq_zero, List.length_take, List.length_drop,
      Store.sortRows_length]
    have hn : 1 ≤ p.PerPage.toNat := by omega
    constructor
    · intro h
      have h2 : ((p.Page - 1) * p.PerPage).toNat < (Store.filtered p.Search st).length := by
        by_contra hc
        apply h
        have : (Store.filtered p.Search st).length - ((p.Page - 1) * p.PerPage).toNat = 0 := by
          omega
        rw [this]
        exact Nat.min_zero _
      omega
    · intro h hz
      have h2 : ((p.Page - 1) * p.PerPage).toNat < (Store.filtered p.Search st).length := by
        omega
      have : 0 < min p.PerPage.toNat
          ((Store.filtered p.Search st).length - ((p.Page - 1) * p.PerPage).toNat) := by
        apply lt_min <;> omega
      omega

theorem pagination_consistent_witness :
    (∃ resp, userRepository.List memDB
        { Search := "", Page := 2, PerPage := 1, SortBy := "id", SortDir := "asc" } Sample.store
        = (.ok resp, Sample.store) ∧ resp.Total = 2 ∧ (resp.Users ≠ [] ↔ 2 ≤ resp.TotalPages)) ∧
    totalPagesOf 2 1 = 2 ∧ totalPagesOf 25 10 = 3 :=
  have h := pagination_consistent Sample.store
    { Search := "", Page := 2, PerPage := 1, SortBy := "id", SortDir := "asc" }
    (by decide) (by decide) (by decide)
  ⟨(h.2.2 (by decide)).imp (fun _ hr => ⟨hr.1, hr.2.1.trans (by decide), hr.2.2.2.2⟩),
    ((h.2.1 2 (by decide) (by decide)).1).trans (by
      rw [Int.ceil_eq_iff]
      norm_num),
    ((pagination_consistent Sample.store
      { Search := "", Page := 1, PerPage := 10, SortBy := "id", SortDir := "asc" }
      (by decide) (by decide) (by decide)).2.1 25 (by decide) (by decide)).1.trans (by
      rw [Int.ceil_eq_iff]
      norm_num)⟩

/-- C28 (as stated, refuted): with page = 2^61 + 1 and per_page = 4 on a table
of two users, total_pages is 1, so the page lies beyond it, yet the offset List
computes wraps to -2^63, which is below the total, and List returns both
users. -/
theorem pagination_overflow :
    ∃ resp, userRepository.List memDB
        { Search := "", Page := 2305843009213693953, PerPage := 4, SortBy := "id",
          SortDir := "asc" } Sample.store = (.ok resp, Sample.store) ∧
      resp.Total = 2 ∧ resp.TotalPages = 1 ∧ ¬ ((2305843009213693953 : Int) ≤ resp.TotalPages) ∧
      wrapInt (wrapInt ((2305843009213693953 : Int) - 1) * 4) < resp.Total ∧
      resp.Users ≠ [] := by
  refine ⟨_, list_memDB _ Sample.store (by decide) (by decide) (by decide) (by decide)
      (by decide) (fun a b => decide (a.ID ≤ b.ID)) rfl, by decide, ?_, ?_, by decide, by decide⟩
  · show totalPagesOf ((Store.filtered "" Sample.store).length : ℤ) 4 = 1
    have h2 : ((Store.filtered "" Sample.store).length : ℤ) = 2 := by decide
    rw [h2, totalPagesOf_eq_ceil 2 4 (by decide) (by decide) (by decide), Int.ceil_eq_iff]
    norm_num
  · show ¬ ((2305843009213693953 : Int) ≤
      totalPagesOf ((Store.filtered "" Sample.store).length : ℤ) 4)
    have h2 : ((Store.filtered "" Sample.store).length : ℤ) = 2 := by decide
    rw [h2, totalPagesOf_eq_ceil 2 4 (by decide) (by decide) (by decide)]
    have : ⌈((2 : ℤ) : ℚ) / ((4 : ℤ) : ℚ)⌉ = 1 := by
      rw [Int.ceil_eq_iff]
      norm_num
    rw [this]
    decide

/-- C29: when the reference date and a non-zero birth date are calendar dates
in years that are both leap or both not leap, the computed age is the calendar
age: the day-of-year comparison then agrees with the comparison of month and
day. -/
theorem calculateAge_exact_same_leap (today b : Time) (ht : today.Valid) (hb : b.Valid)
    (hz : b ≠ Time.zero) (hl : isLeap today.year = isLeap b.year) :
    calculateAge today b = exactAge today b ∧
    (∀ u : User, u.DateOfBirth = b → u.CalculateAge today = exactAge today b) := by
  have h : calculateAge today b = exactAge today b := by
    rw [calculateAge_of_ne_zero today b hz]
    simp only [exactAge, Time.yearDay_lt_iff today b ht hb hl]
  refine ⟨h, fun u hu => ?_⟩
  rw [← h, ← hu]
  rfl

theorem calculateAge_exact_same_leap_witness :
    isLeap 2025 = false ∧ isLeap 1995 = false ∧
    calculateAge Sample.now Sample.bob.DateOfBirth = 30 ∧
    exactAge Sample.now Sample.bob.DateOfBirth = 30 ∧
    calculateAge { year := 2024, month := 2, day := 28, nanos := 0 }
      { year := 2000, month := 2, day := 29, nanos := 0 } =
    exactAge { year := 2024, month := 2, day := 28, nanos := 0 }
      { year := 2000, month := 2, day := 29, nanos := 0 } :=
  ⟨by decide, by decide,
    (calculateAge_exact_same_leap Sample.now Sample.bob.DateOfBirth (by decide) (by decide)
      (by decide) (by decide)).1.trans (by decide), by decide,
    (calculateAge_exact_same_leap { year := 2024, month := 2, day := 28, nanos := 0 }
      { year := 2000, month := 2, day := 29, nanos := 0 } (by decide) (by decide)
      (by decide) (by decide)).1⟩

/-- C30: for sort_by = "age" the ORDER BY clause that List hands to the engine
is date_of_birth DESC when sort_dir is the string "asc" and date_of_birth ASC
for every other sort_dir, "ASC" among them; for every other sort_by the
direction "ASC" gives the mapped column followed by ASC. -/
theorem orderClause_age_case_sensitive (p : UserSearchParams) :
    (p.SortBy = "age" →
      userRepository.orderClause (searchDefaults p) =
        (if p.SortDir = "asc" then "date_of_birth DESC" else "date_of_birth ASC")) ∧
    (p.SortBy = "age" → p.SortDir = "ASC" →
      userRepository.orderClause (searchDefaults p) = "date_of_birth ASC") ∧
    (p.SortBy ≠ "age" → p.SortDir = "ASC" →
      userRepository.orderClause (searchDefaults p) = getSortField p.SortBy ++ " ASC") ∧
    (findQuery p).order = some (userRepository.orderClause (searchDefaults p)) ∧
    (∀ {σ : Type} (db : DB σ) (s : σ),
      userRepository.List db p s =
        match db.Count (listFilter p.Search) s with
        | (.error err, s1) => (.error ("failed to count users: " ++ err.Error), s1)
        | (.ok total, s1) =>
          match db.Find (findQuery p) s1 with
          | (.error err, s2) => (.error ("failed to list users: " ++ err.Error), s2)
          | (.ok users, s2) =>
            (.ok { Users := users, Total := total, Page := (searchDefaults p).Page,
                   PerPage := (searchDefaults p).PerPage,
                   TotalPages := totalPagesOf total (searchDefaults p).PerPage }, s2)) := by
  have hage : p.SortBy = "age" →
      userRepository.orderClause (searchDefaults p) =
        (if p.SortDir = "asc" then "date_of_birth DESC" else "date_of_birth ASC") := by
    intro hby
    have hby2 : (searchDefaults p).SortBy = "age" := by simp [searchDefaults, hby]
    simp only [userRepository.orderClause, hby2, if_true]
    by_cases hd : p.SortDir = ""
    · have h1 : (searchDefaults p).SortDir = "desc" := by simp [searchDefaults, hd]
      rw [h1, hd]
      decide
    · have h1 : (searchDefaults p).SortDir = p.SortDir := by simp [searchDefaults, hd]
      rw [h1]
  refine ⟨hage, fun hby hd => ?_, fun hby hd => ?_, rfl, fun db s => list_findQuery db p s⟩
  · rw [hage hby, hd]
    decide
  · have hby2 : (searchDefaults p).SortBy ≠ "age" := by
      simp only [searchDefaults]
      split_ifs
      · decide
      · exact hby
    have hcol : getSortField (searchDefaults p).SortBy = getSortField p.SortBy :=
      getSortField_default p.SortBy
    have h1 : (searchDefaults p).SortDir = "ASC" := by
      simp only [searchDefaults, hd]
      decide
    have h2 : ToUpper "ASC" = "ASC" := by decide
    simp only [userRepository.orderClause, hby2, if_false, hcol, h1, h2]
    simp only [ne_eq, not_true_eq_false, false_and, if_false]
    rw [String.append_assoc]
    rfl

theorem orderClause_age_case_sensitive_witness :
    userRepository.orderClause (searchDefaults (Sample.firstPage "age" "asc")) =
      "date_of_birth DESC" ∧
    userRepository.orderClause (searchDefaults (Sample.firstPage "age" "ASC")) =
      "date_of_birth ASC" ∧
    userRepository.orderClause (searchDefaults (Sample.firstPage "name" "ASC")) = "name ASC" ∧
    (∃ resp, userRepository.List memDB (Sample.firstPage "age" "ASC") Sample.store =
        (.ok resp, Sample.store) ∧ resp.Users = [Sample.alice, Sample.bob]) ∧
    (∃ resp, userRepository.List memDB (Sample.firstPage "age" "asc") Sample.store =
        (.ok resp, Sample.store) ∧ resp.Users = [Sample.bob, Sample.alice]) :=
  ⟨((orderClause_age_case_sensitive (Sample.firstPage "age" "asc")).1 rfl).trans (by decide),
    (orderClause_age_case_sensitive (Sample.firstPage "age" "ASC")).2.1 rfl rfl,
    ((orderClause_age_case_sensitive (Sample.firstPage "name" "ASC")).2.2.1 (by decide)
      rfl).trans (by decide),
    ⟨_, list_memDB _ Sample.store (by decide) (by decide) (by decide) (by decide) (by decide)
      (fun a b => Store.timeLE a.DateOfBirth b.DateOfBirth) rfl, by decide⟩,
    ⟨_, list_memDB _ Sample.store (by decide) (by decide) (by decide) (by decide) (by decide)
      (fun a b => Store.timeLE b.DateOfBirth a.DateOfBirth) rfl, by decide⟩⟩

end UserManagement
